import Mathlib

/-!
Verification of the Icatu extractor / database synchroniser
(`extrator_icatu.py`, `sincronizar_banco.py`).

The Python code is shallowly embedded:

* JSON / Python scalar values become the inductive type `Val`
  (`va` = key absent from the dict, `vn` = `None`, `vs` = `str`,
  `vi` = numeric; numbers are modelled by `Int`, which is adequate
  because the programs only ever test them for truthiness and
  structural equality).
* Each record kind becomes a structure whose fields are `Val`;
  a batch element is `Option rec` where `none` models a JSON
  element that is not a dict.
* The relational store becomes an in-memory `DB` of row lists.
  `SELECT ... fetchone` is the first matching row in list order,
  `INSERT` appends a row carrying a fresh serial id, `UPDATE ... WHERE
  id = x` rewrites rows in place.  SQL's three-valued NULL semantics
  is abstracted to structural equality on `Option` values.
* `datetime.now()` becomes an explicit `Now` value (a civil day
  number plus seconds into the day), threaded as a parameter.
* String routines (`str.upper`, `re.sub('[^0-9]', ...)`, `len`,
  splitting) are re-implemented over `List Char` so that everything
  is kernel-computable; they agree with CPython on the ASCII data the
  programs handle.  `strptime`’s `%d/%m/%Y` / `%Y-%m-%d` formats are
  modelled for four-digit years (including leap-year validation).
-/

/-- A Python value as read out of a parsed JSON dict.  `va` marks a key
that is absent from the dict (so that `dict.get(k)` and
`dict.get(k, default)` can be distinguished), `vn` is `None`. -/
inductive Val where
  | va : Val
  | vn : Val
  | vs : String → Val
  | vi : Int → Val
deriving DecidableEq

/-- `d[k]` access with no default: an absent key reads as `None`. -/
def pyGet (v : Val) : Val :=
  match v with
  | .va => .vn
  | w => w

/-- `d.get(k, default)`: an absent key reads as the default. -/
def pyGetD (v d : Val) : Val :=
  match v with
  | .va => d
  | w => w

/-- Python truthiness of the values that occur in these programs. -/
def Val.truthy : Val → Bool
  | .va => false
  | .vn => false
  | .vs s => !(s.isEmpty)
  | .vi n => !(n == 0)

/-- ASCII upper-casing of one character (the data handled is ASCII;
CPython's full Unicode `str.upper` is abstracted to this). -/
def upChar (c : Char) : Char :=
  if 'a' ≤ c ∧ c ≤ 'z' then Char.ofNat (c.toNat - 32) else c

/-- `str.upper()` over the character list. -/
def upperStr (s : String) : String :=
  ⟨s.data.map upChar⟩

/-- `clean_cpf`: strip non-digits from a string, return any non-string
unchanged (`re.sub(r'[^0-9]', '', cpf)` guarded by `isinstance(cpf, str)`). -/
def clean_cpf (v : Val) : Val :=
  match v with
  | .vs s => .vs ⟨s.data.filter Char.isDigit⟩
  | w => w

/-- `safe_str`: `None` stays `None`, strings stay themselves, any other
value is rendered with `str(...)`. -/
def safe_str (v : Val) : Option String :=
  match v with
  | .va => none
  | .vn => none
  | .vs s => some s
  | .vi n => some (toString n)

/-- Python `str(value)` (total; only ever reached on truthy values here). -/
def pyStr (v : Val) : String :=
  match v with
  | .va => "None"
  | .vn => "None"
  | .vs s => s
  | .vi n => toString n

/-- Python `len(value)`: defined on strings, raises `TypeError`
(modelled as `none`) on the numbers these programs can meet. -/
def pyLen (v : Val) : Option Nat :=
  match v with
  | .vs s => some s.data.length
  | _ => none

/-- Python `float(value)` restricted to the integral data modelled here:
numbers convert to themselves, strings parse as decimal integers,
anything else (or an unparsable string) is `none` (a raised error). -/
def pyFloat (v : Val) : Option Int :=
  match v with
  | .vi n => some n
  | .vs s => s.toInt?
  | _ => none

/-! ### Calendar dates (model of `datetime.strptime` / `strftime`) -/

structure Date where
  y : Nat
  m : Nat
  d : Nat
deriving DecidableEq

def isLeap (y : Nat) : Bool :=
  y % 4 == 0 && (y % 100 != 0 || y % 400 == 0)

def daysInMonth (y m : Nat) : Nat :=
  if m = 2 then (if isLeap y then 29 else 28)
  else if m = 4 ∨ m = 6 ∨ m = 9 ∨ m = 11 then 30
  else 31

def validDate (dt : Date) : Bool :=
  1 ≤ dt.y && dt.y ≤ 9999 && 1 ≤ dt.m && dt.m ≤ 12 &&
  1 ≤ dt.d && dt.d ≤ daysInMonth dt.y dt.m

/-- Split a character list at a separator character. -/
def splitChar (sep : Char) : List Char → List (List Char)
  | [] => [[]]
  | c :: cs =>
    let r := splitChar sep cs
    if c = sep then [] :: r
    else
      match r with
      | g :: gs => (c :: g) :: gs
      | [] => [[c]]

def digitsVal : List Char → Nat
  | [] => 0
  | c :: cs => (c.toNat - '0'.toNat) * 10 ^ cs.length + digitsVal cs

/-- A numeric field of between `lo` and `hi` digits, as `strptime`'s
`%d` / `%m` (1–2 digits) and `%Y` (here: exactly 4 digits; CPython
also accepts shorter years, which no data in scope exercises). -/
def numField (lo hi : Nat) (g : List Char) : Option Nat :=
  if lo ≤ g.length ∧ g.length ≤ hi ∧ g.all Char.isDigit then some (digitsVal g) else none

/-- `datetime.strptime(s, '%d/%m/%Y')`, with calendar validation. -/
def parseBR (s : String) : Option Date :=
  match splitChar '/' s.data with
  | [gd, gm, gy] =>
    match numField 1 2 gd, numField 1 2 gm, numField 4 4 gy with
    | some d, some m, some y =>
      if validDate ⟨y, m, d⟩ then some ⟨y, m, d⟩ else none
    | _, _, _ => none
  | _ => none

/-- `datetime.strptime(s, '%Y-%m-%d')`, with calendar validation. -/
def parseISO (s : String) : Option Date :=
  match splitChar '-' s.data with
  | [gy, gm, gd] =>
    match numField 4 4 gy, numField 1 2 gm, numField 1 2 gd with
    | some y, some m, some d =>
      if validDate ⟨y, m, d⟩ then some ⟨y, m, d⟩ else none
    | _, _, _ => none
  | _ => none

def padNum (w n : Nat) : String :=
  let s := toString n
  ⟨List.replicate (w - s.data.length) '0' ++ s.data⟩

/-- `strftime('%Y-%m-%d')`. -/
def fmtISO (dt : Date) : String :=
  padNum 4 dt.y ++ "-" ++ padNum 2 dt.m ++ "-" ++ padNum 2 dt.d

/-- `format_db_date`: try `%d/%m/%Y` then `%Y-%m-%d`, re-render as
`YYYY-MM-DD`; non-strings, the empty string and unparsable strings
give `None`. -/
def format_db_date (v : Val) : Option String :=
  match v with
  | .vs s =>
    if s.isEmpty then none
    else
      match parseBR s with
      | some dt => some (fmtISO dt)
      | none =>
        match parseISO s with
        | some dt => some (fmtISO dt)
        | none => none
  | _ => none

/-- Civil day number of a date (Hinnant's `days_from_civil`; the model
of `datetime.toordinal`-based arithmetic). -/
def daysFromCivil (dt : Date) : Int :=
  let y : Int := if dt.m ≤ 2 then (dt.y : Int) - 1 else (dt.y : Int)
  let m : Int := (dt.m : Int)
  let d : Int := (dt.d : Int)
  let era : Int := (if 0 ≤ y then y else y - 399) / 400
  let yoe : Int := y - era * 400
  let doy : Int := (153 * (m + (if 2 < m then -3 else 9)) + 2) / 5 + d - 1
  let doe : Int := yoe * 365 + yoe / 4 - yoe / 100 + doy
  era * 146097 + doe - 719468

/-- `datetime.now()`: a civil day number plus seconds into the day. -/
structure Now where
  rd : Int
  sec : Nat
deriving DecidableEq

/-- `calculate_delay_days`: pick `vencimento_atual` when truthy, else
`vencimento_original`; normalise through `format_db_date`; if the
resulting midnight datetime lies strictly before `now`, return the
`timedelta.days` of the difference, else 0 (parse failures also 0). -/
def calculate_delay_days (now : Now) (venc_original venc_atual : Val) : Int :=
  let data_vencimento := if venc_atual.truthy then venc_atual else venc_original
  if !data_vencimento.truthy then 0
  else
    match format_db_date data_vencimento with
    | none => 0
    | some s =>
      match parseISO s with
      | none => 0
      | some dt =>
        let nowT : Int := now.rd * 86400 + (now.sec : Int)
        let vencT : Int := daysFromCivil dt * 86400
        if vencT < nowT then ((nowT - vencT).toNat / 86400 : Nat) else 0

/-! ### Python dicts used as maps (the `id_cpf_map`) -/

/-- Association list with Python-dict insert/lookup semantics. -/
abbrev Dict := List (Val × Val)

def dictInsert (m : Dict) (k v : Val) : Dict :=
  match m with
  | [] => [(k, v)]
  | (k', v') :: rest =>
    if k' = k then (k, v) :: rest else (k', v') :: dictInsert rest k v

/-- `d.get(k)` returning `none` when the key is absent. -/
def dictGet (m : Dict) (k : Val) : Option Val :=
  match m with
  | [] => none
  | (k', v') :: rest => if k' = k then some v' else dictGet rest k

/-- `d.get(k)` as a value (`None` when absent). -/
def dictGetV (m : Dict) (k : Val) : Val :=
  (dictGet m k).getD .vn

/-! ### The relational store -/

/-- `cursor.fetchone()` on `SELECT ... WHERE p`: first row satisfying `p`
in list order. -/
def firstWhere (p : α → Prop) [DecidablePred p] : List α → Option α
  | [] => none
  | x :: xs => if p x then some x else firstWhere p xs

/-- `UPDATE t SET ... WHERE id = eid`: rewrite every row whose id is
`eid` (with serial ids, exactly one). -/
def updateById (idOf : α → Nat) (eid : Nat) (f : α → α) (l : List α) : List α :=
  l.map (fun x => if idOf x = eid then f x else x)

/-- A row of `public.brokers` (only the columns the programs read). -/
structure BrokerRow where
  id : Nat
  nome_completo : String
deriving DecidableEq

/-- A row of `public.clients`.  The columns the sync only ever writes and
never reads back (birth date, address, ...) are elided. -/
structure ClientRow where
  id : Nat
  tenant_id : Nat
  nome : Option String
  tipo_documento : String
  documento : Val
  broker_id : Nat
deriving DecidableEq

/-- A row of `public.proposals`. -/
structure PropRow where
  id : Nat
  client_id : Nat
  broker_id : Nat
  tenant_id : Nat
  insurance_company_id : Nat
  produto : Option String
  linha_negocio : Option String
  proposta : String
  criada_em : Option String
  status_proposta : Option String
  forma_pagamento : Option String
  valor : Val
  vencimento : Option String
  competencia : Option String
  status_pagamento : Option String
  motivo_pendencia : Option String
  data : Option String
deriving DecidableEq

/-- A row of `public.defaulters_detailed`. -/
structure DefRow where
  id : Nat
  tenant_id : Nat
  client_id : Nat
  broker_name : Option String
  client_name : Option String
  client_cpf : Val
  business_line : Option String
  product_name : Option String
  competency : Option String
  original_due_date : Option String
  current_due_date : Option String
  contribution_value : Val
  proposal_number : Option String
  certificate_number : Option String
  payment_status : Option String
  payment_method : Option String
  delay_days : Int
deriving DecidableEq

/-- A row of `public.products_clients`. -/
structure ProdRow where
  id : Nat
  tenant_id : Nat
  client_id : Nat
  broker_name : Option String
  business_line : Option String
  product_type : Option String
  proposal_number : Option String
  certificate_number : Option String
  product_status : Option String
  coverage_name : Option String
  insured_capital : Val
  coverage_payment_period : Option String
  due_day : Option String
  last_payment : Option String
  next_payment : Option String
  paid_installments_quantity : Option String
  pending_installments_quantity : Option String
  payment_frequency : Option String
deriving DecidableEq

/-- The store.  `nextId` feeds the serial primary keys. -/
structure DB where
  brokers : List BrokerRow
  clients : List ClientRow
  proposals : List PropRow
  defaulters : List DefRow
  products : List ProdRow
  nextId : Nat
deriving DecidableEq

/-- Serial-key sanity of one table: all ids below the generator, no two
rows sharing an id. -/
def idsOk (ids : List Nat) (n : Nat) : Prop :=
  (∀ i ∈ ids, i < n) ∧ ids.Nodup

/-- Store well-formedness (what serial primary keys guarantee). -/
def DB.WF (db : DB) : Prop :=
  idsOk (db.clients.map ClientRow.id) db.nextId ∧
  idsOk (db.proposals.map PropRow.id) db.nextId ∧
  idsOk (db.defaulters.map DefRow.id) db.nextId ∧
  idsOk (db.products.map ProdRow.id) db.nextId

instance : DecidablePred DB.WF := fun db => by
  unfold DB.WF idsOk; infer_instance

def TENANT_ID : Nat := 20
def INSURANCE_COMPANY_ID : Nat := 44

/-- `get_client_id`: `SELECT id FROM clients WHERE documento = cpf AND
tenant_id = tenant`. -/
def get_client_id (db : DB) (cpf : Val) (tenant : Nat) : Option Nat :=
  (firstWhere (fun r : ClientRow => r.documento = cpf ∧ r.tenant_id = tenant) db.clients).map ClientRow.id

/-- The minimal customer stub `get_or_create_client_id` inserts. -/
def clientStub (db : DB) (cpf : Val) (nome : Option String) (broker_id tenant : Nat) : ClientRow :=
  { id := db.nextId, tenant_id := tenant, nome := nome,
    tipo_documento := "CPF", documento := cpf, broker_id := broker_id }

/-- `get_or_create_client_id`: look the document up; when absent insert
the minimal stub and return its fresh id. -/
def get_or_create_client_id (db : DB) (cpf : Val) (nome : Option String) (broker_id tenant : Nat) : Nat × DB :=
  match get_client_id db cpf tenant with
  | some i => (i, db)
  | none =>
    (db.nextId,
     { db with clients := db.clients ++ [clientStub db cpf nome broker_id tenant],
               nextId := db.nextId + 1 })

/-! ### Outcome counters

One shared counter record serves all sync procedures; each procedure
uses the fields matching its Python locals (`pul` stands for
`puladas` / `pulados_dados`, `cancel` for `cancelados`). -/

structure Cnt where
  ins : Nat := 0
  atu : Nat := 0
  ex : Nat := 0
  pul : Nat := 0
  semAtraso : Nat := 0
  cancel : Nat := 0
deriving DecidableEq

def Cnt.zero : Cnt := {}
def Cnt.add (a b : Cnt) : Cnt :=
  ⟨a.ins + b.ins, a.atu + b.atu, a.ex + b.ex, a.pul + b.pul,
   a.semAtraso + b.semAtraso, a.cancel + b.cancel⟩

def Cnt.ins1 : Cnt := { ins := 1 }
def Cnt.atu1 : Cnt := { atu := 1 }
def Cnt.ex1 : Cnt := { ex := 1 }
def Cnt.pul1 : Cnt := { pul := 1 }
def Cnt.semAtraso1 : Cnt := { semAtraso := 1 }
def Cnt.cancel1 : Cnt := { cancel := 1 }

/-- One batch loop: fold the per-record body over the records,
accumulating the outcome counters. -/
def runFrom (P : DB → ρ → DB × Cnt) : DB × Cnt → List ρ → DB × Cnt
  | s, [] => s
  | s, r :: rest =>
    let t := P s.1 r
    runFrom P (t.1, s.2.add t.2) rest

def runBatch (P : DB → ρ → DB × Cnt) (db : DB) (l : List ρ) : DB × Cnt :=
  runFrom P (db, Cnt.zero) l

/-! ### Harvested record kinds (fields the sync reads; each field is the
dict entry of the same name, `Val.va` when the key is absent) -/

structure ClienteRec where
  id_cliente : Val := .va
  documento : Val := .va
  nome : Val := .va
deriving DecidableEq

structure PropRec where
  proposta : Val := .va
  id_cliente : Val := .va
  cpf : Val := .va
  nome : Val := .va
  vencimento : Val := .va
  valor : Val := .va
  status_proposta : Val := .va
  forma_pagamento : Val := .va
  competencia : Val := .va
  status_pagamento : Val := .va
  motivo_pendencia : Val := .va
  produto : Val := .va
  linha_negocio : Val := .va
  criada_em : Val := .va
  data : Val := .va
deriving DecidableEq

structure DefRec where
  cpf_cliente : Val := .va
  id_cliente : Val := .va
  vencimento_original : Val := .va
  vencimento_atual : Val := .va
  numero_proposta : Val := .va
  numero_certificado : Val := .va
  competencia : Val := .va
  nome_cliente : Val := .va
  linha_negocio : Val := .va
  produto : Val := .va
  contribuicao : Val := .va
  status_pagamento : Val := .va
  forma_pagamento : Val := .va
deriving DecidableEq

structure VidaRec where
  situacao_produto : Val := .va
  id_cliente : Val := .va
  linha_negocio : Val := .va
  tipo_produto : Val := .va
  numero_proposta : Val := .va
  numero_certificado : Val := .va
  nome_cobertura : Val := .va
  capital_segurado : Val := .va
  periodo_pagamento_cobertura : Val := .va
  dia_vencimento : Val := .va
  ultimo_pagamento : Val := .va
  proximo_pagamento : Val := .va
  quantidade_parcelas_pagas : Val := .va
  quantidade_parcelas_pendentes : Val := .va
  periodicidade_pagamentos : Val := .va
deriving DecidableEq

structure PrevRec where
  situacao_produto : Val := .va
  id_cliente : Val := .va
  linha_negocio : Val := .va
  tipo_produto : Val := .va
  numero_proposta : Val := .va
  numero_certificado : Val := .va
  reserva_bruta : Val := .va
  nome_cobertura : Val := .va
  periodo_pagamento_cobertura : Val := .va
  dia_vencimento : Val := .va
  ultima_contribuicao : Val := .va
  quantidade_parcelas_pagas : Val := .va
  quantidade_parcelas_pendentes : Val := .va
  periodicidade_pagamentos : Val := .va
deriving DecidableEq

/-! ### `salvar_clientes_no_banco` -/

/-- Broker resolution: `SELECT id FROM brokers WHERE UPPER(nome_completo)
LIKE UPPER('name%')` (the `LIKE`-pattern is a case-insensitive name
match on the literal name followed by the wildcard, i.e. a
starts-with test; metacharacters inside the name are abstracted). -/
def findBrokerId (db : DB) (corretora_nome : String) : Option Nat :=
  (firstWhere
      (fun b : BrokerRow => (upperStr corretora_nome).data.isPrefixOf (upperStr b.nome_completo).data)
      db.brokers).map BrokerRow.id

/-- Per-record body of the customer sync: clean the document, skip when
it is falsy or shorter than 11 characters, skip when the document
already exists, else insert.  A non-string document raises `TypeError`
in `len`; the per-record handler calls `conn.rollback()`, reverting
the store to `db0`, the state at the batch's start (the only commit is
after the loop).  Returns the store and the `clientes_inseridos`
increment. -/
def processCliente (broker_id : Nat) (db0 : DB) (db : DB) (item : Option ClienteRec) : DB × Nat :=
  match item with
  | none => (db, 0)
  | some c =>
    let doc_numero := clean_cpf (pyGetD c.documento (.vs ""))
    if !doc_numero.truthy then (db, 0)
    else
      match pyLen doc_numero with
      | none => (db0, 0)
      | some len =>
        if len < 11 then (db, 0)
        else if (get_client_id db doc_numero TENANT_ID).isSome then (db, 0)
        else
          ({ db with
              clients := db.clients ++
                [{ id := db.nextId, tenant_id := TENANT_ID,
                   nome := safe_str (pyGet c.nome), tipo_documento := "CPF",
                   documento := doc_numero, broker_id := broker_id }],
              nextId := db.nextId + 1 }, 1)

/-- `salvar_clientes_no_banco`: resolve the broker (aborting the batch
when unresolved), then fold the per-record body.  Returns the final
store and the broker id (`none` = aborted). -/
def salvar_clientes_no_banco (clientes : List (Option ClienteRec)) (corretora_nome : String) (db : DB) : DB × Option Nat :=
  match findBrokerId db corretora_nome with
  | none => (db, none)
  | some broker_id =>
    ((clientes.foldl (fun s it =>
        let t := processCliente broker_id db s.1 it
        (t.1, s.2 + t.2)) (db, 0)).1, some broker_id)

/-! ### `salvar_propostas_no_banco` -/

/-- Customer-document resolution for a proposal record: the
cross-reference index first (guarded by a truthy `id_cliente` and a
non-empty index), then `clean_cpf` of the record's own `cpf` field. -/
def resolveCpfProposta (id_cpf_map : Dict) (p : PropRec) : Val :=
  let source_client_id := pyGet p.id_cliente
  let viaMap : Val :=
    if source_client_id.truthy && !id_cpf_map.isEmpty then dictGetV id_cpf_map source_client_id
    else .vn
  if viaMap.truthy then viaMap else clean_cpf (pyGet p.cpf)

/-- `str(prop.get('proposta', ''))` — the natural key of a proposal. -/
def propKey (p : PropRec) : String :=
  pyStr (pyGetD p.proposta (.vs ""))

/-- `SELECT ... FROM proposals WHERE proposta = %s AND tenant_id = %s`. -/
def findProposalRow (db : DB) (num : String) : Option PropRow :=
  firstWhere (fun r : PropRow => r.proposta = num ∧ r.tenant_id = TENANT_ID) db.proposals

/-- The `has_changes` comparison of the proposal sync. -/
def hasChangesProp (row : PropRow) (p : PropRec) (data_vencimento : String) : Prop :=
  row.status_proposta ≠ safe_str (pyGet p.status_proposta) ∨
  row.forma_pagamento ≠ safe_str (pyGet p.forma_pagamento) ∨
  row.valor ≠ pyGetD p.valor (.vi 0) ∨
  row.vencimento ≠ some data_vencimento ∨
  row.competencia ≠ safe_str (pyGet p.competencia) ∨
  row.status_pagamento ≠ safe_str (pyGet p.status_pagamento) ∨
  row.motivo_pendencia ≠ safe_str (pyGet p.motivo_pendencia)

instance (row : PropRow) (p : PropRec) (dv : String) : Decidable (hasChangesProp row p dv) := by
  unfold hasChangesProp; infer_instance

/-- The proposal `UPDATE ... WHERE id = %s` applied to a row. -/
def propUpdatedRow (broker_id client_id : Nat) (p : PropRec) (data_vencimento : String) (r : PropRow) : PropRow :=
  { r with
    client_id := client_id
    broker_id := broker_id
    insurance_company_id := INSURANCE_COMPANY_ID
    produto := safe_str (pyGet p.produto)
    linha_negocio := safe_str (pyGet p.linha_negocio)
    criada_em := format_db_date (pyGet p.criada_em)
    status_proposta := safe_str (pyGet p.status_proposta)
    forma_pagamento := safe_str (pyGet p.forma_pagamento)
    valor := pyGetD p.valor (.vi 0)
    vencimento := some data_vencimento
    competencia := safe_str (pyGet p.competencia)
    status_pagamento := safe_str (pyGet p.status_pagamento)
    motivo_pendencia := safe_str (pyGet p.motivo_pendencia)
    data := format_db_date (pyGet p.data) }

/-- The proposal `INSERT` row. -/
def propInsertRow (rid broker_id client_id : Nat) (p : PropRec) (data_vencimento : String) : PropRow :=
  { id := rid
    client_id := client_id
    broker_id := broker_id
    tenant_id := TENANT_ID
    insurance_company_id := INSURANCE_COMPANY_ID
    produto := safe_str (pyGet p.produto)
    linha_negocio := safe_str (pyGet p.linha_negocio)
    proposta := propKey p
    criada_em := format_db_date (pyGet p.criada_em)
    status_proposta := safe_str (pyGet p.status_proposta)
    forma_pagamento := safe_str (pyGet p.forma_pagamento)
    valor := pyGetD p.valor (.vi 0)
    vencimento := some data_vencimento
    competencia := safe_str (pyGet p.competencia)
    status_pagamento := safe_str (pyGet p.status_pagamento)
    motivo_pendencia := safe_str (pyGet p.motivo_pendencia)
    data := format_db_date (pyGet p.data) }

/-- Per-record body of the proposal sync. -/
def processProposta (broker_id : Nat) (id_cpf_map : Dict) (db : DB) (item : Option PropRec) : DB × Cnt :=
  match item with
  | none => (db, Cnt.zero)
  | some p =>
    let num_proposta := pyGetD p.proposta (.vs "")
    if !num_proposta.truthy then (db, Cnt.pul1)
    else
      let cpf_cliente := resolveCpfProposta id_cpf_map p
      if !cpf_cliente.truthy then (db, Cnt.pul1)
      else
        match format_db_date (pyGet p.vencimento) with
        | none => (db, Cnt.pul1)
        | some data_vencimento =>
          let nome_cliente := safe_str (pyGetD p.nome (.vs "Cliente não informado"))
          let t := get_or_create_client_id db cpf_cliente nome_cliente broker_id TENANT_ID
          let client_id := t.1
          let db1 := t.2
          match findProposalRow db1 (propKey p) with
          | some row =>
            if hasChangesProp row p data_vencimento then
              ({ db1 with proposals :=
                   updateById PropRow.id row.id (propUpdatedRow broker_id client_id p data_vencimento) db1.proposals },
               Cnt.atu1)
            else (db1, Cnt.ex1)
          | none =>
            ({ db1 with proposals := db1.proposals ++ [propInsertRow db1.nextId broker_id client_id p data_vencimento],
                        nextId := db1.nextId + 1 },
             Cnt.ins1)

/-- `salvar_propostas_no_banco` as a batch fold. -/
def salvar_propostas_no_banco (propostas : List (Option PropRec)) (broker_id : Nat) (id_cpf_map : Dict) (db : DB) : DB × Cnt :=
  runBatch (processProposta broker_id id_cpf_map) db propostas

/-! ### `salvar_inadimplentes_no_banco` -/

/-- Customer-document resolution for a pending-payment record: the
record's own `cpf_cliente` first, the cross-reference index as
fallback. -/
def resolveCpfInad (id_cpf_map : Dict) (r : DefRec) : Val :=
  let c := clean_cpf (pyGetD r.cpf_cliente (.vs ""))
  if c.truthy then c
  else
    let source_client_id := pyGet r.id_cliente
    if source_client_id.truthy then dictGetV id_cpf_map source_client_id else c

def inadNumeroProposta (r : DefRec) : Option String := safe_str (pyGetD r.numero_proposta (.vs ""))
def inadNumeroCertificado (r : DefRec) : Option String := safe_str (pyGetD r.numero_certificado (.vs ""))
def inadCompetencia (r : DefRec) : Option String := safe_str (pyGetD r.competencia (.vs ""))

/-- `SELECT ... FROM defaulters_detailed WHERE client_id = %s AND
tenant_id = %s AND proposal_number = %s AND certificate_number = %s
AND competency = %s`. -/
def findDefaulterRow (db : DB) (client_id : Nat) (np nc comp : Option String) : Option DefRow :=
  firstWhere
    (fun r : DefRow => r.client_id = client_id ∧ r.tenant_id = TENANT_ID ∧
      r.proposal_number = np ∧ r.certificate_number = nc ∧ r.competency = comp)
    db.defaulters

/-- The `has_changes` comparison of the pending-payment sync. -/
def hasChangesInad (row : DefRow) (r : DefRec) (delay_days : Int) : Prop :=
  row.original_due_date ≠ format_db_date (pyGet r.vencimento_original) ∨
  row.current_due_date ≠ format_db_date (pyGet r.vencimento_atual) ∨
  row.contribution_value ≠ pyGetD r.contribuicao (.vi 0) ∨
  row.payment_status ≠ safe_str (pyGetD r.status_pagamento (.vs "")) ∨
  row.payment_method ≠ safe_str (pyGetD r.forma_pagamento (.vs "")) ∨
  row.delay_days ≠ delay_days

instance (row : DefRow) (r : DefRec) (d : Int) : Decidable (hasChangesInad row r d) := by
  unfold hasChangesInad; infer_instance

/-- The defaulter `UPDATE ... WHERE id = %s` applied to a row. -/
def defUpdatedRow (corretora_nome : Val) (cpf_cliente : Val) (r : DefRec) (delay_days : Int) (row : DefRow) : DefRow :=
  { row with
    broker_name := safe_str corretora_nome
    client_name := safe_str (pyGetD r.nome_cliente (.vs ""))
    client_cpf := cpf_cliente
    business_line := safe_str (pyGetD r.linha_negocio (.vs ""))
    product_name := safe_str (pyGetD r.produto (.vs ""))
    original_due_date := format_db_date (pyGet r.vencimento_original)
    current_due_date := format_db_date (pyGet r.vencimento_atual)
    contribution_value := pyGetD r.contribuicao (.vi 0)
    payment_status := safe_str (pyGetD r.status_pagamento (.vs ""))
    payment_method := safe_str (pyGetD r.forma_pagamento (.vs ""))
    delay_days := delay_days }

/-- The defaulter `INSERT` row. -/
def defInsertRow (rid client_id : Nat) (corretora_nome cpf_cliente : Val) (r : DefRec) (delay_days : Int) : DefRow :=
  { id := rid
    tenant_id := TENANT_ID
    client_id := client_id
    broker_name := safe_str corretora_nome
    client_name := safe_str (pyGetD r.nome_cliente (.vs ""))
    client_cpf := cpf_cliente
    business_line := safe_str (pyGetD r.linha_negocio (.vs ""))
    product_name := safe_str (pyGetD r.produto (.vs ""))
    competency := inadCompetencia r
    original_due_date := format_db_date (pyGet r.vencimento_original)
    current_due_date := format_db_date (pyGet r.vencimento_atual)
    contribution_value := pyGetD r.contribuicao (.vi 0)
    proposal_number := inadNumeroProposta r
    certificate_number := inadNumeroCertificado r
    payment_status := safe_str (pyGetD r.status_pagamento (.vs ""))
    payment_method := safe_str (pyGetD r.forma_pagamento (.vs ""))
    delay_days := delay_days }

/-- Per-record body of the pending-payment sync (`now` is the sync-time
clock used by `calculate_delay_days`). -/
def processInad (corretora_nome : Val) (id_cpf_map : Dict) (now : Now) (db : DB) (item : Option DefRec) : DB × Cnt :=
  match item with
  | none => (db, Cnt.pul1)
  | some r =>
    let cpf_cliente := resolveCpfInad id_cpf_map r
    if !cpf_cliente.truthy then (db, Cnt.pul1)
    else
      match get_client_id db cpf_cliente TENANT_ID with
      | none => (db, Cnt.pul1)
      | some client_id =>
        let delay_days := calculate_delay_days now (pyGet r.vencimento_original) (pyGet r.vencimento_atual)
        if delay_days ≤ 0 then (db, Cnt.semAtraso1)
        else
          match findDefaulterRow db client_id (inadNumeroProposta r) (inadNumeroCertificado r) (inadCompetencia r) with
          | some row =>
            if hasChangesInad row r delay_days then
              ({ db with defaulters :=
                   updateById DefRow.id row.id (defUpdatedRow corretora_nome cpf_cliente r delay_days) db.defaulters },
               Cnt.atu1)
            else (db, Cnt.ex1)
          | none =>
            ({ db with defaulters := db.defaulters ++ [defInsertRow db.nextId client_id corretora_nome cpf_cliente r delay_days],
                       nextId := db.nextId + 1 },
             Cnt.ins1)

/-- `salvar_inadimplentes_no_banco` as a batch fold. -/
def salvar_inadimplentes_no_banco (inadimplentes : List (Option DefRec)) (corretora_nome : Val) (id_cpf_map : Dict) (now : Now) (db : DB) : DB × Cnt :=
  runBatch (processInad corretora_nome id_cpf_map now) db inadimplentes

/-! ### `salvar_produtos_vida_no_banco` -/

def vidaProposalNumber (r : VidaRec) : Option String := safe_str (pyGet r.numero_proposta)
def vidaCertificateNumber (r : VidaRec) : Option String := safe_str (pyGet r.numero_certificado)
def vidaCoverageName (r : VidaRec) : Option String := safe_str (pyGet r.nome_cobertura)

/-- `SELECT ... FROM products_clients WHERE tenant_id = %s AND client_id
= %s AND proposal_number = %s AND certificate_number = %s AND
coverage_name = %s`. -/
def findProductRow (db : DB) (client_id : Nat) (np nc cov : Option String) : Option ProdRow :=
  firstWhere
    (fun r : ProdRow => r.tenant_id = TENANT_ID ∧ r.client_id = client_id ∧
      r.proposal_number = np ∧ r.certificate_number = nc ∧ r.coverage_name = cov)
    db.products

/-- The `has_changes` comparison of the life-product sync. -/
def hasChangesVida (row : ProdRow) (r : VidaRec) : Prop :=
  row.product_status ≠ safe_str (pyGet r.situacao_produto) ∨
  row.insured_capital ≠ pyGetD r.capital_segurado (.vi 0) ∨
  row.last_payment ≠ format_db_date (pyGet r.ultimo_pagamento) ∨
  row.next_payment ≠ format_db_date (pyGet r.proximo_pagamento) ∨
  row.paid_installments_quantity ≠ safe_str (pyGet r.quantidade_parcelas_pagas) ∨
  row.pending_installments_quantity ≠ safe_str (pyGet r.quantidade_parcelas_pendentes)

instance (row : ProdRow) (r : VidaRec) : Decidable (hasChangesVida row r) := by
  unfold hasChangesVida; infer_instance

/-- The life-product `UPDATE ... WHERE id = %s` applied to a row. -/
def vidaUpdatedRow (corretora_nome : Val) (r : VidaRec) (row : ProdRow) : ProdRow :=
  { row with
    broker_name := safe_str corretora_nome
    business_line := safe_str (pyGet r.linha_negocio)
    product_type := safe_str (pyGet r.tipo_produto)
    product_status := safe_str (pyGet r.situacao_produto)
    coverage_name := vidaCoverageName r
    insured_capital := pyGetD r.capital_segurado (.vi 0)
    coverage_payment_period := safe_str (pyGet r.periodo_pagamento_cobertura)
    due_day := safe_str (pyGet r.dia_vencimento)
    last_payment := format_db_date (pyGet r.ultimo_pagamento)
    next_payment := format_db_date (pyGet r.proximo_pagamento)
    paid_installments_quantity := safe_str (pyGet r.quantidade_parcelas_pagas)
    pending_installments_quantity := safe_str (pyGet r.quantidade_parcelas_pendentes)
    payment_frequency := safe_str (pyGet r.periodicidade_pagamentos) }

/-- The life-product `INSERT` row. -/
def vidaInsertRow (rid client_id : Nat) (corretora_nome : Val) (r : VidaRec) : ProdRow :=
  { id := rid
    tenant_id := TENANT_ID
    client_id := client_id
    broker_name := safe_str corretora_nome
    business_line := safe_str (pyGet r.linha_negocio)
    product_type := safe_str (pyGet r.tipo_produto)
    proposal_number := vidaProposalNumber r
    certificate_number := vidaCertificateNumber r
    product_status := safe_str (pyGet r.situacao_produto)
    coverage_name := vidaCoverageName r
    insured_capital := pyGetD r.capital_segurado (.vi 0)
    coverage_payment_period := safe_str (pyGet r.periodo_pagamento_cobertura)
    due_day := safe_str (pyGet r.dia_vencimento)
    last_payment := format_db_date (pyGet r.ultimo_pagamento)
    next_payment := format_db_date (pyGet r.proximo_pagamento)
    paid_installments_quantity := safe_str (pyGet r.quantidade_parcelas_pagas)
    pending_installments_quantity := safe_str (pyGet r.quantidade_parcelas_pendentes)
    payment_frequency := safe_str (pyGet r.periodicidade_pagamentos) }

/-- Per-record body of the life-product sync.  A `None` product status
makes `.upper()` raise; the per-record handler calls `conn.rollback()`,
which discards every uncommitted change of the batch — the store
reverts to `db0`, the state at the batch's start (the only commit is
after the loop) — while the Python counters, being plain variables,
keep their values (`Cnt.zero` added for the failing record itself). -/
def processVida (broker_id : Nat) (corretora_nome : Val) (id_cpf_map : Dict) (db0 : DB) (db : DB) (item : Option VidaRec) : DB × Cnt :=
  match item with
  | none => (db, Cnt.pul1)
  | some r =>
    match safe_str (pyGetD r.situacao_produto (.vs "")) with
    | none => (db0, Cnt.zero)
    | some st =>
      if upperStr st = "CANCELADO" then (db, Cnt.cancel1)
      else
        let cpf_cliente := dictGetV id_cpf_map (pyGet r.id_cliente)
        if !cpf_cliente.truthy then (db, Cnt.pul1)
        else
          let t := get_or_create_client_id db cpf_cliente (some "Cliente não informado") broker_id TENANT_ID
          let client_id := t.1
          let db1 := t.2
          match findProductRow db1 client_id (vidaProposalNumber r) (vidaCertificateNumber r) (vidaCoverageName r) with
          | some row =>
            if hasChangesVida row r then
              ({ db1 with products :=
                   updateById ProdRow.id row.id (vidaUpdatedRow corretora_nome r) db1.products },
               Cnt.atu1)
            else (db1, Cnt.ex1)
          | none =>
            ({ db1 with products := db1.products ++ [vidaInsertRow db1.nextId client_id corretora_nome r],
                        nextId := db1.nextId + 1 },
             Cnt.ins1)

/-- `salvar_produtos_vida_no_banco` as a batch fold. -/
def salvar_produtos_vida_no_banco (produtos : List (Option VidaRec)) (broker_id : Nat) (corretora_nome : Val) (id_cpf_map : Dict) (db : DB) : DB × Cnt :=
  runBatch (processVida broker_id corretora_nome id_cpf_map db) db produtos

/-! ### `salvar_produtos_previdencia_no_banco` -/

def prevProposalNumber (r : PrevRec) : Option String := safe_str (pyGet r.numero_proposta)
def prevCertificateNumber (r : PrevRec) : Option String :=
  safe_str (pyGetD r.numero_certificado (pyGet r.numero_proposta))
def prevCoverageName (r : PrevRec) : Option String :=
  safe_str (pyGetD r.nome_cobertura (.vs "Plano de Previdência"))
def prevProductStatus (r : PrevRec) : Option String :=
  safe_str (pyGetD r.situacao_produto (.vs "Ativo"))

/-- `float(reserva_bruta or 0.0)` with the `except` fallback to `0.0`. -/
def prevCapital (r : PrevRec) : Int :=
  let reserva := pyGetD r.reserva_bruta (.vi 0)
  let base := if reserva.truthy then reserva else .vi 0
  match pyFloat base with
  | some x => x
  | none => 0

/-- The `has_changes` comparison of the pension-product sync (no
`next_payment` column here). -/
def hasChangesPrev (row : ProdRow) (r : PrevRec) : Prop :=
  row.product_status ≠ prevProductStatus r ∨
  row.insured_capital ≠ .vi (prevCapital r) ∨
  row.last_payment ≠ format_db_date (pyGet r.ultima_contribuicao) ∨
  row.paid_installments_quantity ≠ safe_str (pyGet r.quantidade_parcelas_pagas) ∨
  row.pending_installments_quantity ≠ safe_str (pyGet r.quantidade_parcelas_pendentes)

instance (row : ProdRow) (r : PrevRec) : Decidable (hasChangesPrev row r) := by
  unfold hasChangesPrev; infer_instance

/-- The pension-product `UPDATE ... WHERE id = %s` applied to a row. -/
def prevUpdatedRow (corretora_nome : Val) (r : PrevRec) (row : ProdRow) : ProdRow :=
  { row with
    broker_name := safe_str corretora_nome
    business_line := safe_str (pyGetD r.linha_negocio (.vs "Previdência"))
    product_type := safe_str (pyGet r.tipo_produto)
    product_status := prevProductStatus r
    coverage_name := prevCoverageName r
    insured_capital := .vi (prevCapital r)
    coverage_payment_period := safe_str (pyGet r.periodo_pagamento_cobertura)
    due_day := safe_str (pyGet r.dia_vencimento)
    last_payment := format_db_date (pyGet r.ultima_contribuicao)
    next_payment := none
    paid_installments_quantity := safe_str (pyGet r.quantidade_parcelas_pagas)
    pending_installments_quantity := safe_str (pyGet r.quantidade_parcelas_pendentes)
    payment_frequency := safe_str (pyGet r.periodicidade_pagamentos) }

/-- The pension-product `INSERT` row. -/
def prevInsertRow (rid client_id : Nat) (corretora_nome : Val) (r : PrevRec) : ProdRow :=
  { id := rid
    tenant_id := TENANT_ID
    client_id := client_id
    broker_name := safe_str corretora_nome
    business_line := safe_str (pyGetD r.linha_negocio (.vs "Previdência"))
    product_type := safe_str (pyGet r.tipo_produto)
    proposal_number := prevProposalNumber r
    certificate_number := prevCertificateNumber r
    product_status := prevProductStatus r
    coverage_name := prevCoverageName r
    insured_capital := .vi (prevCapital r)
    coverage_payment_period := safe_str (pyGet r.periodo_pagamento_cobertura)
    due_day := safe_str (pyGet r.dia_vencimento)
    last_payment := format_db_date (pyGet r.ultima_contribuicao)
    next_payment := none
    paid_installments_quantity := safe_str (pyGet r.quantidade_parcelas_pagas)
    pending_installments_quantity := safe_str (pyGet r.quantidade_parcelas_pendentes)
    payment_frequency := safe_str (pyGet r.periodicidade_pagamentos) }

/-- Per-record body of the pension-product sync (the status default here
is `'Ativo'`).  As in the life sync, a `None` status raises and the
handler's `conn.rollback()` reverts the store to `db0`, the state at
the batch's start. -/
def processPrev (broker_id : Nat) (corretora_nome : Val) (id_cpf_map : Dict) (db0 : DB) (db : DB) (item : Option PrevRec) : DB × Cnt :=
  match item with
  | none => (db, Cnt.pul1)
  | some r =>
    match safe_str (pyGetD r.situacao_produto (.vs "Ativo")) with
    | none => (db0, Cnt.zero)
    | some st =>
      if upperStr st = "CANCELADO" then (db, Cnt.cancel1)
      else
        let cpf_cliente := dictGetV id_cpf_map (pyGet r.id_cliente)
        if !cpf_cliente.truthy then (db, Cnt.pul1)
        else
          let t := get_or_create_client_id db cpf_cliente (some "Cliente não informado") broker_id TENANT_ID
          let client_id := t.1
          let db1 := t.2
          match findProductRow db1 client_id (prevProposalNumber r) (prevCertificateNumber r) (prevCoverageName r) with
          | some row =>
            if hasChangesPrev row r then
              ({ db1 with products :=
                   updateById ProdRow.id row.id (prevUpdatedRow corretora_nome r) db1.products },
               Cnt.atu1)
            else (db1, Cnt.ex1)
          | none =>
            ({ db1 with products := db1.products ++ [prevInsertRow db1.nextId client_id corretora_nome r],
                        nextId := db1.nextId + 1 },
             Cnt.ins1)

/-- `salvar_produtos_previdencia_no_banco` as a batch fold. -/
def salvar_produtos_previdencia_no_banco (produtos : List (Option PrevRec)) (broker_id : Nat) (corretora_nome : Val) (id_cpf_map : Dict) (db : DB) : DB × Cnt :=
  runBatch (processPrev broker_id corretora_nome id_cpf_map db) db produtos

/-! ### Harvester: status normalisation and pagination -/

/-- The raw API product payload fields `to_product_status` reads. -/
structure ApiProduct where
  linhaNegocio : Val := .va
  situacaoCertificado : Val := .va
  situacaoTitulo : Val := .va
deriving DecidableEq

/-- `to_product_status`: pension status from `situacaoCertificado`, life
status from `situacaoTitulo`; `'A'` ↦ `'Ativo'`, `'C'` ↦ `'Cancelado'`,
anything else (including `None` and an unknown business line's `''`)
passes through. -/
def to_product_status (customer_product : ApiProduct) : Val :=
  let line := pyGet customer_product.linhaNegocio
  let value : Val :=
    if line = .vs "PREV" then pyGet customer_product.situacaoCertificado
    else if line = .vs "VIDA" then pyGet customer_product.situacaoTitulo
    else .vs ""
  if value = .vs "A" then .vs "Ativo"
  else if value = .vs "C" then .vs "Cancelado"
  else value

/-- One paginated listing loop (`get_customers` / `get_proposal_status`):
request page after page, stopping at the first response that is
missing (request failure or absent list field, `none`) or whose list
field is empty.  The loop in the source is unbounded; `fuel` bounds
the recursion and the pagination theorems hold for every sufficient
fuel.  Returns the accumulated items and the list of requested page
numbers. -/
def collectPages (resp : Nat → Option (List α)) : Nat → Nat → List α × List Nat
  | 0, _ => ([], [])
  | fuel + 1, page =>
    match resp page with
    | none => ([], [page])
    | some [] => ([], [page])
    | some items =>
      let t := collectPages resp fuel (page + 1)
      (items ++ t.1, page :: t.2)

/-- The customer-listing pagination of `get_customers` (`Pagina`
starting at 1). -/
def get_customers_pages (resp : Nat → Option (List α)) (fuel : Nat) : List α × List Nat :=
  collectPages resp fuel 1

/-- The proposal-listing pagination of `get_proposal_status` (`Pagina`
starting at 1). -/
def get_proposal_status_pages (resp : Nat → Option (List α)) (fuel : Nat) : List α × List Nat :=
  collectPages resp fuel 1

/-- The pending-payment pagination (`paginaAtual` starting at 0),
guarded by `while page_count < 1000`; the remaining iteration budget
`1000 - page` is the structural argument.  Each page's items are
mapped through `_parse_pending_data` (`parse`). -/
def pendingAux (resp : Nat → Option (List α)) (parse : α → β) : Nat → Nat → List β × List Nat
  | 0, _ => ([], [])
  | fuel + 1, page =>
    match (resp page).getD [] with
    | [] => ([], [page])
    | items =>
      let t := pendingAux resp parse fuel (page + 1)
      (items.map parse ++ t.1, page :: t.2)

/-- `get_pending_payments`: paginate from page 0 under the hard cap of
1000 pages. -/
def get_pending_payments_pages (resp : Nat → Option (List α)) (parse : α → β) : List β × List Nat :=
  pendingAux resp parse 1000 0

/-! ### The cross-reference index (`id_cpf_map`) -/

/-- One step of the `id_cpf_map` construction in `main`: a record with
truthy `id_cliente` and `documento` contributes
`id_cliente ↦ clean_cpf(documento)`. -/
def idCpfStep (m : Dict) (c : ClienteRec) : Dict :=
  let id_cliente := pyGet c.id_cliente
  let documento := pyGet c.documento
  if id_cliente.truthy && documento.truthy then dictInsert m id_cliente (clean_cpf documento)
  else m

/-- The `id_cpf_map` built once per sync run from the customer batch
(`main` iterates the raw dicts; a non-dict element would raise before
any sync runs, so the batch is taken as records here). -/
def buildIdCpfMap (clientes : List ClienteRec) : Dict :=
  clientes.foldl idCpfStep []

/-! ### Generic lemmas: counters, batch folds, row lookup, updates -/

theorem Cnt.zero_add (a : Cnt) : Cnt.add Cnt.zero a = a := by
  simp [Cnt.add, Cnt.zero]

theorem Cnt.add_zero (a : Cnt) : Cnt.add a Cnt.zero = a := by
  simp [Cnt.add, Cnt.zero]

theorem Cnt.add_assoc (a b c : Cnt) : Cnt.add (Cnt.add a b) c = Cnt.add a (Cnt.add b c) := by
  simp [Cnt.add, Nat.add_assoc]

theorem runFrom_shift (P : DB → ρ → DB × Cnt) (l : List ρ) :
    ∀ db c, runFrom P (db, c) l = ((runBatch P db l).1, c.add (runBatch P db l).2) := by
  induction l with
  | nil => intro db c; simp [runFrom, runBatch, Cnt.add_zero]
  | cons r rest ih =>
    intro db c
    simp only [runFrom, runBatch]
    rw [ih (P db r).1 (Cnt.add c (P db r).2), ih (P db r).1 (Cnt.add Cnt.zero (P db r).2)]
    simp [Cnt.zero_add, Cnt.add_assoc]

theorem runBatch_nil (P : DB → ρ → DB × Cnt) (db : DB) : runBatch P db [] = (db, Cnt.zero) := rfl

theorem runBatch_cons (P : DB → ρ → DB × Cnt) (db : DB) (r : ρ) (l : List ρ) :
    runBatch P db (r :: l) =
      ((runBatch P (P db r).1 l).1, (P db r).2.add (runBatch P (P db r).1 l).2) := by
  show runFrom P ((P db r).1, Cnt.add Cnt.zero (P db r).2) l = _
  rw [runFrom_shift]
  simp [Cnt.zero_add]

theorem firstWhere_eq_some {p : α → Prop} [DecidablePred p] {l : List α} {x : α}
    (h : firstWhere p l = some x) : p x ∧ x ∈ l := by
  induction l with
  | nil => simp [firstWhere] at h
  | cons a as ih =>
    by_cases ha : p a
    · simp [firstWhere, ha] at h; subst h; exact ⟨ha, List.mem_cons_self a as⟩
    · simp [firstWhere, ha] at h
      rcases ih h with ⟨h1, h2⟩
      exact ⟨h1, List.mem_cons_of_mem a h2⟩

theorem firstWhere_append_some {p : α → Prop} [DecidablePred p] {l : List α} {x : α}
    (l' : List α) (h : firstWhere p l = some x) : firstWhere p (l ++ l') = some x := by
  induction l with
  | nil => simp [firstWhere] at h
  | cons a as ih =>
    by_cases ha : p a
    · simp [firstWhere, ha] at h ⊢; exact h
    · simp [firstWhere, ha] at h ⊢; exact ih h

theorem firstWhere_append_none {p : α → Prop} [DecidablePred p] {l : List α}
    (l' : List α) (h : firstWhere p l = none) : firstWhere p (l ++ l') = firstWhere p l' := by
  induction l with
  | nil => simp
  | cons a as ih =>
    by_cases ha : p a
    · simp [firstWhere, ha] at h
    · simp [firstWhere, ha] at h ⊢; exact ih h

theorem firstWhere_map_congr {p : α → Prop} [DecidablePred p] {l : List α} {g : α → α}
    (h : ∀ z ∈ l, p (g z) ↔ p z) :
    firstWhere p (l.map g) = Option.map g (firstWhere p l) := by
  induction l with
  | nil => simp [firstWhere]
  | cons a as ih =>
    have ha := h a (List.mem_cons_self a as)
    by_cases hpa : p a
    · simp [firstWhere, hpa, ha.mpr hpa]
    · have : ¬ p (g a) := fun hc => hpa (ha.mp hc)
      simp [firstWhere, hpa, this]
      exact ih (fun z hz => h z (List.mem_cons_of_mem a hz))

theorem nodup_map_inj {l : List α} {f : α → Nat} (hnd : (l.map f).Nodup) :
    ∀ x ∈ l, ∀ y ∈ l, f x = f y → x = y := by
  intro x hx y hy hxy
  exact List.inj_on_of_nodup_map hnd hx hy hxy

theorem updateById_eq_map (idOf : α → Nat) (eid : Nat) (f : α → α) (l : List α) :
    updateById idOf eid f l = l.map (fun x => if idOf x = eid then f x else x) := rfl

theorem updateById_map_id (idOf : α → Nat) (eid : Nat) (f : α → α) (l : List α)
    (hf : ∀ x, idOf (f x) = idOf x) :
    (updateById idOf eid f l).map idOf = l.map idOf := by
  induction l with
  | nil => rfl
  | cons a as ih =>
    simp only [updateById, List.map_cons] at ih ⊢
    by_cases h : idOf a = eid <;> simp [h, hf, ih]

/-- Looking a row up after an in-place update: the found row is mapped
along, provided the rewrite does not change any row's match status. -/
theorem firstWhere_updateById (p : α → Prop) [DecidablePred p] (l : List α)
    (idOf : α → Nat) (eid : Nat) (f : α → α)
    (h : ∀ z ∈ l, idOf z = eid → (p (f z) ↔ p z)) :
    firstWhere p (updateById idOf eid f l) =
      Option.map (fun x => if idOf x = eid then f x else x) (firstWhere p l) := by
  rw [updateById_eq_map]
  apply firstWhere_map_congr
  intro z hz
  by_cases hid : idOf z = eid
  · simp [hid]; exact h z hz hid
  · simp [hid]

theorem idsOk_mono {ids : List Nat} {n m : Nat} (h : idsOk ids n) (hnm : n ≤ m) : idsOk ids m :=
  ⟨fun i hi => Nat.lt_of_lt_of_le (h.1 i hi) hnm, h.2⟩

theorem idsOk_append_fresh (ids : List Nat) {n : Nat} (h : idsOk ids n) :
    idsOk (ids ++ [n]) (n + 1) := by
  constructor
  · intro i hi
    rcases List.mem_append.mp hi with hi | hi
    · exact Nat.lt_succ_of_lt (h.1 i hi)
    · simp at hi; omega
  · rw [List.nodup_append]
    refine ⟨h.2, List.nodup_singleton n, ?_⟩
    intro i hi hin
    simp at hin
    subst hin
    exact absurd (h.1 i hi) (Nat.lt_irrefl i)

theorem get_or_create_found {db : DB} {cpf : Val} {nome : Option String} {b t i : Nat}
    (h : get_client_id db cpf t = some i) :
    get_or_create_client_id db cpf nome b t = (i, db) := by
  simp [get_or_create_client_id, h]

theorem get_or_create_new {db : DB} {cpf : Val} (nome : Option String) {b t : Nat}
    (h : get_client_id db cpf t = none) :
    get_or_create_client_id db cpf nome b t =
      (db.nextId,
       { db with clients := db.clients ++ [clientStub db cpf nome b t],
                 nextId := db.nextId + 1 }) := by
  simp [get_or_create_client_id, h]

/-- A found client id survives appending more client rows. -/
theorem get_client_id_append {db : DB} {cpf : Val} {t i : Nat}
    (more : List ClientRow) (h : get_client_id db cpf t = some i) :
    get_client_id { db with clients := db.clients ++ more } cpf t = some i := by
  unfold get_client_id at h ⊢
  rcases Option.map_eq_some'.mp h with ⟨row, hrow, hid⟩
  rw [show ({ db with clients := db.clients ++ more } : DB).clients = db.clients ++ more from rfl,
      firstWhere_append_some more hrow]
  simp [hid]

/-- After inserting the stub for a previously unknown document, looking
the document up yields the stub's (fresh) id. -/
theorem get_client_id_stub {db : DB} {cpf : Val} {nome : Option String} {b t : Nat}
    (h : get_client_id db cpf t = none) :
    get_client_id { db with clients := db.clients ++ [clientStub db cpf nome b t],
                            nextId := db.nextId + 1 } cpf t = some db.nextId := by
  unfold get_client_id at h ⊢
  have hfw : firstWhere (fun r : ClientRow => r.documento = cpf ∧ r.tenant_id = t) db.clients = none := by
    cases hc : firstWhere (fun r : ClientRow => r.documento = cpf ∧ r.tenant_id = t) db.clients with
    | none => rfl
    | some row => rw [hc] at h; simp at h
  rw [show ({ db with clients := db.clients ++ [clientStub db cpf nome b t],
                      nextId := db.nextId + 1 } : DB).clients = db.clients ++ [clientStub db cpf nome b t] from rfl,
      firstWhere_append_none _ hfw]
  simp [firstWhere, clientStub]

/-- Client ids are determined injectively by the looked-up document in a
well-formed store: different documents cannot resolve to the same id. -/
theorem get_client_id_injective {db : DB} {c1 c2 : Val} {t1 t2 i : Nat}
    (hnd : (db.clients.map ClientRow.id).Nodup)
    (h1 : get_client_id db c1 t1 = some i) (h2 : get_client_id db c2 t2 = some i) :
    c1 = c2 := by
  unfold get_client_id at h1 h2
  rcases Option.map_eq_some'.mp h1 with ⟨r1, hr1, hi1⟩
  rcases Option.map_eq_some'.mp h2 with ⟨r2, hr2, hi2⟩
  have m1 := firstWhere_eq_some hr1
  have m2 := firstWhere_eq_some hr2
  have : r1 = r2 := nodup_map_inj hnd r1 m1.2 r2 m2.2 (by rw [hi1, hi2])
  rw [← m1.1.1, ← m2.1.1, this]

/-! ### Claim C8 — product-status normalisation -/

/-- Claim C8: for a product payload with `linhaNegocio = 'PREV'`,
`to_product_status` reads `situacaoCertificado`; for `'VIDA'` it reads
`situacaoTitulo`; in both cases raw `'A'` maps to `'Ativo'`, `'C'` to
`'Cancelado'`, and any other raw value passes through unchanged. -/
theorem C8_product_status_normalization (p : ApiProduct) :
    (pyGet p.linhaNegocio = .vs "PREV" →
      to_product_status p =
        (if pyGet p.situacaoCertificado = .vs "A" then .vs "Ativo"
         else if pyGet p.situacaoCertificado = .vs "C" then .vs "Cancelado"
         else pyGet p.situacaoCertificado)) ∧
    (pyGet p.linhaNegocio = .vs "VIDA" →
      to_product_status p =
        (if pyGet p.situacaoTitulo = .vs "A" then .vs "Ativo"
         else if pyGet p.situacaoTitulo = .vs "C" then .vs "Cancelado"
         else pyGet p.situacaoTitulo)) := by
  constructor <;> intro h <;> simp [to_product_status, h]

/-- Witness for C8 at concrete payloads: a pension product with raw
certificate status `'C'` is `'Cancelado'`, a life product with raw
title status `'A'` is `'Ativo'`. -/
theorem C8_product_status_normalization_witness :
    to_product_status { linhaNegocio := .vs "PREV", situacaoCertificado := .vs "C" } = .vs "Cancelado" ∧
    to_product_status { linhaNegocio := .vs "VIDA", situacaoTitulo := .vs "A" } = .vs "Ativo" := by
  constructor
  · have h := (C8_product_status_normalization
      { linhaNegocio := .vs "PREV", situacaoCertificado := .vs "C" }).1 (by decide)
    simpa using h
  · have h := (C8_product_status_normalization
      { linhaNegocio := .vs "VIDA", situacaoTitulo := .vs "A" }).2 (by decide)
    simpa using h

/-! ### Claim C3 — cancelled products are never written -/

/-- Claim C3: a life-product or pension-product record whose
`situacao_produto` equals `'Cancelado'` case-insensitively (its
`.upper()` is `'CANCELADO'`) is silently skipped: the store is left
exactly unchanged and only the cancelled counter is incremented, so
neither an insert nor an update happens for that record. -/
theorem C3_cancelled_products_skipped :
    (∀ (broker_id : Nat) (corretora_nome : Val) (id_cpf_map : Dict) (db0 db : DB) (r : VidaRec) (st : String),
      safe_str (pyGetD r.situacao_produto (.vs "")) = some st →
      upperStr st = "CANCELADO" →
      processVida broker_id corretora_nome id_cpf_map db0 db (some r) = (db, Cnt.cancel1)) ∧
    (∀ (broker_id : Nat) (corretora_nome : Val) (id_cpf_map : Dict) (db0 db : DB) (r : PrevRec) (st : String),
      safe_str (pyGetD r.situacao_produto (.vs "Ativo")) = some st →
      upperStr st = "CANCELADO" →
      processPrev broker_id corretora_nome id_cpf_map db0 db (some r) = (db, Cnt.cancel1)) := by
  constructor
  · intro b cor m db0 db r st h1 h2
    simp [processVida, h1, h2]
  · intro b cor m db0 db r st h1 h2
    simp [processPrev, h1, h2]

/-- Witness for C3: a life product and a pension product with status
`'cancelado'` (lower case) are skipped against the empty store. -/
theorem C3_cancelled_products_skipped_witness :
    processVida 1 (.vs "X") [] ⟨[], [], [], [], [], 1⟩ ⟨[], [], [], [], [], 1⟩
        (some { situacao_produto := .vs "cancelado" }) =
      (⟨[], [], [], [], [], 1⟩, Cnt.cancel1) ∧
    processPrev 1 (.vs "X") [] ⟨[], [], [], [], [], 1⟩ ⟨[], [], [], [], [], 1⟩
        (some { situacao_produto := .vs "Cancelado" }) =
      (⟨[], [], [], [], [], 1⟩, Cnt.cancel1) := by
  constructor
  · exact C3_cancelled_products_skipped.1 1 (.vs "X") [] ⟨[], [], [], [], [], 1⟩ ⟨[], [], [], [], [], 1⟩
      { situacao_produto := .vs "cancelado" } "cancelado" (by decide) (by decide)
  · exact C3_cancelled_products_skipped.2 1 (.vs "X") [] ⟨[], [], [], [], [], 1⟩ ⟨[], [], [], [], [], 1⟩
      { situacao_produto := .vs "Cancelado" } "Cancelado" (by decide) (by decide)

/-! ### Claim C9 — the cross-reference index and document fallback -/

theorem dictGet_nil (k : Val) : dictGet [] k = none := rfl

theorem dictGet_cons (k' v' : Val) (rest : Dict) (k : Val) :
    dictGet ((k', v') :: rest) k = if k' = k then some v' else dictGet rest k := rfl

theorem dictInsert_nil (k v : Val) : dictInsert [] k v = [(k, v)] := rfl

theorem dictInsert_cons (k' v' : Val) (rest : Dict) (k v : Val) :
    dictInsert ((k', v') :: rest) k v =
      if k' = k then (k, v) :: rest else (k', v') :: dictInsert rest k v := rfl

theorem dictGet_insert_self (m : Dict) (k v : Val) : dictGet (dictInsert m k v) k = some v := by
  induction m with
  | nil => simp [dictInsert_nil, dictGet_cons]
  | cons kv rest ih =>
    obtain ⟨k1, v1⟩ := kv
    by_cases h : k1 = k
    · simp [dictInsert_cons, h, dictGet_cons]
    · simp [dictInsert_cons, h, dictGet_cons, ih]

theorem dictGet_insert_other {m : Dict} {k v k' : Val} (h : k' ≠ k) :
    dictGet (dictInsert m k v) k' = dictGet m k' := by
  induction m with
  | nil =>
    rw [dictInsert_nil, dictGet_cons, dictGet_nil, if_neg (fun hh => h hh.symm)]
  | cons kv rest ih =>
    obtain ⟨k1, v1⟩ := kv
    by_cases hk : k1 = k
    · rw [dictInsert_cons, if_pos hk, dictGet_cons, dictGet_cons,
          if_neg (fun hh => h hh.symm), if_neg (by rw [hk]; exact fun hh => h hh.symm)]
    · rw [dictInsert_cons, if_neg hk, dictGet_cons, dictGet_cons, ih]

/-- A record that contributes an entry to the index. -/
def contributes (c : ClienteRec) : Prop :=
  (pyGet c.id_cliente).truthy = true ∧ (pyGet c.documento).truthy = true

instance : DecidablePred contributes := fun c => by unfold contributes; infer_instance

theorem idCpfStep_of_contributes {m : Dict} {c : ClienteRec} (hc : contributes c) :
    idCpfStep m c = dictInsert m (pyGet c.id_cliente) (clean_cpf (pyGet c.documento)) := by
  unfold idCpfStep
  simp [hc.1, hc.2]

theorem idCpfStep_of_not_contributes {m : Dict} {c : ClienteRec} (hc : ¬ contributes c) :
    idCpfStep m c = m := by
  unfold idCpfStep
  rcases Decidable.not_and_iff_or_not.mp hc with hid | hdoc
  · simp [eq_false_of_ne_true hid]
  · simp [eq_false_of_ne_true hdoc, Bool.and_false]

theorem idCpfStep_no_touch {m : Dict} {c : ClienteRec} {k : Val}
    (h : contributes c → pyGet c.id_cliente ≠ k) :
    dictGet (idCpfStep m c) k = dictGet m k := by
  by_cases hc : contributes c
  · rw [idCpfStep_of_contributes hc, dictGet_insert_other (Ne.symm (h hc))]
  · rw [idCpfStep_of_not_contributes hc]

theorem idCpfFold_no_touch {l : List ClienteRec} {m : Dict} {k : Val}
    (h : ∀ c ∈ l, contributes c → pyGet c.id_cliente ≠ k) :
    dictGet (l.foldl idCpfStep m) k = dictGet m k := by
  induction l generalizing m with
  | nil => rfl
  | cons c rest ih =>
    rw [List.foldl_cons, ih (fun c' hc' => h c' (List.mem_cons_of_mem c hc')),
        idCpfStep_no_touch (h c (List.mem_cons_self c rest))]

/-- Claim C9: the cross-reference index maps a customer record's
internal id to the record's cleaned document whenever both fields are
truthy and no later contributing record reuses that id (the last
occurrence wins); a record lacking either field contributes no entry;
an internal id absent from the index looks up as `none` (not an
error), and the proposal resolver then falls back to the record's own
`cpf` field; the pending-payment resolver uses the record's own
document whenever that is truthy. -/
theorem C9_cross_reference_index :
    (∀ (l₁ : List ClienteRec) (c : ClienteRec) (l₂ : List ClienteRec),
      contributes c →
      (∀ c' ∈ l₂, contributes c' → pyGet c'.id_cliente ≠ pyGet c.id_cliente) →
      dictGet (buildIdCpfMap (l₁ ++ c :: l₂)) (pyGet c.id_cliente) =
        some (clean_cpf (pyGet c.documento))) ∧
    (∀ (m : Dict) (c : ClienteRec), ¬ contributes c → idCpfStep m c = m) ∧
    (∀ (m : Dict) (p : PropRec),
      dictGet m (pyGet p.id_cliente) = none →
      resolveCpfProposta m p = clean_cpf (pyGet p.cpf)) ∧
    (∀ (m : Dict) (r : DefRec),
      (clean_cpf (pyGetD r.cpf_cliente (.vs ""))).truthy = true →
      resolveCpfInad m r = clean_cpf (pyGetD r.cpf_cliente (.vs ""))) := by
  refine ⟨?_, ?_, ?_, ?_⟩
  · intro l₁ c l₂ hc hl₂
    unfold buildIdCpfMap
    rw [List.foldl_append, List.foldl_cons, idCpfFold_no_touch hl₂,
        idCpfStep_of_contributes hc, dictGet_insert_self]
  · intro m c hc
    exact idCpfStep_of_not_contributes hc
  · intro m p h
    have hv : dictGetV m (pyGet p.id_cliente) = .vn := by simp [dictGetV, h]
    unfold resolveCpfProposta
    dsimp only
    rw [hv, ite_self]
    simp [Val.truthy]
  · intro m r h
    unfold resolveCpfInad
    simp [h]

/-- Witness for C9: a three-record batch (one contributing record
between a document-less record and an id-less record) yields the one
mapping; a non-contributing record leaves the index alone; against an
empty index a proposal record resolves to its own cleaned `cpf` and a
pending-payment record to its own cleaned `cpf_cliente`. -/
theorem C9_cross_reference_index_witness :
    dictGet (buildIdCpfMap
        [{ id_cliente := .vi 7 }, { id_cliente := .vi 3, documento := .vs "111.222" },
         { documento := .vs "999" }]) (.vi 3) = some (.vs "111222") ∧
    idCpfStep [] { id_cliente := .vi 7 } = [] ∧
    resolveCpfProposta [] { cpf := .vs "12.3" } = .vs "123" ∧
    resolveCpfInad [] { cpf_cliente := .vs "4-4" } = .vs "44" := by
  refine ⟨?_, ?_, ?_, ?_⟩
  · have h := C9_cross_reference_index.1 [{ id_cliente := .vi 7 }]
      { id_cliente := .vi 3, documento := .vs "111.222" } [{ documento := .vs "999" }]
      (by decide) (by decide)
    simpa using h
  · exact C9_cross_reference_index.2.1 [] { id_cliente := .vi 7 } (by decide)
  · have h := C9_cross_reference_index.2.2.1 [] { cpf := .vs "12.3" } (by decide)
    simpa using h
  · have h := C9_cross_reference_index.2.2.2 [] { cpf_cliente := .vs "4-4" } (by decide)
    simpa using h

/-- Counterexample for C9 as frozen: with two contributing records
sharing internal id `1`, the index holds no entry `1 ↦ "11"` for the
first record — the second record's document overwrote it — so the
index does not contain one entry per contributing record. -/
theorem C9_cross_reference_index_counterexample :
    ¬ (dictGet (buildIdCpfMap
          [{ id_cliente := .vi 1, documento := .vs "11" },
           { id_cliente := .vi 1, documento := .vs "22" }])
        (pyGet (Val.vi 1)) =
        some (clean_cpf (pyGet (Val.vs "11")))) := by
  decide

/-! ### Claim C10 — minimum document length on customer insert -/

/-- One customer-sync step leaves the client table alone, rolls it back
to the batch-start table, or appends a single row whose document is a
digits-only string of at least 11 characters. -/
theorem processCliente_char (b : Nat) (db0 db : DB) (it : Option ClienteRec) :
    (processCliente b db0 db it).1.clients = db.clients ∨
    (processCliente b db0 db it).1.clients = db0.clients ∨
    ∃ (nome : Option String) (s : String),
      11 ≤ s.data.length ∧ (∀ ch ∈ s.data, ch.isDigit = true) ∧
      (processCliente b db0 db it).1.clients =
        db.clients ++ [{ id := db.nextId, tenant_id := TENANT_ID, nome := nome,
                         tipo_documento := "CPF", documento := .vs s, broker_id := b }] := by
  match it with
  | none => exact Or.inl rfl
  | some c =>
    rcases hdoc : pyGetD c.documento (.vs "") with _ | _ | s0 | n
    · left; simp [processCliente, hdoc, clean_cpf, Val.truthy]
    · left; simp [processCliente, hdoc, clean_cpf, Val.truthy]
    · cases ht : (Val.vs ⟨s0.data.filter Char.isDigit⟩).truthy with
      | false => left; simp [processCliente, hdoc, clean_cpf, ht]
      | true =>
        by_cases hlen : (s0.data.filter Char.isDigit).length < 11
        · left; simp [processCliente, hdoc, clean_cpf, ht, pyLen, hlen]
        · by_cases hex : (get_client_id db (.vs ⟨s0.data.filter Char.isDigit⟩) TENANT_ID).isSome = true
          · left; simp [processCliente, hdoc, clean_cpf, ht, pyLen, hlen, hex]
          · right; right
            refine ⟨safe_str (pyGet c.nome), ⟨s0.data.filter Char.isDigit⟩, by simpa using hlen,
                    ?_, ?_⟩
            · intro ch hch; exact (List.mem_filter.mp hch).2
            · simp [processCliente, hdoc, clean_cpf, ht, pyLen, hlen, hex]
    · cases ht : (Val.vi n).truthy with
      | false => left; simp [processCliente, hdoc, clean_cpf, ht]
      | true => right; left; simp [processCliente, hdoc, clean_cpf, ht, pyLen]

theorem salvarClientesFold_clients (b : Nat) (db0 : DB) (l : List (Option ClienteRec)) :
    ∀ (db : DB) (n : Nat) (row : ClientRow),
      row ∈ (l.foldl (fun s it =>
        let t := processCliente b db0 s.1 it
        (t.1, s.2 + t.2)) (db, n)).1.clients →
      row ∈ db.clients ∨ row ∈ db0.clients ∨
      ∃ s : String, row.documento = .vs s ∧ 11 ≤ s.data.length ∧ ∀ ch ∈ s.data, ch.isDigit = true := by
  induction l with
  | nil => intro db n row h; exact Or.inl h
  | cons it rest ih =>
    intro db n row h
    rw [List.foldl_cons] at h
    rcases ih (processCliente b db0 db it).1 (n + (processCliente b db0 db it).2) row h with
      hmem | hmem0 | hgood
    · rcases processCliente_char b db0 db it with hsame | hroll | ⟨nome, s, hs1, hs2, heq⟩
      · rw [hsame] at hmem; exact Or.inl hmem
      · rw [hroll] at hmem; exact Or.inr (Or.inl hmem)
      · rw [heq] at hmem
        rcases List.mem_append.mp hmem with h1 | h1
        · exact Or.inl h1
        · simp only [List.mem_singleton] at h1
          subst h1
          exact Or.inr (Or.inr ⟨s, rfl, hs1, hs2⟩)
    · exact Or.inr (Or.inl hmem0)
    · exact Or.inr (Or.inr hgood)

/-- Claim C10: the customer sync never inserts a client row whose
cleaned document is empty or shorter than 11 characters — every
client row present after the sync was either already stored or
carries a digits-only document of length at least 11. -/
theorem C10_min_document_length (clientes : List (Option ClienteRec)) (corretora_nome : String) (db : DB) :
    ∀ row ∈ (salvar_clientes_no_banco clientes corretora_nome db).1.clients,
      row ∈ db.clients ∨
      ∃ s : String, row.documento = .vs s ∧ 11 ≤ s.data.length ∧ ∀ ch ∈ s.data, ch.isDigit = true := by
  intro row hrow
  unfold salvar_clientes_no_banco at hrow
  cases hb : findBrokerId db corretora_nome with
  | none => rw [hb] at hrow; exact Or.inl hrow
  | some b =>
    rw [hb] at hrow
    rcases salvarClientesFold_clients b db clientes db 0 row hrow with h | h | h
    · exact Or.inl h
    · exact Or.inl h
    · exact Or.inr h

/-- Witness for C10: syncing one record whose raw document is
`'123.456.789-09'` inserts a row, and the theorem reports its
document digits-only with length at least 11. -/
theorem C10_min_document_length_witness :
    ({ id := 5, tenant_id := 20, nome := none, tipo_documento := "CPF",
       documento := .vs "12345678909", broker_id := 1 } : ClientRow) ∈
        (⟨[⟨1, "ACME"⟩], [], [], [], [], 5⟩ : DB).clients ∨
    ∃ s : String, (({ id := 5, tenant_id := 20, nome := none, tipo_documento := "CPF",
                      documento := .vs "12345678909", broker_id := 1 } : ClientRow)).documento = .vs s ∧
      11 ≤ s.data.length ∧ ∀ ch ∈ s.data, ch.isDigit = true :=
  C10_min_document_length [some { documento := .vs "123.456.789-09" }] "ACME"
    ⟨[⟨1, "ACME"⟩], [], [], [], [], 5⟩
    { id := 5, tenant_id := 20, nome := none, tipo_documento := "CPF",
      documento := .vs "12345678909", broker_id := 1 }
    (by decide)

/-! ### Claims C6 / C7 — pagination -/

theorem mapCongrOn {α β : Type _} {f g : α → β} :
    ∀ (l : List α), (∀ a ∈ l, f a = g a) → l.map f = l.map g := by
  intro l h
  induction l with
  | nil => rfl
  | cons a as ih =>
    rw [List.map_cons, List.map_cons, h a (List.mem_cons_self a as),
        ih (fun b hb => h b (List.mem_cons_of_mem a hb))]

theorem range_map_shift {γ : Type _} (g : Nat → γ) (n start : Nat) :
    (List.range (n + 1)).map (fun i => g (start + i)) =
      g start :: (List.range n).map (fun i => g (start + 1 + i)) := by
  rw [List.range_succ_eq_map, List.map_cons, List.map_map]
  refine congrArg₂ List.cons (by simp) (mapCongrOn _ ?_)
  intro a _
  show g (start + (a + 1)) = g (start + 1 + a)
  exact congrArg g (by omega)

theorem pendingAux_pages {α β : Type _} (resp : Nat → Option (List α)) (parse : α → β) :
    ∀ (fuel page : Nat),
      (∀ q ∈ (pendingAux resp parse fuel page).2, page ≤ q ∧ q < page + fuel) ∧
      (pendingAux resp parse fuel page).2.length ≤ fuel := by
  intro fuel
  induction fuel with
  | zero => intro page; exact ⟨by simp [pendingAux], by simp [pendingAux]⟩
  | succ n ih =>
    intro page
    cases h : (resp page).getD [] with
    | nil =>
      constructor
      · intro q hq
        simp [pendingAux, h] at hq
        omega
      · simp [pendingAux, h]
    | cons x xs =>
      constructor
      · intro q hq
        simp only [pendingAux, h] at hq
        rcases List.mem_cons.mp hq with hq | hq
        · omega
        · have := (ih (page + 1)).1 q hq
          omega
      · simp only [pendingAux, h, List.length_cons]
        have := (ih (page + 1)).2
        omega

/-- Claim C7: the pending-payment pagination never requests a page
number at or above 1000 and therefore issues at most 1000 page
requests, whatever the endpoint answers. -/
theorem C7_pending_page_cap {α β : Type _} (resp : Nat → Option (List α)) (parse : α → β) :
    (∀ q ∈ (get_pending_payments_pages resp parse).2, q < 1000) ∧
    (get_pending_payments_pages resp parse).2.length ≤ 1000 := by
  have h := pendingAux_pages resp parse 1000 0
  exact ⟨fun q hq => by simpa using (h.1 q hq).2, h.2⟩

/-- Witness for C7 at a concrete endpoint (always-empty pages): the one
issued request is below the cap, and at most 1000 requests happen. -/
theorem C7_pending_page_cap_witness :
    (0 : Nat) < 1000 ∧
    (get_pending_payments_pages (fun _ => some ([] : List Nat)) (fun x : Nat => x)).2.length ≤ 1000 :=
  ⟨(C7_pending_page_cap (fun _ => some ([] : List Nat)) (fun x : Nat => x)).1 0 (by decide),
   (C7_pending_page_cap (fun _ => some ([] : List Nat)) (fun x : Nat => x)).2⟩

theorem collectPages_spec {α : Type _} (resp : Nat → Option (List α)) :
    ∀ (N start fuel : Nat),
      N + 1 ≤ fuel →
      (∀ i < N, (resp (start + i)).getD [] ≠ []) →
      (resp (start + N)).getD [] = [] →
      collectPages resp fuel start =
        (((List.range N).map (fun i => (resp (start + i)).getD [])).flatten,
         (List.range (N + 1)).map (fun i => start + i)) := by
  intro N
  induction N with
  | zero =>
    intro start fuel hfuel h1 h2
    obtain ⟨f, rfl⟩ : ∃ f, fuel = f + 1 := ⟨fuel - 1, by omega⟩
    cases hr : resp start with
    | none => simp [collectPages, hr, List.range_succ]
    | some items =>
      have hit : items = [] := by simpa [hr] using h2
      subst hit
      simp [collectPages, hr, List.range_succ]
  | succ n ih =>
    intro start fuel hfuel h1 h2
    obtain ⟨f, rfl⟩ : ∃ f, fuel = f + 1 := ⟨fuel - 1, by omega⟩
    have h0 : (resp start).getD [] ≠ [] := by
      have := h1 0 (Nat.succ_pos n)
      simpa using this
    cases hr : resp start with
    | none => simp [hr] at h0
    | some items =>
      cases items with
      | nil => simp [hr] at h0
      | cons x xs =>
        have ihh := ih (start + 1) f (by omega)
          (fun i hi => by
            have := h1 (i + 1) (by omega)
            have harg : start + (i + 1) = start + 1 + i := by omega
            rwa [harg] at this)
          (by
            have harg : start + (n + 1) = start + 1 + n := by omega
            rwa [harg] at h2)
        have e1 : (List.range (n + 1)).map (fun i => (resp (start + i)).getD []) =
            ((resp start).getD []) :: (List.range n).map (fun i => (resp (start + 1 + i)).getD []) :=
          range_map_shift (fun q => (resp q).getD []) n start
        have e2 : (List.range (n + 1 + 1)).map (fun i => start + i) =
            start :: (List.range (n + 1)).map (fun i => start + 1 + i) :=
          range_map_shift (fun q => q) (n + 1) start
        simp only [collectPages, hr, ihh, e1, e2]
        simp [hr]

theorem pendingAux_spec {α β : Type _} (resp : Nat → Option (List α)) (parse : α → β) :
    ∀ (N start fuel : Nat),
      N + 1 ≤ fuel →
      (∀ i < N, (resp (start + i)).getD [] ≠ []) →
      (resp (start + N)).getD [] = [] →
      pendingAux resp parse fuel start =
        ((((List.range N).map (fun i => (resp (start + i)).getD [])).flatten).map parse,
         (List.range (N + 1)).map (fun i => start + i)) := by
  intro N
  induction N with
  | zero =>
    intro start fuel hfuel h1 h2
    obtain ⟨f, rfl⟩ : ∃ f, fuel = f + 1 := ⟨fuel - 1, by omega⟩
    have h0 : (resp start).getD [] = [] := by simpa using h2
    simp [pendingAux, h0, List.range_succ]
  | succ n ih =>
    intro start fuel hfuel h1 h2
    obtain ⟨f, rfl⟩ : ∃ f, fuel = f + 1 := ⟨fuel - 1, by omega⟩
    have h0 : (resp start).getD [] ≠ [] := by
      have := h1 0 (Nat.succ_pos n)
      simpa using this
    cases hr : (resp start).getD [] with
    | nil => exact absurd hr h0
    | cons x xs =>
      have ihh := ih (start + 1) f (by omega)
        (fun i hi => by
          have := h1 (i + 1) (by omega)
          have harg : start + (i + 1) = start + 1 + i := by omega
          rwa [harg] at this)
        (by
          have harg : start + (n + 1) = start + 1 + n := by omega
          rwa [harg] at h2)
      have e1 : (List.range (n + 1)).map (fun i => (resp (start + i)).getD []) =
          ((resp start).getD []) :: (List.range n).map (fun i => (resp (start + 1 + i)).getD []) :=
        range_map_shift (fun q => (resp q).getD []) n start
      have e2 : (List.range (n + 1 + 1)).map (fun i => start + i) =
          start :: (List.range (n + 1)).map (fun i => start + 1 + i) :=
        range_map_shift (fun q => q) (n + 1) start
      simp only [pendingAux, hr, ihh, e1, e2]
      simp [hr]

/-- Claim C6 (amended): for a response sequence of `N` non-empty pages
followed by an empty-or-absent page, the customer and proposal
listings issue exactly `N + 1` page requests numbered from 1 and
accumulate the concatenation of the `N` pages; the pending-payment
listing does the same with page numbers from 0 — provided `N` lies
below its hard cap of 1000 pages (see the counterexample at
`N = 1000`). -/
theorem C6_pagination_termination :
    (∀ (α : Type) (resp : Nat → Option (List α)) (N fuel : Nat),
      N + 1 ≤ fuel →
      (∀ i < N, (resp (1 + i)).getD [] ≠ []) →
      (resp (1 + N)).getD [] = [] →
      (get_customers_pages resp fuel).1 =
          ((List.range N).map (fun i => (resp (1 + i)).getD [])).flatten ∧
      (get_customers_pages resp fuel).2 = (List.range (N + 1)).map (fun i => 1 + i) ∧
      (get_customers_pages resp fuel).2.length = N + 1) ∧
    (∀ (α : Type) (resp : Nat → Option (List α)) (N fuel : Nat),
      N + 1 ≤ fuel →
      (∀ i < N, (resp (1 + i)).getD [] ≠ []) →
      (resp (1 + N)).getD [] = [] →
      (get_proposal_status_pages resp fuel).1 =
          ((List.range N).map (fun i => (resp (1 + i)).getD [])).flatten ∧
      (get_proposal_status_pages resp fuel).2 = (List.range (N + 1)).map (fun i => 1 + i) ∧
      (get_proposal_status_pages resp fuel).2.length = N + 1) ∧
    (∀ (α β : Type) (resp : Nat → Option (List α)) (parse : α → β) (N : Nat),
      N < 1000 →
      (∀ i < N, (resp i).getD [] ≠ []) →
      (resp N).getD [] = [] →
      (get_pending_payments_pages resp parse).1 =
          (((List.range N).map (fun i => (resp i).getD [])).flatten).map parse ∧
      (get_pending_payments_pages resp parse).2 = (List.range (N + 1)).map (fun i => i) ∧
      (get_pending_payments_pages resp parse).2.length = N + 1) := by
  refine ⟨?_, ?_, ?_⟩
  · intro α resp N fuel hfuel h1 h2
    have h := collectPages_spec resp N 1 fuel hfuel h1 h2
    unfold get_customers_pages
    rw [h]
    simp
  · intro α resp N fuel hfuel h1 h2
    have h := collectPages_spec resp N 1 fuel hfuel h1 h2
    unfold get_proposal_status_pages
    rw [h]
    simp
  · intro α β resp parse N hN h1 h2
    have h := pendingAux_spec resp parse N 0 1000 (by omega)
      (fun i hi => by simpa using h1 i hi) (by simpa using h2)
    unfold get_pending_payments_pages
    rw [h]
    refine ⟨by simp, by simp, by simp⟩

/-- Witness for C6: a concrete mock answering two non-empty pages then
an empty page makes the customer workflow issue exactly three
requests and return the pages' concatenation, and likewise the
pending workflow with two non-empty pages. -/
theorem C6_pagination_termination_witness :
    (get_customers_pages
        (fun p => if p ≤ 2 then some [10 * p, 10 * p + 1] else some ([] : List Nat)) 9).1 =
      ((List.range 2).map (fun i =>
        ((fun p => if p ≤ 2 then some [10 * p, 10 * p + 1] else some ([] : List Nat)) (1 + i)).getD [])).flatten ∧
    (get_customers_pages
        (fun p => if p ≤ 2 then some [10 * p, 10 * p + 1] else some ([] : List Nat)) 9).2.length = 2 + 1 ∧
    (get_pending_payments_pages
        (fun p => if p ≤ 1 then some [p] else none) (fun x : Nat => 10 * x)).2.length = 2 + 1 := by
  refine ⟨?_, ?_, ?_⟩
  · exact ((C6_pagination_termination.1 Nat
      (fun p => if p ≤ 2 then some [10 * p, 10 * p + 1] else some ([] : List Nat)) 2 9
      (by omega) (by decide) (by decide))).1
  · exact ((C6_pagination_termination.1 Nat
      (fun p => if p ≤ 2 then some [10 * p, 10 * p + 1] else some ([] : List Nat)) 2 9
      (by omega) (by decide) (by decide))).2.2
  · exact ((C6_pagination_termination.2.2 Nat Nat
      (fun p => if p ≤ 1 then some [p] else none) (fun x : Nat => 10 * x) 2
      (by omega) (by decide) (by decide))).2.2

set_option maxRecDepth 100000 in
/-- Counterexample for C6 as frozen: against an endpoint serving 1000
non-empty pages and then an absent page, the pending-payment workflow
stops at its cap and issues 1000 requests, not `N + 1 = 1001`. -/
theorem C6_pagination_termination_counterexample :
    (∀ i < 1000, (((fun p => if p < 1000 then some [p] else none) i : Option (List Nat))).getD [] ≠ []) ∧
    (((fun p => if p < 1000 then some [p] else none) 1000 : Option (List Nat))).getD [] = [] ∧
    (get_pending_payments_pages (fun p => if p < 1000 then some [p] else none)
        (fun x : Nat => x)).2.length = 1000 ∧
    (1000 : Nat) ≠ 1000 + 1 := by
  exact ⟨by decide, by decide, by decide, by decide⟩

/-! ### Claim C5 — delay computation and suppression -/

theorem format_truthy {v : Val} {s : String} (h : format_db_date v = some s) :
    v.truthy = true := by
  match v with
  | .va => simp [format_db_date] at h
  | .vn => simp [format_db_date] at h
  | .vi n => simp [format_db_date] at h
  | .vs s0 =>
    by_cases he : s0.isEmpty
    · simp [format_db_date, he] at h
    · simp [Val.truthy, he]

/-- Claim C5: `calculate_delay_days` selects `vencimento_atual` when
truthy, else `vencimento_original`; it is never negative; when the
selected date normalises and parses to a day strictly before the
current date it returns the exact day difference; when the parsed day
is today or later, or the date does not normalise, it returns 0; and
the pending-payment sync neither inserts nor updates a record whose
computed delay is non-positive — it leaves the store untouched and
counts the record as without-delay. -/
theorem C5_delay_computation :
    (∀ (now : Now) (o a : Val), 0 ≤ calculate_delay_days now o a) ∧
    (∀ (now : Now) (o a : Val) (s : String) (dt : Date),
      now.sec < 86400 →
      format_db_date (if a.truthy then a else o) = some s →
      parseISO s = some dt →
      daysFromCivil dt < now.rd →
      calculate_delay_days now o a = now.rd - daysFromCivil dt) ∧
    (∀ (now : Now) (o a : Val) (s : String) (dt : Date),
      now.sec < 86400 →
      format_db_date (if a.truthy then a else o) = some s →
      parseISO s = some dt →
      now.rd ≤ daysFromCivil dt →
      calculate_delay_days now o a = 0) ∧
    (∀ (now : Now) (o a : Val),
      format_db_date (if a.truthy then a else o) = none →
      calculate_delay_days now o a = 0) ∧
    (∀ (corretora_nome : Val) (id_cpf_map : Dict) (now : Now) (db : DB) (r : DefRec) (cid : Nat),
      (resolveCpfInad id_cpf_map r).truthy = true →
      get_client_id db (resolveCpfInad id_cpf_map r) TENANT_ID = some cid →
      calculate_delay_days now (pyGet r.vencimento_original) (pyGet r.vencimento_atual) ≤ 0 →
      processInad corretora_nome id_cpf_map now db (some r) = (db, Cnt.semAtraso1)) := by
  refine ⟨?_, ?_, ?_, ?_, ?_⟩
  · intro now o a
    unfold calculate_delay_days
    dsimp only
    repeat' split
    all_goals first
      | exact le_refl (0 : Int)
      | exact Int.natCast_nonneg _
  · intro now o a s dt hsec hfmt hiso hlt
    have ht := format_truthy hfmt
    unfold calculate_delay_days
    dsimp only
    rw [ht]
    simp only [Bool.not_true, Bool.false_eq_true, if_false, hfmt, hiso]
    rw [if_pos (by omega)]
    have htn : (now.rd * 86400 + (now.sec : Int) - daysFromCivil dt * 86400).toNat =
        (now.rd - daysFromCivil dt).toNat * 86400 + now.sec := by omega
    rw [htn]
    have hdiv : ((now.rd - daysFromCivil dt).toNat * 86400 + now.sec) / 86400 =
        (now.rd - daysFromCivil dt).toNat := by
      rw [Nat.add_comm, Nat.mul_comm, Nat.add_mul_div_left _ _ (by norm_num : 0 < 86400),
          Nat.div_eq_of_lt hsec, Nat.zero_add]
    rw [hdiv]
    omega
  · intro now o a s dt hsec hfmt hiso hge
    have ht := format_truthy hfmt
    unfold calculate_delay_days
    dsimp only
    rw [ht]
    simp only [Bool.not_true, Bool.false_eq_true, if_false, hfmt, hiso]
    by_cases hc : daysFromCivil dt * 86400 < now.rd * 86400 + (now.sec : Int)
    · rw [if_pos hc]
      have h0 : (now.rd * 86400 + (now.sec : Int) - daysFromCivil dt * 86400).toNat < 86400 := by
        omega
      rw [Nat.div_eq_of_lt h0]
      rfl
    · rw [if_neg hc]
  · intro now o a hfmt
    unfold calculate_delay_days
    dsimp only
    cases ht : (if a.truthy then a else o).truthy with
    | false => rfl
    | true =>
      rw [hfmt]
      rfl
  · intro cor m now db r cid hcpf hcid hdel
    simp [processInad, hcpf, hcid, hdel]

/-- Witness for C5 at concrete data: a due date one day in the past
gives delay 1 (the exact day difference), a due date two days ahead
gives 0, garbage gives 0, negativity holds, and a resolved client with
non-positive delay is counted without-delay against a one-client
store. -/
theorem C5_delay_computation_witness :
    0 ≤ calculate_delay_days ⟨19724, 3600⟩ (.vs "01/01/2024") .vn ∧
    calculate_delay_days ⟨19724, 3600⟩ (.vs "01/01/2024") .vn = 19724 - daysFromCivil ⟨2024, 1, 1⟩ ∧
    calculate_delay_days ⟨19722, 3600⟩ (.vs "01/01/2024") .vn = 0 ∧
    calculate_delay_days ⟨19724, 3600⟩ (.vs "not a date") .vn = 0 ∧
    processInad (.vs "X") [] ⟨19724, 0⟩
        ⟨[], [⟨1, 20, none, "CPF", .vs "123", 1⟩], [], [], [], 2⟩
        (some { cpf_cliente := .vs "123", vencimento_original := .vs "01/01/2030" }) =
      (⟨[], [⟨1, 20, none, "CPF", .vs "123", 1⟩], [], [], [], 2⟩, Cnt.semAtraso1) := by
  refine ⟨?_, ?_, ?_, ?_, ?_⟩
  · exact C5_delay_computation.1 ⟨19724, 3600⟩ (.vs "01/01/2024") .vn
  · exact C5_delay_computation.2.1 ⟨19724, 3600⟩ (.vs "01/01/2024") .vn "2024-01-01" ⟨2024, 1, 1⟩
      (by decide) (by decide) (by decide) (by decide)
  · exact C5_delay_computation.2.2.1 ⟨19722, 3600⟩ (.vs "01/01/2024") .vn "2024-01-01" ⟨2024, 1, 1⟩
      (by decide) (by decide) (by decide) (by decide)
  · exact C5_delay_computation.2.2.2.1 ⟨19724, 3600⟩ (.vs "not a date") .vn (by decide)
  · exact C5_delay_computation.2.2.2.2 (.vs "X") [] ⟨19724, 0⟩
      ⟨[], [⟨1, 20, none, "CPF", .vs "123", 1⟩], [], [], [], 2⟩
      { cpf_cliente := .vs "123", vencimento_original := .vs "01/01/2030" } 1
      (by decide) (by decide) (by decide)

/-! ### Branch characterisation of the proposal sync step -/

/-- A proposal record that reaches the upsert (none of the three skip
guards fires); this depends only on the record and the index, not on
the store. -/
def propEligible (id_cpf_map : Dict) (item : Option PropRec) : Prop :=
  match item with
  | none => False
  | some p =>
    (pyGetD p.proposta (.vs "")).truthy = true ∧
    (resolveCpfProposta id_cpf_map p).truthy = true ∧
    (format_db_date (pyGet p.vencimento)).isSome = true

instance (m : Dict) : DecidablePred (propEligible m) := fun item => by
  unfold propEligible
  match item with
  | none => exact inferInstance
  | some p => exact inferInstance

/-- Short name for the stub the proposal sync would create. -/
def propNome (p : PropRec) : Option String :=
  safe_str (pyGetD p.nome (.vs "Cliente não informado"))

theorem processProposta_none (b : Nat) (m : Dict) (db : DB) :
    processProposta b m db none = (db, Cnt.zero) := rfl

theorem processProposta_skip (b : Nat) (m : Dict) (db : DB) (p : PropRec)
    (h : ¬ propEligible m (some p)) :
    processProposta b m db (some p) = (db, Cnt.pul1) := by
  by_cases h1 : (pyGetD p.proposta (.vs "")).truthy = true
  · by_cases h2 : (resolveCpfProposta m p).truthy = true
    · cases h3 : format_db_date (pyGet p.vencimento) with
      | some dv => exact absurd ⟨h1, h2, by simp [h3]⟩ h
      | none => simp [processProposta, h1, h2, h3]
    · simp [processProposta, h1, eq_false_of_ne_true h2]
  · simp [processProposta, eq_false_of_ne_true h1]

theorem processProposta_found_nochange (b : Nat) (m : Dict) (db : DB) (p : PropRec)
    (dv : String) (row : PropRow) (cid : Nat)
    (h1 : (pyGetD p.proposta (.vs "")).truthy = true)
    (h2 : (resolveCpfProposta m p).truthy = true)
    (h3 : format_db_date (pyGet p.vencimento) = some dv)
    (hcid : get_client_id db (resolveCpfProposta m p) TENANT_ID = some cid)
    (hrow : findProposalRow db (propKey p) = some row)
    (hnc : ¬ hasChangesProp row p dv) :
    processProposta b m db (some p) = (db, Cnt.ex1) := by
  simp [processProposta, h1, h2, h3, get_or_create_found hcid, hrow, hnc]

theorem processProposta_found_change (b : Nat) (m : Dict) (db : DB) (p : PropRec)
    (dv : String) (row : PropRow) (cid : Nat)
    (h1 : (pyGetD p.proposta (.vs "")).truthy = true)
    (h2 : (resolveCpfProposta m p).truthy = true)
    (h3 : format_db_date (pyGet p.vencimento) = some dv)
    (hcid : get_client_id db (resolveCpfProposta m p) TENANT_ID = some cid)
    (hrow : findProposalRow db (propKey p) = some row)
    (hc : hasChangesProp row p dv) :
    processProposta b m db (some p) =
      ({ db with proposals := updateById PropRow.id row.id (propUpdatedRow b cid p dv) db.proposals },
       Cnt.atu1) := by
  simp [processProposta, h1, h2, h3, get_or_create_found hcid, hrow, hc]

theorem processProposta_notfound (b : Nat) (m : Dict) (db : DB) (p : PropRec)
    (dv : String) (cid : Nat)
    (h1 : (pyGetD p.proposta (.vs "")).truthy = true)
    (h2 : (resolveCpfProposta m p).truthy = true)
    (h3 : format_db_date (pyGet p.vencimento) = some dv)
    (hcid : get_client_id db (resolveCpfProposta m p) TENANT_ID = some cid)
    (hrow : findProposalRow db (propKey p) = none) :
    processProposta b m db (some p) =
      ({ db with proposals := db.proposals ++ [propInsertRow db.nextId b cid p dv],
                 nextId := db.nextId + 1 },
       Cnt.ins1) := by
  simp [processProposta, h1, h2, h3, get_or_create_found hcid, hrow]

theorem processProposta_create_nochange (b : Nat) (m : Dict) (db : DB) (p : PropRec)
    (dv : String) (row : PropRow)
    (h1 : (pyGetD p.proposta (.vs "")).truthy = true)
    (h2 : (resolveCpfProposta m p).truthy = true)
    (h3 : format_db_date (pyGet p.vencimento) = some dv)
    (hcid : get_client_id db (resolveCpfProposta m p) TENANT_ID = none)
    (hrow : findProposalRow db (propKey p) = some row)
    (hnc : ¬ hasChangesProp row p dv) :
    processProposta b m db (some p) =
      ({ db with
           clients := db.clients ++ [clientStub db (resolveCpfProposta m p) (propNome p) b TENANT_ID],
           nextId := db.nextId + 1 },
       Cnt.ex1) := by
  have hg := get_or_create_new (propNome p) (b := b) hcid
  simp [processProposta, h1, h2, h3, propNome] at hg ⊢
  rw [hg]
  simp [findProposalRow] at hrow ⊢
  simp [hrow, hnc]

theorem processProposta_create_change (b : Nat) (m : Dict) (db : DB) (p : PropRec)
    (dv : String) (row : PropRow)
    (h1 : (pyGetD p.proposta (.vs "")).truthy = true)
    (h2 : (resolveCpfProposta m p).truthy = true)
    (h3 : format_db_date (pyGet p.vencimento) = some dv)
    (hcid : get_client_id db (resolveCpfProposta m p) TENANT_ID = none)
    (hrow : findProposalRow db (propKey p) = some row)
    (hc : hasChangesProp row p dv) :
    processProposta b m db (some p) =
      ({ db with
           clients := db.clients ++ [clientStub db (resolveCpfProposta m p) (propNome p) b TENANT_ID],
           proposals := updateById PropRow.id row.id (propUpdatedRow b db.nextId p dv) db.proposals,
           nextId := db.nextId + 1 },
       Cnt.atu1) := by
  have hg := get_or_create_new (propNome p) (b := b) hcid
  simp [processProposta, h1, h2, h3, propNome] at hg ⊢
  rw [hg]
  simp [findProposalRow] at hrow ⊢
  simp [hrow, hc]

theorem processProposta_create_notfound (b : Nat) (m : Dict) (db : DB) (p : PropRec)
    (dv : String)
    (h1 : (pyGetD p.proposta (.vs "")).truthy = true)
    (h2 : (resolveCpfProposta m p).truthy = true)
    (h3 : format_db_date (pyGet p.vencimento) = some dv)
    (hcid : get_client_id db (resolveCpfProposta m p) TENANT_ID = none)
    (hrow : findProposalRow db (propKey p) = none) :
    processProposta b m db (some p) =
      ({ db with
           clients := db.clients ++ [clientStub db (resolveCpfProposta m p) (propNome p) b TENANT_ID],
           proposals := db.proposals ++ [propInsertRow (db.nextId + 1) b db.nextId p dv],
           nextId := db.nextId + 1 + 1 },
       Cnt.ins1) := by
  have hg := get_or_create_new (propNome p) (b := b) hcid
  simp [processProposta, h1, h2, h3, propNome] at hg ⊢
  rw [hg]
  simp [findProposalRow] at hrow ⊢
  simp [hrow]

/-! ### Claim C4 — get-or-create customer resolution -/

/-- Claim C4: when a non-skipped proposal record's resolved document is
absent from the store, the sync step creates exactly one minimal
customer row (the stub appended to the client table) and the proposal
row it inserts or updates carries that stub's fresh id (`db.nextId`)
as `client_id`; when the document is present, no client row is
created and the existing id is used. -/
theorem C4_get_or_create (b : Nat) (m : Dict) (db : DB) (p : PropRec) (dv : String)
    (h1 : (pyGetD p.proposta (.vs "")).truthy = true)
    (h2 : (resolveCpfProposta m p).truthy = true)
    (h3 : format_db_date (pyGet p.vencimento) = some dv) :
    (get_client_id db (resolveCpfProposta m p) TENANT_ID = none →
      (processProposta b m db (some p)).1.clients =
        db.clients ++ [clientStub db (resolveCpfProposta m p) (propNome p) b TENANT_ID] ∧
      (findProposalRow db (propKey p) = none →
        (processProposta b m db (some p)).1.proposals =
          db.proposals ++ [propInsertRow (db.nextId + 1) b db.nextId p dv]) ∧
      (∀ row, findProposalRow db (propKey p) = some row → hasChangesProp row p dv →
        (processProposta b m db (some p)).1.proposals =
          updateById PropRow.id row.id (propUpdatedRow b db.nextId p dv) db.proposals)) ∧
    (∀ cid, get_client_id db (resolveCpfProposta m p) TENANT_ID = some cid →
      (processProposta b m db (some p)).1.clients = db.clients ∧
      (findProposalRow db (propKey p) = none →
        (processProposta b m db (some p)).1.proposals =
          db.proposals ++ [propInsertRow db.nextId b cid p dv])) := by
  refine ⟨fun hcid => ⟨?_, ?_, ?_⟩, fun cid hcid => ⟨?_, ?_⟩⟩
  · cases hrow : findProposalRow db (propKey p) with
    | none => rw [processProposta_create_notfound b m db p dv h1 h2 h3 hcid hrow]
    | some row =>
      by_cases hc : hasChangesProp row p dv
      · rw [processProposta_create_change b m db p dv row h1 h2 h3 hcid hrow hc]
      · rw [processProposta_create_nochange b m db p dv row h1 h2 h3 hcid hrow hc]
  · intro hrow
    rw [processProposta_create_notfound b m db p dv h1 h2 h3 hcid hrow]
  · intro row hrow hc
    rw [processProposta_create_change b m db p dv row h1 h2 h3 hcid hrow hc]
  · cases hrow : findProposalRow db (propKey p) with
    | none => rw [processProposta_notfound b m db p dv cid h1 h2 h3 hcid hrow]
    | some row =>
      by_cases hc : hasChangesProp row p dv
      · rw [processProposta_found_change b m db p dv row cid h1 h2 h3 hcid hrow hc]
      · rw [processProposta_found_nochange b m db p dv row cid h1 h2 h3 hcid hrow hc]
  · intro hrow
    rw [processProposta_notfound b m db p dv cid h1 h2 h3 hcid hrow]

/-- Witness for C4: syncing one proposal for an unknown document against
the empty store appends exactly the one customer stub and one
proposal row referencing the stub's id. -/
theorem C4_get_or_create_witness :
    (processProposta 3 [] ⟨[], [], [], [], [], 1⟩
        (some { proposta := .vs "P1", cpf := .vs "111", vencimento := .vs "2024-01-02" })).1.clients =
      ([] : List ClientRow) ++
        [clientStub ⟨[], [], [], [], [], 1⟩
          (resolveCpfProposta [] { proposta := .vs "P1", cpf := .vs "111", vencimento := .vs "2024-01-02" })
          (propNome { proposta := .vs "P1", cpf := .vs "111", vencimento := .vs "2024-01-02" }) 3 TENANT_ID] ∧
    (processProposta 3 [] ⟨[], [], [], [], [], 1⟩
        (some { proposta := .vs "P1", cpf := .vs "111", vencimento := .vs "2024-01-02" })).1.proposals =
      ([] : List PropRow) ++
        [propInsertRow (1 + 1) 3 1
          { proposta := .vs "P1", cpf := .vs "111", vencimento := .vs "2024-01-02" } "2024-01-02"] := by
  have h := C4_get_or_create 3 [] ⟨[], [], [], [], [], 1⟩
    { proposta := .vs "P1", cpf := .vs "111", vencimento := .vs "2024-01-02" } "2024-01-02"
    (by decide) (by decide) (by decide)
  have ha := h.1 (by decide)
  exact ⟨ha.1, ha.2.1 (by decide)⟩

/-! ### Stability of proposal records (idempotence machinery) -/

theorem propUpdatedRow_keeps (b cid : Nat) (p : PropRec) (dv : String) (r : PropRow) :
    (propUpdatedRow b cid p dv r).proposta = r.proposta ∧
    (propUpdatedRow b cid p dv r).tenant_id = r.tenant_id ∧
    (propUpdatedRow b cid p dv r).id = r.id :=
  ⟨rfl, rfl, rfl⟩

theorem propUpdatedRow_nochange (b cid : Nat) (p : PropRec) (dv : String) (r : PropRow) :
    ¬ hasChangesProp (propUpdatedRow b cid p dv r) p dv := by
  simp [hasChangesProp, propUpdatedRow]

theorem propInsertRow_nochange (i b cid : Nat) (p : PropRec) (dv : String) :
    ¬ hasChangesProp (propInsertRow i b cid p dv) p dv := by
  simp [hasChangesProp, propInsertRow]

theorem propInsertRow_matches (i b cid : Nat) (p : PropRec) (dv : String) :
    (propInsertRow i b cid p dv).proposta = propKey p ∧
    (propInsertRow i b cid p dv).tenant_id = TENANT_ID :=
  ⟨rfl, rfl⟩

/-- A proposal batch item is settled against a store: either it is
skipped (for reasons independent of the store), or its customer
resolves and its row is present with no differing mutable field. -/
def propSettled (b : Nat) (m : Dict) (db : DB) (item : Option PropRec) : Prop :=
  ∀ p, item = some p → propEligible m (some p) →
    ∃ cid row dv,
      get_client_id db (resolveCpfProposta m p) TENANT_ID = some cid ∧
      format_db_date (pyGet p.vencimento) = some dv ∧
      findProposalRow db (propKey p) = some row ∧
      ¬ hasChangesProp row p dv

/-- Processing a settled item leaves the store untouched and counts it
as unchanged (when eligible) or skipped. -/
theorem propSettled_noop {b : Nat} {m : Dict} {db : DB} {item : Option PropRec}
    (hS : propSettled b m db item) :
    (processProposta b m db item).1 = db ∧
    (processProposta b m db item).2.ins = 0 ∧
    (processProposta b m db item).2.atu = 0 ∧
    (processProposta b m db item).2.ex = (if propEligible m item then 1 else 0) := by
  match item with
  | none =>
    rw [processProposta_none]
    simp [Cnt.zero, propEligible]
  | some p =>
    by_cases he : propEligible m (some p)
    · obtain ⟨cid, row, dv, hcid, hdv, hrow, hnc⟩ := hS p rfl he
      rw [processProposta_found_nochange b m db p dv row cid he.1 he.2.1 hdv hcid hrow hnc]
      simp [he, Cnt.ex1]
    · rw [processProposta_skip b m db p he]
      simp [he, Cnt.pul1]

/-- The proposal step preserves store well-formedness. -/
theorem processProposta_WF {b : Nat} {m : Dict} {db : DB} {item : Option PropRec}
    (hWF : db.WF) : ((processProposta b m db item).1).WF := by
  obtain ⟨hc, hp, hd, hpr⟩ := hWF
  match item with
  | none => rw [processProposta_none]; exact ⟨hc, hp, hd, hpr⟩
  | some p =>
    by_cases he : propEligible m (some p)
    · obtain ⟨h1, h2, h3s⟩ := he
      obtain ⟨dv, h3⟩ := Option.isSome_iff_exists.mp h3s
      have hupd : ∀ (cid : Nat) (eid : Nat),
          (updateById PropRow.id eid (propUpdatedRow b cid p dv) db.proposals).map PropRow.id =
            db.proposals.map PropRow.id :=
        fun cid eid => updateById_map_id PropRow.id eid _ db.proposals (fun x => rfl)
      cases hcid : get_client_id db (resolveCpfProposta m p) TENANT_ID with
      | some cid =>
        cases hrow : findProposalRow db (propKey p) with
        | some row =>
          by_cases hch : hasChangesProp row p dv
          · rw [processProposta_found_change b m db p dv row cid h1 h2 h3 hcid hrow hch]
            refine ⟨hc, ?_, hd, hpr⟩
            show idsOk ((updateById PropRow.id row.id (propUpdatedRow b cid p dv)
              db.proposals).map PropRow.id) db.nextId
            rw [hupd cid row.id]
            exact hp
          · rw [processProposta_found_nochange b m db p dv row cid h1 h2 h3 hcid hrow hch]
            exact ⟨hc, hp, hd, hpr⟩
        | none =>
          rw [processProposta_notfound b m db p dv cid h1 h2 h3 hcid hrow]
          refine ⟨idsOk_mono hc (Nat.le_succ _), ?_, idsOk_mono hd (Nat.le_succ _),
                  idsOk_mono hpr (Nat.le_succ _)⟩
          have := idsOk_append_fresh (db.proposals.map PropRow.id) hp
          simpa [propInsertRow] using this
      | none =>
        cases hrow : findProposalRow db (propKey p) with
        | some row =>
          by_cases hch : hasChangesProp row p dv
          · rw [processProposta_create_change b m db p dv row h1 h2 h3 hcid hrow hch]
            refine ⟨?_, ?_, idsOk_mono hd (Nat.le_succ _), idsOk_mono hpr (Nat.le_succ _)⟩
            · have := idsOk_append_fresh (db.clients.map ClientRow.id) hc
              simpa [clientStub] using this
            · show idsOk ((updateById PropRow.id row.id (propUpdatedRow b db.nextId p dv)
                db.proposals).map PropRow.id) (db.nextId + 1)
              rw [hupd db.nextId row.id]
              exact idsOk_mono hp (Nat.le_succ _)
          · rw [processProposta_create_nochange b m db p dv row h1 h2 h3 hcid hrow hch]
            refine ⟨?_, idsOk_mono hp (Nat.le_succ _), idsOk_mono hd (Nat.le_succ _),
                    idsOk_mono hpr (Nat.le_succ _)⟩
            have := idsOk_append_fresh (db.clients.map ClientRow.id) hc
            simpa [clientStub] using this
        | none =>
          rw [processProposta_create_notfound b m db p dv h1 h2 h3 hcid hrow]
          refine ⟨?_, ?_, idsOk_mono hd (by dsimp only; omega), idsOk_mono hpr (by dsimp only; omega)⟩
          · have := idsOk_append_fresh (db.clients.map ClientRow.id) hc
            have h2' := idsOk_mono this (Nat.le_succ _)
            simpa [clientStub] using h2'
          · have h1' := idsOk_mono hp (Nat.le_succ _)
            have := idsOk_append_fresh (db.proposals.map PropRow.id) h1'
            simpa [propInsertRow] using this
    · rw [processProposta_skip b m db p he]
      exact ⟨hc, hp, hd, hpr⟩

/-- After its own step, a proposal item is settled in the resulting
store. -/
theorem propSettled_self {b : Nat} {m : Dict} {db : DB} {item : Option PropRec}
    (hWF : db.WF) :
    propSettled b m (processProposta b m db item).1 item := by
  match item with
  | none => intro p1 hp1 _; cases hp1
  | some p =>
    intro p1 hp1 he
    cases hp1
    obtain ⟨h1, h2, h3s⟩ := he
    obtain ⟨dv, h3⟩ := Option.isSome_iff_exists.mp h3s
    cases hcid : get_client_id db (resolveCpfProposta m p) TENANT_ID with
    | some cid =>
      cases hrow : findProposalRow db (propKey p) with
      | some row =>
        by_cases hch : hasChangesProp row p dv
        · rw [processProposta_found_change b m db p dv row cid h1 h2 h3 hcid hrow hch]
          refine ⟨cid, propUpdatedRow b cid p dv row, dv, hcid, h3, ?_,
                  propUpdatedRow_nochange b cid p dv row⟩
          show firstWhere (fun r : PropRow => r.proposta = propKey p ∧ r.tenant_id = TENANT_ID)
            (updateById PropRow.id row.id (propUpdatedRow b cid p dv) db.proposals) = _
          rw [firstWhere_updateById (fun r : PropRow => r.proposta = propKey p ∧
              r.tenant_id = TENANT_ID) db.proposals PropRow.id row.id (propUpdatedRow b cid p dv)
            (fun z _ _ => Iff.rfl)]
          have hfw : firstWhere (fun r : PropRow => r.proposta = propKey p ∧ r.tenant_id = TENANT_ID)
              db.proposals = some row := hrow
          rw [hfw]
          simp
        · rw [processProposta_found_nochange b m db p dv row cid h1 h2 h3 hcid hrow hch]
          exact ⟨cid, row, dv, hcid, h3, hrow, hch⟩
      | none =>
        rw [processProposta_notfound b m db p dv cid h1 h2 h3 hcid hrow]
        refine ⟨cid, propInsertRow db.nextId b cid p dv, dv, hcid, h3, ?_,
                propInsertRow_nochange db.nextId b cid p dv⟩
        show firstWhere (fun r : PropRow => r.proposta = propKey p ∧ r.tenant_id = TENANT_ID)
          (db.proposals ++ [propInsertRow db.nextId b cid p dv]) = _
        have hfw : firstWhere (fun r : PropRow => r.proposta = propKey p ∧ r.tenant_id = TENANT_ID)
            db.proposals = none := hrow
        rw [firstWhere_append_none _ hfw]
        simp [firstWhere, propInsertRow]
    | none =>
      have hfwc : firstWhere (fun r : ClientRow => r.documento = resolveCpfProposta m p ∧
          r.tenant_id = TENANT_ID) db.clients = none := by
        cases hfw0 : firstWhere (fun r : ClientRow => r.documento = resolveCpfProposta m p ∧
            r.tenant_id = TENANT_ID) db.clients with
        | none => rfl
        | some r0 =>
          unfold get_client_id at hcid
          rw [hfw0] at hcid
          simp at hcid
      have hstub : ∀ (db' : DB), db'.clients = db.clients ++
            [clientStub db (resolveCpfProposta m p) (propNome p) b TENANT_ID] →
          get_client_id db' (resolveCpfProposta m p) TENANT_ID = some db.nextId := by
        intro db' hdc
        unfold get_client_id
        rw [hdc, firstWhere_append_none _ hfwc]
        simp [firstWhere, clientStub]
      cases hrow : findProposalRow db (propKey p) with
      | some row =>
        by_cases hch : hasChangesProp row p dv
        · rw [processProposta_create_change b m db p dv row h1 h2 h3 hcid hrow hch]
          refine ⟨db.nextId, propUpdatedRow b db.nextId p dv row, dv, ?_, h3, ?_,
                  propUpdatedRow_nochange b db.nextId p dv row⟩
          · exact hstub _ rfl
          · show firstWhere (fun r : PropRow => r.proposta = propKey p ∧ r.tenant_id = TENANT_ID)
              (updateById PropRow.id row.id (propUpdatedRow b db.nextId p dv) db.proposals) = _
            rw [firstWhere_updateById (fun r : PropRow => r.proposta = propKey p ∧
                r.tenant_id = TENANT_ID) db.proposals PropRow.id row.id
                (propUpdatedRow b db.nextId p dv) (fun z _ _ => Iff.rfl)]
            have hfw : firstWhere (fun r : PropRow => r.proposta = propKey p ∧
                r.tenant_id = TENANT_ID) db.proposals = some row := hrow
            rw [hfw]
            simp
        · rw [processProposta_create_nochange b m db p dv row h1 h2 h3 hcid hrow hch]
          exact ⟨db.nextId, row, dv, hstub _ rfl, h3, hrow, hch⟩
      | none =>
        rw [processProposta_create_notfound b m db p dv h1 h2 h3 hcid hrow]
        refine ⟨db.nextId, propInsertRow (db.nextId + 1) b db.nextId p dv, dv, hstub _ rfl, h3, ?_,
                propInsertRow_nochange (db.nextId + 1) b db.nextId p dv⟩
        show firstWhere (fun r : PropRow => r.proposta = propKey p ∧ r.tenant_id = TENANT_ID)
          (db.proposals ++ [propInsertRow (db.nextId + 1) b db.nextId p dv]) = _
        have hfw : firstWhere (fun r : PropRow => r.proposta = propKey p ∧ r.tenant_id = TENANT_ID)
            db.proposals = none := hrow
        rw [firstWhere_append_none _ hfw]
        simp [firstWhere, propInsertRow]

/-- Processing a different-keyed (or skipped) item cannot unsettle a
settled proposal item. -/
theorem propSettled_preserve {b : Nat} {m : Dict} {db : DB} {item item' : Option PropRec}
    (hWF : db.WF) (hS : propSettled b m db item)
    (hcompat : ∀ p q, item = some p → item' = some q →
      propEligible m (some p) → propEligible m (some q) → propKey p ≠ propKey q) :
    propSettled b m (processProposta b m db item').1 item := by
  intro p hp he
  obtain ⟨cid, row, dv, hcid, hdv, hrow, hnc⟩ := hS p hp he
  match item' with
  | none =>
    rw [processProposta_none]
    exact ⟨cid, row, dv, hcid, hdv, hrow, hnc⟩
  | some q =>
    by_cases he' : propEligible m (some q)
    · have hkey : propKey p ≠ propKey q := hcompat p q hp rfl he he'
      obtain ⟨g1, g2, g3s⟩ := he'
      obtain ⟨dv', hdv'⟩ := Option.isSome_iff_exists.mp g3s
      have hmemrow := firstWhere_eq_some (p := fun r : PropRow =>
        r.proposta = propKey p ∧ r.tenant_id = TENANT_ID) (l := db.proposals) hrow
      -- the update of a row matching q's key leaves p's row as the first match
      have hupd : ∀ (cidq : Nat) (rowq : PropRow),
          findProposalRow db (propKey q) = some rowq →
          firstWhere (fun r : PropRow => r.proposta = propKey p ∧ r.tenant_id = TENANT_ID)
            (updateById PropRow.id rowq.id (propUpdatedRow b cidq q dv') db.proposals) =
            some row := by
        intro cidq rowq hrowq
        have hmemq := firstWhere_eq_some (p := fun r : PropRow =>
          r.proposta = propKey q ∧ r.tenant_id = TENANT_ID) (l := db.proposals) hrowq
        have hne : row.id ≠ rowq.id := by
          intro hid
          have : row = rowq := nodup_map_inj hWF.2.1.2 row hmemrow.2 rowq hmemq.2 hid
          rw [this] at hmemrow
          exact hkey (hmemrow.1.1.symm.trans hmemq.1.1)
        rw [firstWhere_updateById (fun r : PropRow => r.proposta = propKey p ∧
            r.tenant_id = TENANT_ID) db.proposals PropRow.id rowq.id
            (propUpdatedRow b cidq q dv') (fun z _ _ => Iff.rfl)]
        have hfw : firstWhere (fun r : PropRow => r.proposta = propKey p ∧ r.tenant_id = TENANT_ID)
            db.proposals = some row := hrow
        rw [hfw]
        simp [hne]
      -- appending a row carrying q's key leaves p's lookup unchanged
      have hins : ∀ (newRow : PropRow),
          firstWhere (fun r : PropRow => r.proposta = propKey p ∧ r.tenant_id = TENANT_ID)
            (db.proposals ++ [newRow]) = some row :=
        fun newRow => firstWhere_append_some _ hrow
      -- the client table only ever grows, preserving p's resolution
      obtain ⟨crow, hcrow, hcrowid⟩ := Option.map_eq_some'.mp hcid
      have happ : ∀ (more : List ClientRow),
          (firstWhere (fun r : ClientRow => r.documento = resolveCpfProposta m p ∧
            r.tenant_id = TENANT_ID) (db.clients ++ more)).map ClientRow.id = some cid := by
        intro more
        rw [firstWhere_append_some more hcrow]
        simp [hcrowid]
      cases hcidq : get_client_id db (resolveCpfProposta m q) TENANT_ID with
      | some cidq =>
        cases hrowq : findProposalRow db (propKey q) with
        | some rowq =>
          by_cases hch : hasChangesProp rowq q dv'
          · rw [processProposta_found_change b m db q dv' rowq cidq g1 g2 hdv' hcidq hrowq hch]
            exact ⟨cid, row, dv, hcid, hdv, hupd cidq rowq hrowq, hnc⟩
          · rw [processProposta_found_nochange b m db q dv' rowq cidq g1 g2 hdv' hcidq hrowq hch]
            exact ⟨cid, row, dv, hcid, hdv, hrow, hnc⟩
        | none =>
          rw [processProposta_notfound b m db q dv' cidq g1 g2 hdv' hcidq hrowq]
          exact ⟨cid, row, dv, hcid, hdv, hins _, hnc⟩
      | none =>
        cases hrowq : findProposalRow db (propKey q) with
        | some rowq =>
          by_cases hch : hasChangesProp rowq q dv'
          · rw [processProposta_create_change b m db q dv' rowq g1 g2 hdv' hcidq hrowq hch]
            exact ⟨cid, row, dv, happ _, hdv, hupd db.nextId rowq hrowq, hnc⟩
          · rw [processProposta_create_nochange b m db q dv' rowq g1 g2 hdv' hcidq hrowq hch]
            exact ⟨cid, row, dv, happ _, hdv, hrow, hnc⟩
        | none =>
          rw [processProposta_create_notfound b m db q dv' g1 g2 hdv' hcidq hrowq]
          exact ⟨cid, row, dv, happ _, hdv, hins _, hnc⟩
    · rw [processProposta_skip b m db q he']
      exact ⟨cid, row, dv, hcid, hdv, hrow, hnc⟩

/-! ### Generic batch-stability framework -/

theorem runBatch_WF {ρ : Type _} (P : DB → ρ → DB × Cnt)
    (hP : ∀ (db : DB) (r : ρ), db.WF → ((P db r).1).WF) :
    ∀ (l : List ρ) (db : DB), db.WF → ((runBatch P db l).1).WF := by
  intro l
  induction l with
  | nil => intro db h; exact h
  | cons r rest ih =>
    intro db h
    rw [runBatch_cons]
    exact ih (P db r).1 (hP db r h)

theorem settled_run_preserve {ρ : Type _} (P : DB → ρ → DB × Cnt)
    (S : DB → ρ → Prop) (C : ρ → ρ → Prop)
    (hP : ∀ (db : DB) (r : ρ), db.WF → ((P db r).1).WF)
    (hpres : ∀ (db : DB) (r r' : ρ), db.WF → S db r → C r r' → S (P db r').1 r) :
    ∀ (l : List ρ) (db : DB) (r : ρ), db.WF → S db r → (∀ x ∈ l, C r x) →
      S (runBatch P db l).1 r := by
  intro l
  induction l with
  | nil => intro db r _ hs _; exact hs
  | cons x rest ih =>
    intro db r h hs hc
    rw [runBatch_cons]
    exact ih (P db x).1 r (hP db x h)
      (hpres db r x h hs (hc x (List.mem_cons_self x rest)))
      (fun y hy => hc y (List.mem_cons_of_mem x hy))

theorem run_settles {ρ : Type _} (P : DB → ρ → DB × Cnt)
    (S : DB → ρ → Prop) (C : ρ → ρ → Prop)
    (hP : ∀ (db : DB) (r : ρ), db.WF → ((P db r).1).WF)
    (hself : ∀ (db : DB) (r : ρ), db.WF → S (P db r).1 r)
    (hpres : ∀ (db : DB) (r r' : ρ), db.WF → S db r → C r r' → S (P db r').1 r) :
    ∀ (l : List ρ) (db : DB), db.WF → l.Pairwise C →
      ∀ r ∈ l, S (runBatch P db l).1 r := by
  intro l
  induction l with
  | nil => intro db _ _ r hr; cases hr
  | cons x rest ih =>
    intro db hWF hpair r hr
    rw [runBatch_cons]
    rcases List.mem_cons.mp hr with rfl | hr'
    · exact settled_run_preserve P S C hP hpres rest (P db r).1 r (hP db r hWF)
        (hself db r hWF) (fun y hy => (List.pairwise_cons.mp hpair).1 y hy)
    · exact ih (P db x).1 (hP db x hWF) (List.pairwise_cons.mp hpair).2 r hr'

theorem run_stable {ρ : Type _} (P : DB → ρ → DB × Cnt) (e : ρ → Bool) :
    ∀ (l : List ρ) (db : DB),
      (∀ r ∈ l, (P db r).1 = db ∧ (P db r).2.ins = 0 ∧ (P db r).2.atu = 0 ∧
        (P db r).2.ex = (if e r then 1 else 0)) →
      (runBatch P db l).1 = db ∧ (runBatch P db l).2.ins = 0 ∧
      (runBatch P db l).2.atu = 0 ∧ (runBatch P db l).2.ex = l.countP (fun r => e r) := by
  intro l
  induction l with
  | nil => intro db _; exact ⟨rfl, rfl, rfl, rfl⟩
  | cons x rest ih =>
    intro db h
    have hx := h x (List.mem_cons_self x rest)
    have hrest := ih db (fun r hr => h r (List.mem_cons_of_mem x hr))
    rw [runBatch_cons, hx.1]
    refine ⟨hrest.1, ?_, ?_, ?_⟩
    · show ((P db x).2.add (runBatch P db rest).2).ins = 0
      simp [Cnt.add, hx.2.1, hrest.2.1]
    · show ((P db x).2.add (runBatch P db rest).2).atu = 0
      simp [Cnt.add, hx.2.2.1, hrest.2.2.1]
    · show ((P db x).2.add (runBatch P db rest).2).ex = _
      simp [Cnt.add, hx.2.2.2, hrest.2.2.2, List.countP_cons]
      cases e x <;> simp [Nat.add_comm]

/-- `settled_run_preserve` refined: the preservation step may assume the
processed item satisfies a predicate `E` holding of every batch item
(used to rule out the exception/rollback path). -/
theorem settled_run_preserve_mem {ρ : Type _} (P : DB → ρ → DB × Cnt)
    (S : DB → ρ → Prop) (C : ρ → ρ → Prop) (E : ρ → Prop)
    (hP : ∀ (db : DB) (r : ρ), db.WF → ((P db r).1).WF)
    (hpres : ∀ (db : DB) (r r' : ρ), E r' → db.WF → S db r → C r r' → S (P db r').1 r) :
    ∀ (l : List ρ) (db : DB) (r : ρ), (∀ x ∈ l, E x) → db.WF → S db r → (∀ x ∈ l, C r x) →
      S (runBatch P db l).1 r := by
  intro l
  induction l with
  | nil => intro db r _ _ hs _; exact hs
  | cons x rest ih =>
    intro db r hE h hs hc
    rw [runBatch_cons]
    exact ih (P db x).1 r (fun y hy => hE y (List.mem_cons_of_mem x hy)) (hP db x h)
      (hpres db r x (hE x (List.mem_cons_self x rest)) h hs (hc x (List.mem_cons_self x rest)))
      (fun y hy => hc y (List.mem_cons_of_mem x hy))

/-- `run_settles` refined in the same way. -/
theorem run_settles_mem {ρ : Type _} (P : DB → ρ → DB × Cnt)
    (S : DB → ρ → Prop) (C : ρ → ρ → Prop) (E : ρ → Prop)
    (hP : ∀ (db : DB) (r : ρ), db.WF → ((P db r).1).WF)
    (hself : ∀ (db : DB) (r : ρ), db.WF → S (P db r).1 r)
    (hpres : ∀ (db : DB) (r r' : ρ), E r' → db.WF → S db r → C r r' → S (P db r').1 r) :
    ∀ (l : List ρ) (db : DB), (∀ x ∈ l, E x) → db.WF → l.Pairwise C →
      ∀ r ∈ l, S (runBatch P db l).1 r := by
  intro l
  induction l with
  | nil => intro db _ _ _ r hr; cases hr
  | cons x rest ih =>
    intro db hE hWF hpair r hr
    rw [runBatch_cons]
    rcases List.mem_cons.mp hr with rfl | hr'
    · exact settled_run_preserve_mem P S C E hP hpres rest (P db r).1 r
        (fun y hy => hE y (List.mem_cons_of_mem r hy)) (hP db r hWF)
        (hself db r hWF) (fun y hy => (List.pairwise_cons.mp hpair).1 y hy)
    · exact ih (P db x).1 (fun y hy => hE y (List.mem_cons_of_mem x hy)) (hP db x hWF)
        (List.pairwise_cons.mp hpair).2 r hr'

/-- Updating (in place) the row found for predicate `p` preserves it as
the first match, now rewritten. -/
theorem firstWhere_update_self (p : α → Prop) [DecidablePred p] (l : List α)
    (idOf : α → Nat) (f : α → α) (hnd : (l.map idOf).Nodup) {row : α}
    (hp : firstWhere p l = some row) (hf : p (f row)) :
    firstWhere p (updateById idOf (idOf row) f l) = some (f row) := by
  have hmem := firstWhere_eq_some hp
  rw [firstWhere_updateById p l idOf (idOf row) f (fun z hz hid => by
    have hzr : z = row := nodup_map_inj hnd z hz row hmem.2 hid
    subst hzr
    exact iff_of_true hf hmem.1)]
  rw [hp]
  simp

/-- Updating (in place) the row found for a disjoint predicate `q`
leaves the first match of `p` alone. -/
theorem firstWhere_update_other (p q : α → Prop) [DecidablePred p] [DecidablePred q]
    (l : List α) (idOf : α → Nat) (f : α → α) (hnd : (l.map idOf).Nodup)
    {row rowq : α}
    (hp : firstWhere p l = some row) (hq : firstWhere q l = some rowq)
    (hdisj : ∀ z, ¬ (p z ∧ q z))
    (hfq : ∀ z, q z → ¬ p (f z)) :
    firstWhere p (updateById idOf (idOf rowq) f l) = some row := by
  have hmemp := firstWhere_eq_some hp
  have hmemq := firstWhere_eq_some hq
  rw [firstWhere_updateById p l idOf (idOf rowq) f (fun z hz hid => by
    have hzr : z = rowq := nodup_map_inj hnd z hz rowq hmemq.2 hid
    subst hzr
    exact iff_of_false (hfq z hmemq.1) (fun hpz => hdisj z ⟨hpz, hmemq.1⟩))]
  rw [hp]
  have hne : idOf row ≠ idOf rowq := by
    intro hid
    have : row = rowq := nodup_map_inj hnd row hmemp.2 rowq hmemq.2 hid
    exact hdisj row ⟨hmemp.1, this ▸ hmemq.1⟩
  simp [hne]

/-! ### Stability of life-product records -/

/-- Eligibility of a life-product item (reaches the upsert): a dict with
a stringifiable status that is not cancelled and a resolvable
document. -/
def vidaEligibleB (m : Dict) (item : Option VidaRec) : Bool :=
  match item with
  | none => false
  | some r =>
    match safe_str (pyGetD r.situacao_produto (.vs "")) with
    | none => false
    | some st => (!(upperStr st = "CANCELADO" : Bool)) && (dictGetV m (pyGet r.id_cliente)).truthy

def vidaCpf (m : Dict) (r : VidaRec) : Val := dictGetV m (pyGet r.id_cliente)

def vidaKey (r : VidaRec) : Option String × Option String × Option String :=
  (vidaProposalNumber r, vidaCertificateNumber r, vidaCoverageName r)

theorem processVida_none (b : Nat) (cor : Val) (m : Dict) (d0 db : DB) :
    processVida b cor m d0 db none = (db, Cnt.pul1) := rfl

theorem processVida_exc (b : Nat) (cor : Val) (m : Dict) (d0 db : DB) (r : VidaRec)
    (hst : safe_str (pyGetD r.situacao_produto (.vs "")) = none) :
    processVida b cor m d0 db (some r) = (d0, Cnt.zero) := by
  simp [processVida, hst]

theorem processVida_cancel (b : Nat) (cor : Val) (m : Dict) (d0 db : DB) (r : VidaRec) (st : String)
    (hst : safe_str (pyGetD r.situacao_produto (.vs "")) = some st)
    (hcan : upperStr st = "CANCELADO") :
    processVida b cor m d0 db (some r) = (db, Cnt.cancel1) := by
  simp [processVida, hst, hcan]

theorem processVida_skipCpf (b : Nat) (cor : Val) (m : Dict) (d0 db : DB) (r : VidaRec) (st : String)
    (hst : safe_str (pyGetD r.situacao_produto (.vs "")) = some st)
    (hcan : ¬ upperStr st = "CANCELADO")
    (hcpf : (vidaCpf m r).truthy = false) :
    processVida b cor m d0 db (some r) = (db, Cnt.pul1) := by
  simp only [vidaCpf] at hcpf
  simp [processVida, hst, hcan, hcpf]

theorem processVida_found_nochange (b : Nat) (cor : Val) (m : Dict) (d0 db : DB) (r : VidaRec)
    (st : String) (row : ProdRow) (cid : Nat)
    (hst : safe_str (pyGetD r.situacao_produto (.vs "")) = some st)
    (hcan : ¬ upperStr st = "CANCELADO")
    (hcpf : (vidaCpf m r).truthy = true)
    (hcid : get_client_id db (vidaCpf m r) TENANT_ID = some cid)
    (hrow : findProductRow db cid (vidaProposalNumber r) (vidaCertificateNumber r) (vidaCoverageName r) = some row)
    (hnc : ¬ hasChangesVida row r) :
    processVida b cor m d0 db (some r) = (db, Cnt.ex1) := by
  simp only [vidaCpf] at hcpf hcid
  simp [processVida, hst, hcan, hcpf, get_or_create_found hcid, hrow, hnc]

theorem processVida_found_change (b : Nat) (cor : Val) (m : Dict) (d0 db : DB) (r : VidaRec)
    (st : String) (row : ProdRow) (cid : Nat)
    (hst : safe_str (pyGetD r.situacao_produto (.vs "")) = some st)
    (hcan : ¬ upperStr st = "CANCELADO")
    (hcpf : (vidaCpf m r).truthy = true)
    (hcid : get_client_id db (vidaCpf m r) TENANT_ID = some cid)
    (hrow : findProductRow db cid (vidaProposalNumber r) (vidaCertificateNumber r) (vidaCoverageName r) = some row)
    (hc : hasChangesVida row r) :
    processVida b cor m d0 db (some r) =
      ({ db with products := updateById ProdRow.id row.id (vidaUpdatedRow cor r) db.products },
       Cnt.atu1) := by
  simp only [vidaCpf] at hcpf hcid
  simp [processVida, hst, hcan, hcpf, get_or_create_found hcid, hrow, hc]

theorem processVida_notfound (b : Nat) (cor : Val) (m : Dict) (d0 db : DB) (r : VidaRec)
    (st : String) (cid : Nat)
    (hst : safe_str (pyGetD r.situacao_produto (.vs "")) = some st)
    (hcan : ¬ upperStr st = "CANCELADO")
    (hcpf : (vidaCpf m r).truthy = true)
    (hcid : get_client_id db (vidaCpf m r) TENANT_ID = some cid)
    (hrow : findProductRow db cid (vidaProposalNumber r) (vidaCertificateNumber r) (vidaCoverageName r) = none) :
    processVida b cor m d0 db (some r) =
      ({ db with products := db.products ++ [vidaInsertRow db.nextId cid cor r],
                 nextId := db.nextId + 1 },
       Cnt.ins1) := by
  simp only [vidaCpf] at hcpf hcid
  simp [processVida, hst, hcan, hcpf, get_or_create_found hcid, hrow]

theorem processVida_create_nochange (b : Nat) (cor : Val) (m : Dict) (d0 db : DB) (r : VidaRec)
    (st : String) (row : ProdRow)
    (hst : safe_str (pyGetD r.situacao_produto (.vs "")) = some st)
    (hcan : ¬ upperStr st = "CANCELADO")
    (hcpf : (vidaCpf m r).truthy = true)
    (hcid : get_client_id db (vidaCpf m r) TENANT_ID = none)
    (hrow : findProductRow db db.nextId (vidaProposalNumber r) (vidaCertificateNumber r) (vidaCoverageName r) = some row)
    (hnc : ¬ hasChangesVida row r) :
    processVida b cor m d0 db (some r) =
      ({ db with
           clients := db.clients ++ [clientStub db (vidaCpf m r) (some "Cliente não informado") b TENANT_ID],
           nextId := db.nextId + 1 },
       Cnt.ex1) := by
  simp only [vidaCpf] at hcpf hcid
  simp only [findProductRow] at hrow
  have hg := get_or_create_new (some "Cliente não informado") (b := b) hcid
  simp [processVida, hst, hcan, hcpf, hg, findProductRow, hrow, hnc, clientStub, vidaCpf]

theorem processVida_create_change (b : Nat) (cor : Val) (m : Dict) (d0 db : DB) (r : VidaRec)
    (st : String) (row : ProdRow)
    (hst : safe_str (pyGetD r.situacao_produto (.vs "")) = some st)
    (hcan : ¬ upperStr st = "CANCELADO")
    (hcpf : (vidaCpf m r).truthy = true)
    (hcid : get_client_id db (vidaCpf m r) TENANT_ID = none)
    (hrow : findProductRow db db.nextId (vidaProposalNumber r) (vidaCertificateNumber r) (vidaCoverageName r) = some row)
    (hc : hasChangesVida row r) :
    processVida b cor m d0 db (some r) =
      ({ db with
           clients := db.clients ++ [clientStub db (vidaCpf m r) (some "Cliente não informado") b TENANT_ID],
           products := updateById ProdRow.id row.id (vidaUpdatedRow cor r) db.products,
           nextId := db.nextId + 1 },
       Cnt.atu1) := by
  simp only [vidaCpf] at hcpf hcid
  simp only [findProductRow] at hrow
  have hg := get_or_create_new (some "Cliente não informado") (b := b) hcid
  simp [processVida, hst, hcan, hcpf, hg, findProductRow, hrow, hc, clientStub, vidaCpf]

theorem processVida_create_notfound (b : Nat) (cor : Val) (m : Dict) (d0 db : DB) (r : VidaRec)
    (st : String)
    (hst : safe_str (pyGetD r.situacao_produto (.vs "")) = some st)
    (hcan : ¬ upperStr st = "CANCELADO")
    (hcpf : (vidaCpf m r).truthy = true)
    (hcid : get_client_id db (vidaCpf m r) TENANT_ID = none)
    (hrow : findProductRow db db.nextId (vidaProposalNumber r) (vidaCertificateNumber r) (vidaCoverageName r) = none) :
    processVida b cor m d0 db (some r) =
      ({ db with
           clients := db.clients ++ [clientStub db (vidaCpf m r) (some "Cliente não informado") b TENANT_ID],
           products := db.products ++ [vidaInsertRow (db.nextId + 1) db.nextId cor r],
           nextId := db.nextId + 1 + 1 },
       Cnt.ins1) := by
  simp only [vidaCpf] at hcpf hcid
  simp only [findProductRow] at hrow
  have hg := get_or_create_new (some "Cliente não informado") (b := b) hcid
  simp [processVida, hst, hcan, hcpf, hg, findProductRow, hrow, clientStub, vidaCpf]

/-- A life-product batch item is settled against a store. -/
def vidaSettled (b : Nat) (cor : Val) (m : Dict) (db : DB) (item : Option VidaRec) : Prop :=
  ∀ r, item = some r → vidaEligibleB m (some r) = true →
    ∃ cid row,
      get_client_id db (vidaCpf m r) TENANT_ID = some cid ∧
      findProductRow db cid (vidaProposalNumber r) (vidaCertificateNumber r) (vidaCoverageName r) = some row ∧
      ¬ hasChangesVida row r

theorem vidaEligibleB_some {m : Dict} {r : VidaRec} {st : String}
    (hst : safe_str (pyGetD r.situacao_produto (.vs "")) = some st)
    (he : vidaEligibleB m (some r) = true) :
    ¬ upperStr st = "CANCELADO" ∧ (vidaCpf m r).truthy = true := by
  have h := he
  simp only [vidaEligibleB, hst, Bool.and_eq_true, Bool.not_eq_true'] at h
  refine ⟨?_, h.2⟩
  intro hc
  rw [hc] at h
  simp at h

theorem vidaUpdatedRow_nochange (cor : Val) (r : VidaRec) (row : ProdRow) :
    ¬ hasChangesVida (vidaUpdatedRow cor r row) r := by
  simp [hasChangesVida, vidaUpdatedRow]

theorem vidaInsertRow_nochange (i cid : Nat) (cor : Val) (r : VidaRec) :
    ¬ hasChangesVida (vidaInsertRow i cid cor r) r := by
  simp [hasChangesVida, vidaInsertRow]

/-- A life-product item that cannot raise in the status normalisation:
absent, or a dict whose (defaulted) `situacao_produto` stringifies, so
the handler's `conn.rollback()` is never reached. -/
def vidaNoExc (item : Option VidaRec) : Prop :=
  ∀ r, item = some r → (safe_str (pyGetD r.situacao_produto (.vs ""))).isSome = true

/-- Processing a settled, non-raising life-product item leaves the
store untouched. -/
theorem vidaSettled_noop {b : Nat} {cor : Val} {m : Dict} {d0 db : DB} {item : Option VidaRec}
    (hnx : vidaNoExc item) (hS : vidaSettled b cor m db item) :
    (processVida b cor m d0 db item).1 = db ∧
    (processVida b cor m d0 db item).2.ins = 0 ∧
    (processVida b cor m d0 db item).2.atu = 0 ∧
    (processVida b cor m d0 db item).2.ex = (if vidaEligibleB m item then 1 else 0) := by
  match item with
  | none =>
    rw [processVida_none]
    simp [Cnt.pul1, vidaEligibleB]
  | some r =>
    cases hst : safe_str (pyGetD r.situacao_produto (.vs "")) with
    | none =>
      have hx := hnx r rfl
      rw [hst] at hx
      simp at hx
    | some st =>
      by_cases hcan : upperStr st = "CANCELADO"
      · rw [processVida_cancel b cor m d0 db r st hst hcan]
        simp [Cnt.cancel1, vidaEligibleB, hst, hcan]
      · cases hcpf : (vidaCpf m r).truthy with
        | false =>
          rw [processVida_skipCpf b cor m d0 db r st hst hcan hcpf]
          have : vidaEligibleB m (some r) = false := by
            simp only [vidaEligibleB, hst]
            simp [vidaCpf] at hcpf
            simp [hcpf]
          simp [Cnt.pul1, this]
        | true =>
          have he : vidaEligibleB m (some r) = true := by
            simp only [vidaEligibleB, hst]
            simp [vidaCpf] at hcpf
            simp [hcpf, hcan]
          obtain ⟨cid, row, hcid, hrow, hnc⟩ := hS r rfl he
          rw [processVida_found_nochange b cor m d0 db r st row cid hst hcan hcpf hcid hrow hnc]
          simp [Cnt.ex1, he]

/-- The life-product step preserves store well-formedness. -/
theorem processVida_WF {b : Nat} {cor : Val} {m : Dict} {d0 db : DB} {item : Option VidaRec}
    (hWF0 : d0.WF) (hWF : db.WF) : ((processVida b cor m d0 db item).1).WF := by
  obtain ⟨hc, hp, hd, hpr⟩ := hWF
  match item with
  | none => rw [processVida_none]; exact ⟨hc, hp, hd, hpr⟩
  | some r =>
    cases hst : safe_str (pyGetD r.situacao_produto (.vs "")) with
    | none => rw [processVida_exc b cor m d0 db r hst]; exact hWF0
    | some st =>
      by_cases hcan : upperStr st = "CANCELADO"
      · rw [processVida_cancel b cor m d0 db r st hst hcan]; exact ⟨hc, hp, hd, hpr⟩
      · cases hcpf : (vidaCpf m r).truthy with
        | false => rw [processVida_skipCpf b cor m d0 db r st hst hcan hcpf]; exact ⟨hc, hp, hd, hpr⟩
        | true =>
          have hupd : ∀ (eid : Nat),
              (updateById ProdRow.id eid (vidaUpdatedRow cor r) db.products).map ProdRow.id =
                db.products.map ProdRow.id :=
            fun eid => updateById_map_id ProdRow.id eid _ db.products (fun x => rfl)
          cases hcid : get_client_id db (vidaCpf m r) TENANT_ID with
          | some cid =>
            cases hrow : findProductRow db cid (vidaProposalNumber r) (vidaCertificateNumber r)
                (vidaCoverageName r) with
            | some row =>
              by_cases hch : hasChangesVida row r
              · rw [processVida_found_change b cor m d0 db r st row cid hst hcan hcpf hcid hrow hch]
                refine ⟨hc, hp, hd, ?_⟩
                show idsOk ((updateById ProdRow.id row.id (vidaUpdatedRow cor r)
                  db.products).map ProdRow.id) db.nextId
                rw [hupd row.id]
                exact hpr
              · rw [processVida_found_nochange b cor m d0 db r st row cid hst hcan hcpf hcid hrow hch]
                exact ⟨hc, hp, hd, hpr⟩
            | none =>
              rw [processVida_notfound b cor m d0 db r st cid hst hcan hcpf hcid hrow]
              refine ⟨idsOk_mono hc (Nat.le_succ _), idsOk_mono hp (Nat.le_succ _),
                      idsOk_mono hd (Nat.le_succ _), ?_⟩
              have := idsOk_append_fresh (db.products.map ProdRow.id) hpr
              simpa [vidaInsertRow] using this
          | none =>
            cases hrow : findProductRow db db.nextId (vidaProposalNumber r) (vidaCertificateNumber r)
                (vidaCoverageName r) with
            | some row =>
              by_cases hch : hasChangesVida row r
              · rw [processVida_create_change b cor m d0 db r st row hst hcan hcpf hcid hrow hch]
                refine ⟨?_, idsOk_mono hp (Nat.le_succ _), idsOk_mono hd (Nat.le_succ _), ?_⟩
                · have := idsOk_append_fresh (db.clients.map ClientRow.id) hc
                  simpa [clientStub] using this
                · show idsOk ((updateById ProdRow.id row.id (vidaUpdatedRow cor r)
                    db.products).map ProdRow.id) (db.nextId + 1)
                  rw [hupd row.id]
                  exact idsOk_mono hpr (Nat.le_succ _)
              · rw [processVida_create_nochange b cor m d0 db r st row hst hcan hcpf hcid hrow hch]
                refine ⟨?_, idsOk_mono hp (Nat.le_succ _), idsOk_mono hd (Nat.le_succ _),
                        idsOk_mono hpr (Nat.le_succ _)⟩
                have := idsOk_append_fresh (db.clients.map ClientRow.id) hc
                simpa [clientStub] using this
            | none =>
              rw [processVida_create_notfound b cor m d0 db r st hst hcan hcpf hcid hrow]
              refine ⟨?_, idsOk_mono hp (by dsimp only; omega), idsOk_mono hd (by dsimp only; omega), ?_⟩
              · have h1 := idsOk_append_fresh (db.clients.map ClientRow.id) hc
                have h2 := idsOk_mono h1 (Nat.le_succ _)
                simpa [clientStub] using h2
              · have h1 := idsOk_mono hpr (Nat.le_succ _)
                have h2 := idsOk_append_fresh (db.products.map ProdRow.id) h1
                simpa [vidaInsertRow] using h2

theorem vidaKeys_disjoint {r q : VidaRec} (hkey : vidaKey r ≠ vidaKey q) (cid cidq : Nat) :
    ∀ z : ProdRow, ¬ ((z.tenant_id = TENANT_ID ∧ z.client_id = cid ∧
        z.proposal_number = vidaProposalNumber r ∧ z.certificate_number = vidaCertificateNumber r ∧
        z.coverage_name = vidaCoverageName r) ∧
      (z.tenant_id = TENANT_ID ∧ z.client_id = cidq ∧
        z.proposal_number = vidaProposalNumber q ∧ z.certificate_number = vidaCertificateNumber q ∧
        z.coverage_name = vidaCoverageName q)) := by
  rintro z ⟨⟨_, _, h3, h4, h5⟩, ⟨_, _, g3, g4, g5⟩⟩
  exact hkey (by unfold vidaKey; rw [← h3, g3, ← h4, g4, ← h5, g5])

theorem vidaUpd_not_match {r q : VidaRec} (hkey : vidaKey r ≠ vidaKey q) (cor : Val) (cid cidq : Nat) :
    ∀ z : ProdRow,
      (z.tenant_id = TENANT_ID ∧ z.client_id = cidq ∧ z.proposal_number = vidaProposalNumber q ∧
        z.certificate_number = vidaCertificateNumber q ∧ z.coverage_name = vidaCoverageName q) →
      ¬ ((vidaUpdatedRow cor q z).tenant_id = TENANT_ID ∧ (vidaUpdatedRow cor q z).client_id = cid ∧
        (vidaUpdatedRow cor q z).proposal_number = vidaProposalNumber r ∧
        (vidaUpdatedRow cor q z).certificate_number = vidaCertificateNumber r ∧
        (vidaUpdatedRow cor q z).coverage_name = vidaCoverageName r) := by
  rintro z ⟨_, _, g3, g4, g5⟩ ⟨_, _, h3, h4, h5⟩
  have e3 : z.proposal_number = vidaProposalNumber r := h3
  have e4 : z.certificate_number = vidaCertificateNumber r := h4
  have e5 : vidaCoverageName q = vidaCoverageName r := h5
  exact hkey (by unfold vidaKey; rw [← e3, g3, ← e4, g4, ← e5])

/-- After its own step, a life-product item is settled. -/
theorem vidaSettled_self {b : Nat} {cor : Val} {m : Dict} {d0 db : DB} {item : Option VidaRec}
    (hWF : db.WF) :
    vidaSettled b cor m (processVida b cor m d0 db item).1 item := by
  match item with
  | none => intro r1 hr1 _; cases hr1
  | some r =>
    intro r1 hr1 he
    cases hr1
    cases hst : safe_str (pyGetD r.situacao_produto (.vs "")) with
    | none => simp [vidaEligibleB, hst] at he
    | some st =>
      obtain ⟨hcan, hcpf⟩ := vidaEligibleB_some hst he
      cases hcid : get_client_id db (vidaCpf m r) TENANT_ID with
      | some cid =>
        cases hrow : findProductRow db cid (vidaProposalNumber r) (vidaCertificateNumber r)
            (vidaCoverageName r) with
        | some row =>
          by_cases hch : hasChangesVida row r
          · rw [processVida_found_change b cor m d0 db r st row cid hst hcan hcpf hcid hrow hch]
            refine ⟨cid, vidaUpdatedRow cor r row, hcid, ?_, vidaUpdatedRow_nochange cor r row⟩
            have hrowFW : firstWhere (fun z : ProdRow => z.tenant_id = TENANT_ID ∧
                z.client_id = cid ∧ z.proposal_number = vidaProposalNumber r ∧
                z.certificate_number = vidaCertificateNumber r ∧
                z.coverage_name = vidaCoverageName r) db.products = some row := hrow
            have hmem := firstWhere_eq_some hrowFW
            exact firstWhere_update_self _ db.products ProdRow.id (vidaUpdatedRow cor r)
              hWF.2.2.2.2 hrowFW
              ⟨hmem.1.1, hmem.1.2.1, hmem.1.2.2.1, hmem.1.2.2.2.1, rfl⟩
          · rw [processVida_found_nochange b cor m d0 db r st row cid hst hcan hcpf hcid hrow hch]
            exact ⟨cid, row, hcid, hrow, hch⟩
        | none =>
          rw [processVida_notfound b cor m d0 db r st cid hst hcan hcpf hcid hrow]
          refine ⟨cid, vidaInsertRow db.nextId cid cor r, hcid, ?_,
                  vidaInsertRow_nochange db.nextId cid cor r⟩
          have hfw : firstWhere (fun z : ProdRow => z.tenant_id = TENANT_ID ∧
              z.client_id = cid ∧ z.proposal_number = vidaProposalNumber r ∧
              z.certificate_number = vidaCertificateNumber r ∧
              z.coverage_name = vidaCoverageName r) db.products = none := hrow
          show firstWhere _ (db.products ++ [vidaInsertRow db.nextId cid cor r]) = _
          rw [firstWhere_append_none _ hfw]
          simp [firstWhere, vidaInsertRow]
      | none =>
        have hfwc : firstWhere (fun z : ClientRow => z.documento = vidaCpf m r ∧
            z.tenant_id = TENANT_ID) db.clients = none := by
          cases hfw0 : firstWhere (fun z : ClientRow => z.documento = vidaCpf m r ∧
              z.tenant_id = TENANT_ID) db.clients with
          | none => rfl
          | some r0 =>
            unfold get_client_id at hcid
            rw [hfw0] at hcid
            simp at hcid
        have hstub : ∀ (db' : DB), db'.clients = db.clients ++
              [clientStub db (vidaCpf m r) (some "Cliente não informado") b TENANT_ID] →
            get_client_id db' (vidaCpf m r) TENANT_ID = some db.nextId := by
          intro db' hdc
          unfold get_client_id
          rw [hdc, firstWhere_append_none _ hfwc]
          simp [firstWhere, clientStub]
        cases hrow : findProductRow db db.nextId (vidaProposalNumber r) (vidaCertificateNumber r)
            (vidaCoverageName r) with
        | some row =>
          by_cases hch : hasChangesVida row r
          · rw [processVida_create_change b cor m d0 db r st row hst hcan hcpf hcid hrow hch]
            refine ⟨db.nextId, vidaUpdatedRow cor r row, hstub _ rfl, ?_,
                    vidaUpdatedRow_nochange cor r row⟩
            have hrowFW : firstWhere (fun z : ProdRow => z.tenant_id = TENANT_ID ∧
                z.client_id = db.nextId ∧ z.proposal_number = vidaProposalNumber r ∧
                z.certificate_number = vidaCertificateNumber r ∧
                z.coverage_name = vidaCoverageName r) db.products = some row := hrow
            have hmem := firstWhere_eq_some hrowFW
            exact firstWhere_update_self _ db.products ProdRow.id (vidaUpdatedRow cor r)
              hWF.2.2.2.2 hrowFW
              ⟨hmem.1.1, hmem.1.2.1, hmem.1.2.2.1, hmem.1.2.2.2.1, rfl⟩
          · rw [processVida_create_nochange b cor m d0 db r st row hst hcan hcpf hcid hrow hch]
            exact ⟨db.nextId, row, hstub _ rfl, hrow, hch⟩
        | none =>
          rw [processVida_create_notfound b cor m d0 db r st hst hcan hcpf hcid hrow]
          refine ⟨db.nextId, vidaInsertRow (db.nextId + 1) db.nextId cor r, hstub _ rfl, ?_,
                  vidaInsertRow_nochange (db.nextId + 1) db.nextId cor r⟩
          have hfw : firstWhere (fun z : ProdRow => z.tenant_id = TENANT_ID ∧
              z.client_id = db.nextId ∧ z.proposal_number = vidaProposalNumber r ∧
              z.certificate_number = vidaCertificateNumber r ∧
              z.coverage_name = vidaCoverageName r) db.products = none := hrow
          show firstWhere _ (db.products ++ [vidaInsertRow (db.nextId + 1) db.nextId cor r]) = _
          rw [firstWhere_append_none _ hfw]
          simp [firstWhere, vidaInsertRow]

/-- Processing a different-keyed (or skipped) life-product item cannot
unsettle a settled one. -/
theorem vidaSettled_preserve {b : Nat} {cor : Val} {m : Dict} {d0 db : DB} {item item' : Option VidaRec}
    (hWF : db.WF) (hS : vidaSettled b cor m db item)
    (hcompat : ∀ r q, item = some r → item' = some q →
      vidaEligibleB m (some r) = true → vidaEligibleB m (some q) = true → vidaKey r ≠ vidaKey q)
    (hnx' : vidaNoExc item') :
    vidaSettled b cor m (processVida b cor m d0 db item').1 item := by
  intro r hr he
  obtain ⟨cid, row, hcid, hrow, hnc⟩ := hS r hr he
  match item' with
  | none =>
    rw [processVida_none]
    exact ⟨cid, row, hcid, hrow, hnc⟩
  | some q =>
    cases hstq : safe_str (pyGetD q.situacao_produto (.vs "")) with
    | none =>
      have hx := hnx' q rfl
      rw [hstq] at hx
      simp at hx
    | some stq =>
      by_cases hcanq : upperStr stq = "CANCELADO"
      · rw [processVida_cancel b cor m d0 db q stq hstq hcanq]
        exact ⟨cid, row, hcid, hrow, hnc⟩
      · cases hcpfq : (vidaCpf m q).truthy with
        | false =>
          rw [processVida_skipCpf b cor m d0 db q stq hstq hcanq hcpfq]
          exact ⟨cid, row, hcid, hrow, hnc⟩
        | true =>
          have heq : vidaEligibleB m (some q) = true := by
            simp only [vidaEligibleB, hstq]
            simp [vidaCpf] at hcpfq
            simp [hcpfq, hcanq]
          have hkey : vidaKey r ≠ vidaKey q := hcompat r q hr rfl he heq
          have hrowFW : firstWhere (fun z : ProdRow => z.tenant_id = TENANT_ID ∧
              z.client_id = cid ∧ z.proposal_number = vidaProposalNumber r ∧
              z.certificate_number = vidaCertificateNumber r ∧
              z.coverage_name = vidaCoverageName r) db.products = some row := hrow
          obtain ⟨crow, hcrow, hcrowid⟩ := Option.map_eq_some'.mp hcid
          have happ : ∀ (more : List ClientRow),
              (firstWhere (fun z : ClientRow => z.documento = vidaCpf m r ∧
                z.tenant_id = TENANT_ID) (db.clients ++ more)).map ClientRow.id = some cid := by
            intro more
            rw [firstWhere_append_some more hcrow]
            simp [hcrowid]
          have hupd : ∀ (cidq : Nat) (rowq : ProdRow),
              findProductRow db cidq (vidaProposalNumber q) (vidaCertificateNumber q)
                (vidaCoverageName q) = some rowq →
              firstWhere (fun z : ProdRow => z.tenant_id = TENANT_ID ∧
                z.client_id = cid ∧ z.proposal_number = vidaProposalNumber r ∧
                z.certificate_number = vidaCertificateNumber r ∧
                z.coverage_name = vidaCoverageName r)
                (updateById ProdRow.id rowq.id (vidaUpdatedRow cor q) db.products) = some row := by
            intro cidq rowq hrowq
            have hrowqFW : firstWhere (fun z : ProdRow => z.tenant_id = TENANT_ID ∧
                z.client_id = cidq ∧ z.proposal_number = vidaProposalNumber q ∧
                z.certificate_number = vidaCertificateNumber q ∧
                z.coverage_name = vidaCoverageName q) db.products = some rowq := hrowq
            exact firstWhere_update_other _ _ db.products ProdRow.id (vidaUpdatedRow cor q)
              hWF.2.2.2.2 hrowFW hrowqFW (vidaKeys_disjoint hkey cid cidq)
              (vidaUpd_not_match hkey cor cid cidq)
          cases hcidq : get_client_id db (vidaCpf m q) TENANT_ID with
          | some cidq =>
            cases hrowq : findProductRow db cidq (vidaProposalNumber q) (vidaCertificateNumber q)
                (vidaCoverageName q) with
            | some rowq =>
              by_cases hchq : hasChangesVida rowq q
              · rw [processVida_found_change b cor m d0 db q stq rowq cidq hstq hcanq hcpfq hcidq hrowq hchq]
                exact ⟨cid, row, hcid, hupd cidq rowq hrowq, hnc⟩
              · rw [processVida_found_nochange b cor m d0 db q stq rowq cidq hstq hcanq hcpfq hcidq hrowq hchq]
                exact ⟨cid, row, hcid, hrow, hnc⟩
            | none =>
              rw [processVida_notfound b cor m d0 db q stq cidq hstq hcanq hcpfq hcidq hrowq]
              exact ⟨cid, row, hcid, firstWhere_append_some _ hrowFW, hnc⟩
          | none =>
            cases hrowq : findProductRow db db.nextId (vidaProposalNumber q) (vidaCertificateNumber q)
                (vidaCoverageName q) with
            | some rowq =>
              by_cases hchq : hasChangesVida rowq q
              · rw [processVida_create_change b cor m d0 db q stq rowq hstq hcanq hcpfq hcidq hrowq hchq]
                exact ⟨cid, row, happ _, hupd db.nextId rowq hrowq, hnc⟩
              · rw [processVida_create_nochange b cor m d0 db q stq rowq hstq hcanq hcpfq hcidq hrowq hchq]
                exact ⟨cid, row, happ _, hrow, hnc⟩
            | none =>
              rw [processVida_create_notfound b cor m d0 db q stq hstq hcanq hcpfq hcidq hrowq]
              exact ⟨cid, row, happ _, firstWhere_append_some _ hrowFW, hnc⟩

/-! ### Stability of pension-product records -/

/-- Eligibility of a pension-product item (reaches the upsert): a dict with
a stringifiable status that is not cancelled and a resolvable
document. -/
def prevEligibleB (m : Dict) (item : Option PrevRec) : Bool :=
  match item with
  | none => false
  | some r =>
    match safe_str (pyGetD r.situacao_produto (.vs "Ativo")) with
    | none => false
    | some st => (!(upperStr st = "CANCELADO" : Bool)) && (dictGetV m (pyGet r.id_cliente)).truthy

def prevCpf (m : Dict) (r : PrevRec) : Val := dictGetV m (pyGet r.id_cliente)

def prevKey (r : PrevRec) : Option String × Option String × Option String :=
  (prevProposalNumber r, prevCertificateNumber r, prevCoverageName r)

theorem processPrev_none (b : Nat) (cor : Val) (m : Dict) (d0 db : DB) :
    processPrev b cor m d0 db none = (db, Cnt.pul1) := rfl

theorem processPrev_exc (b : Nat) (cor : Val) (m : Dict) (d0 db : DB) (r : PrevRec)
    (hst : safe_str (pyGetD r.situacao_produto (.vs "Ativo")) = none) :
    processPrev b cor m d0 db (some r) = (d0, Cnt.zero) := by
  simp [processPrev, hst]

theorem processPrev_cancel (b : Nat) (cor : Val) (m : Dict) (d0 db : DB) (r : PrevRec) (st : String)
    (hst : safe_str (pyGetD r.situacao_produto (.vs "Ativo")) = some st)
    (hcan : upperStr st = "CANCELADO") :
    processPrev b cor m d0 db (some r) = (db, Cnt.cancel1) := by
  simp [processPrev, hst, hcan]

theorem processPrev_skipCpf (b : Nat) (cor : Val) (m : Dict) (d0 db : DB) (r : PrevRec) (st : String)
    (hst : safe_str (pyGetD r.situacao_produto (.vs "Ativo")) = some st)
    (hcan : ¬ upperStr st = "CANCELADO")
    (hcpf : (prevCpf m r).truthy = false) :
    processPrev b cor m d0 db (some r) = (db, Cnt.pul1) := by
  simp only [prevCpf] at hcpf
  simp [processPrev, hst, hcan, hcpf]

theorem processPrev_found_nochange (b : Nat) (cor : Val) (m : Dict) (d0 db : DB) (r : PrevRec)
    (st : String) (row : ProdRow) (cid : Nat)
    (hst : safe_str (pyGetD r.situacao_produto (.vs "Ativo")) = some st)
    (hcan : ¬ upperStr st = "CANCELADO")
    (hcpf : (prevCpf m r).truthy = true)
    (hcid : get_client_id db (prevCpf m r) TENANT_ID = some cid)
    (hrow : findProductRow db cid (prevProposalNumber r) (prevCertificateNumber r) (prevCoverageName r) = some row)
    (hnc : ¬ hasChangesPrev row r) :
    processPrev b cor m d0 db (some r) = (db, Cnt.ex1) := by
  simp only [prevCpf] at hcpf hcid
  simp [processPrev, hst, hcan, hcpf, get_or_create_found hcid, hrow, hnc]

theorem processPrev_found_change (b : Nat) (cor : Val) (m : Dict) (d0 db : DB) (r : PrevRec)
    (st : String) (row : ProdRow) (cid : Nat)
    (hst : safe_str (pyGetD r.situacao_produto (.vs "Ativo")) = some st)
    (hcan : ¬ upperStr st = "CANCELADO")
    (hcpf : (prevCpf m r).truthy = true)
    (hcid : get_client_id db (prevCpf m r) TENANT_ID = some cid)
    (hrow : findProductRow db cid (prevProposalNumber r) (prevCertificateNumber r) (prevCoverageName r) = some row)
    (hc : hasChangesPrev row r) :
    processPrev b cor m d0 db (some r) =
      ({ db with products := updateById ProdRow.id row.id (prevUpdatedRow cor r) db.products },
       Cnt.atu1) := by
  simp only [prevCpf] at hcpf hcid
  simp [processPrev, hst, hcan, hcpf, get_or_create_found hcid, hrow, hc]

theorem processPrev_notfound (b : Nat) (cor : Val) (m : Dict) (d0 db : DB) (r : PrevRec)
    (st : String) (cid : Nat)
    (hst : safe_str (pyGetD r.situacao_produto (.vs "Ativo")) = some st)
    (hcan : ¬ upperStr st = "CANCELADO")
    (hcpf : (prevCpf m r).truthy = true)
    (hcid : get_client_id db (prevCpf m r) TENANT_ID = some cid)
    (hrow : findProductRow db cid (prevProposalNumber r) (prevCertificateNumber r) (prevCoverageName r) = none) :
    processPrev b cor m d0 db (some r) =
      ({ db with products := db.products ++ [prevInsertRow db.nextId cid cor r],
                 nextId := db.nextId + 1 },
       Cnt.ins1) := by
  simp only [prevCpf] at hcpf hcid
  simp [processPrev, hst, hcan, hcpf, get_or_create_found hcid, hrow]

theorem processPrev_create_nochange (b : Nat) (cor : Val) (m : Dict) (d0 db : DB) (r : PrevRec)
    (st : String) (row : ProdRow)
    (hst : safe_str (pyGetD r.situacao_produto (.vs "Ativo")) = some st)
    (hcan : ¬ upperStr st = "CANCELADO")
    (hcpf : (prevCpf m r).truthy = true)
    (hcid : get_client_id db (prevCpf m r) TENANT_ID = none)
    (hrow : findProductRow db db.nextId (prevProposalNumber r) (prevCertificateNumber r) (prevCoverageName r) = some row)
    (hnc : ¬ hasChangesPrev row r) :
    processPrev b cor m d0 db (some r) =
      ({ db with
           clients := db.clients ++ [clientStub db (prevCpf m r) (some "Cliente não informado") b TENANT_ID],
           nextId := db.nextId + 1 },
       Cnt.ex1) := by
  simp only [prevCpf] at hcpf hcid
  simp only [findProductRow] at hrow
  have hg := get_or_create_new (some "Cliente não informado") (b := b) hcid
  simp [processPrev, hst, hcan, hcpf, hg, findProductRow, hrow, hnc, clientStub, prevCpf]

theorem processPrev_create_change (b : Nat) (cor : Val) (m : Dict) (d0 db : DB) (r : PrevRec)
    (st : String) (row : ProdRow)
    (hst : safe_str (pyGetD r.situacao_produto (.vs "Ativo")) = some st)
    (hcan : ¬ upperStr st = "CANCELADO")
    (hcpf : (prevCpf m r).truthy = true)
    (hcid : get_client_id db (prevCpf m r) TENANT_ID = none)
    (hrow : findProductRow db db.nextId (prevProposalNumber r) (prevCertificateNumber r) (prevCoverageName r) = some row)
    (hc : hasChangesPrev row r) :
    processPrev b cor m d0 db (some r) =
      ({ db with
           clients := db.clients ++ [clientStub db (prevCpf m r) (some "Cliente não informado") b TENANT_ID],
           products := updateById ProdRow.id row.id (prevUpdatedRow cor r) db.products,
           nextId := db.nextId + 1 },
       Cnt.atu1) := by
  simp only [prevCpf] at hcpf hcid
  simp only [findProductRow] at hrow
  have hg := get_or_create_new (some "Cliente não informado") (b := b) hcid
  simp [processPrev, hst, hcan, hcpf, hg, findProductRow, hrow, hc, clientStub, prevCpf]

theorem processPrev_create_notfound (b : Nat) (cor : Val) (m : Dict) (d0 db : DB) (r : PrevRec)
    (st : String)
    (hst : safe_str (pyGetD r.situacao_produto (.vs "Ativo")) = some st)
    (hcan : ¬ upperStr st = "CANCELADO")
    (hcpf : (prevCpf m r).truthy = true)
    (hcid : get_client_id db (prevCpf m r) TENANT_ID = none)
    (hrow : findProductRow db db.nextId (prevProposalNumber r) (prevCertificateNumber r) (prevCoverageName r) = none) :
    processPrev b cor m d0 db (some r) =
      ({ db with
           clients := db.clients ++ [clientStub db (prevCpf m r) (some "Cliente não informado") b TENANT_ID],
           products := db.products ++ [prevInsertRow (db.nextId + 1) db.nextId cor r],
           nextId := db.nextId + 1 + 1 },
       Cnt.ins1) := by
  simp only [prevCpf] at hcpf hcid
  simp only [findProductRow] at hrow
  have hg := get_or_create_new (some "Cliente não informado") (b := b) hcid
  simp [processPrev, hst, hcan, hcpf, hg, findProductRow, hrow, clientStub, prevCpf]

/-- A pension-product batch item is settled against a store. -/
def prevSettled (b : Nat) (cor : Val) (m : Dict) (db : DB) (item : Option PrevRec) : Prop :=
  ∀ r, item = some r → prevEligibleB m (some r) = true →
    ∃ cid row,
      get_client_id db (prevCpf m r) TENANT_ID = some cid ∧
      findProductRow db cid (prevProposalNumber r) (prevCertificateNumber r) (prevCoverageName r) = some row ∧
      ¬ hasChangesPrev row r

theorem prevEligibleB_some {m : Dict} {r : PrevRec} {st : String}
    (hst : safe_str (pyGetD r.situacao_produto (.vs "Ativo")) = some st)
    (he : prevEligibleB m (some r) = true) :
    ¬ upperStr st = "CANCELADO" ∧ (prevCpf m r).truthy = true := by
  have h := he
  simp only [prevEligibleB, hst, Bool.and_eq_true, Bool.not_eq_true'] at h
  refine ⟨?_, h.2⟩
  intro hc
  rw [hc] at h
  simp at h

theorem prevUpdatedRow_nochange (cor : Val) (r : PrevRec) (row : ProdRow) :
    ¬ hasChangesPrev (prevUpdatedRow cor r row) r := by
  simp [hasChangesPrev, prevUpdatedRow]

theorem prevInsertRow_nochange (i cid : Nat) (cor : Val) (r : PrevRec) :
    ¬ hasChangesPrev (prevInsertRow i cid cor r) r := by
  simp [hasChangesPrev, prevInsertRow]

/-- A pension-product item that cannot raise in the status
normalisation (default `'Ativo'`). -/
def prevNoExc (item : Option PrevRec) : Prop :=
  ∀ r, item = some r → (safe_str (pyGetD r.situacao_produto (.vs "Ativo"))).isSome = true

/-- Processing a settled, non-raising pension-product item leaves the
store untouched. -/
theorem prevSettled_noop {b : Nat} {cor : Val} {m : Dict} {d0 db : DB} {item : Option PrevRec}
    (hnx : prevNoExc item) (hS : prevSettled b cor m db item) :
    (processPrev b cor m d0 db item).1 = db ∧
    (processPrev b cor m d0 db item).2.ins = 0 ∧
    (processPrev b cor m d0 db item).2.atu = 0 ∧
    (processPrev b cor m d0 db item).2.ex = (if prevEligibleB m item then 1 else 0) := by
  match item with
  | none =>
    rw [processPrev_none]
    simp [Cnt.pul1, prevEligibleB]
  | some r =>
    cases hst : safe_str (pyGetD r.situacao_produto (.vs "Ativo")) with
    | none =>
      have hx := hnx r rfl
      rw [hst] at hx
      simp at hx
    | some st =>
      by_cases hcan : upperStr st = "CANCELADO"
      · rw [processPrev_cancel b cor m d0 db r st hst hcan]
        simp [Cnt.cancel1, prevEligibleB, hst, hcan]
      · cases hcpf : (prevCpf m r).truthy with
        | false =>
          rw [processPrev_skipCpf b cor m d0 db r st hst hcan hcpf]
          have : prevEligibleB m (some r) = false := by
            simp only [prevEligibleB, hst]
            simp [prevCpf] at hcpf
            simp [hcpf]
          simp [Cnt.pul1, this]
        | true =>
          have he : prevEligibleB m (some r) = true := by
            simp only [prevEligibleB, hst]
            simp [prevCpf] at hcpf
            simp [hcpf, hcan]
          obtain ⟨cid, row, hcid, hrow, hnc⟩ := hS r rfl he
          rw [processPrev_found_nochange b cor m d0 db r st row cid hst hcan hcpf hcid hrow hnc]
          simp [Cnt.ex1, he]

/-- The pension-product step preserves store well-formedness. -/
theorem processPrev_WF {b : Nat} {cor : Val} {m : Dict} {d0 db : DB} {item : Option PrevRec}
    (hWF0 : d0.WF) (hWF : db.WF) : ((processPrev b cor m d0 db item).1).WF := by
  obtain ⟨hc, hp, hd, hpr⟩ := hWF
  match item with
  | none => rw [processPrev_none]; exact ⟨hc, hp, hd, hpr⟩
  | some r =>
    cases hst : safe_str (pyGetD r.situacao_produto (.vs "Ativo")) with
    | none => rw [processPrev_exc b cor m d0 db r hst]; exact hWF0
    | some st =>
      by_cases hcan : upperStr st = "CANCELADO"
      · rw [processPrev_cancel b cor m d0 db r st hst hcan]; exact ⟨hc, hp, hd, hpr⟩
      · cases hcpf : (prevCpf m r).truthy with
        | false => rw [processPrev_skipCpf b cor m d0 db r st hst hcan hcpf]; exact ⟨hc, hp, hd, hpr⟩
        | true =>
          have hupd : ∀ (eid : Nat),
              (updateById ProdRow.id eid (prevUpdatedRow cor r) db.products).map ProdRow.id =
                db.products.map ProdRow.id :=
            fun eid => updateById_map_id ProdRow.id eid _ db.products (fun x => rfl)
          cases hcid : get_client_id db (prevCpf m r) TENANT_ID with
          | some cid =>
            cases hrow : findProductRow db cid (prevProposalNumber r) (prevCertificateNumber r)
                (prevCoverageName r) with
            | some row =>
              by_cases hch : hasChangesPrev row r
              · rw [processPrev_found_change b cor m d0 db r st row cid hst hcan hcpf hcid hrow hch]
                refine ⟨hc, hp, hd, ?_⟩
                show idsOk ((updateById ProdRow.id row.id (prevUpdatedRow cor r)
                  db.products).map ProdRow.id) db.nextId
                rw [hupd row.id]
                exact hpr
              · rw [processPrev_found_nochange b cor m d0 db r st row cid hst hcan hcpf hcid hrow hch]
                exact ⟨hc, hp, hd, hpr⟩
            | none =>
              rw [processPrev_notfound b cor m d0 db r st cid hst hcan hcpf hcid hrow]
              refine ⟨idsOk_mono hc (Nat.le_succ _), idsOk_mono hp (Nat.le_succ _),
                      idsOk_mono hd (Nat.le_succ _), ?_⟩
              have := idsOk_append_fresh (db.products.map ProdRow.id) hpr
              simpa [prevInsertRow] using this
          | none =>
            cases hrow : findProductRow db db.nextId (prevProposalNumber r) (prevCertificateNumber r)
                (prevCoverageName r) with
            | some row =>
              by_cases hch : hasChangesPrev row r
              · rw [processPrev_create_change b cor m d0 db r st row hst hcan hcpf hcid hrow hch]
                refine ⟨?_, idsOk_mono hp (Nat.le_succ _), idsOk_mono hd (Nat.le_succ _), ?_⟩
                · have := idsOk_append_fresh (db.clients.map ClientRow.id) hc
                  simpa [clientStub] using this
                · show idsOk ((updateById ProdRow.id row.id (prevUpdatedRow cor r)
                    db.products).map ProdRow.id) (db.nextId + 1)
                  rw [hupd row.id]
                  exact idsOk_mono hpr (Nat.le_succ _)
              · rw [processPrev_create_nochange b cor m d0 db r st row hst hcan hcpf hcid hrow hch]
                refine ⟨?_, idsOk_mono hp (Nat.le_succ _), idsOk_mono hd (Nat.le_succ _),
                        idsOk_mono hpr (Nat.le_succ _)⟩
                have := idsOk_append_fresh (db.clients.map ClientRow.id) hc
                simpa [clientStub] using this
            | none =>
              rw [processPrev_create_notfound b cor m d0 db r st hst hcan hcpf hcid hrow]
              refine ⟨?_, idsOk_mono hp (by dsimp only; omega), idsOk_mono hd (by dsimp only; omega), ?_⟩
              · have h1 := idsOk_append_fresh (db.clients.map ClientRow.id) hc
                have h2 := idsOk_mono h1 (Nat.le_succ _)
                simpa [clientStub] using h2
              · have h1 := idsOk_mono hpr (Nat.le_succ _)
                have h2 := idsOk_append_fresh (db.products.map ProdRow.id) h1
                simpa [prevInsertRow] using h2

theorem prevKeys_disjoint {r q : PrevRec} (hkey : prevKey r ≠ prevKey q) (cid cidq : Nat) :
    ∀ z : ProdRow, ¬ ((z.tenant_id = TENANT_ID ∧ z.client_id = cid ∧
        z.proposal_number = prevProposalNumber r ∧ z.certificate_number = prevCertificateNumber r ∧
        z.coverage_name = prevCoverageName r) ∧
      (z.tenant_id = TENANT_ID ∧ z.client_id = cidq ∧
        z.proposal_number = prevProposalNumber q ∧ z.certificate_number = prevCertificateNumber q ∧
        z.coverage_name = prevCoverageName q)) := by
  rintro z ⟨⟨_, _, h3, h4, h5⟩, ⟨_, _, g3, g4, g5⟩⟩
  exact hkey (by unfold prevKey; rw [← h3, g3, ← h4, g4, ← h5, g5])

theorem prevUpd_not_match {r q : PrevRec} (hkey : prevKey r ≠ prevKey q) (cor : Val) (cid cidq : Nat) :
    ∀ z : ProdRow,
      (z.tenant_id = TENANT_ID ∧ z.client_id = cidq ∧ z.proposal_number = prevProposalNumber q ∧
        z.certificate_number = prevCertificateNumber q ∧ z.coverage_name = prevCoverageName q) →
      ¬ ((prevUpdatedRow cor q z).tenant_id = TENANT_ID ∧ (prevUpdatedRow cor q z).client_id = cid ∧
        (prevUpdatedRow cor q z).proposal_number = prevProposalNumber r ∧
        (prevUpdatedRow cor q z).certificate_number = prevCertificateNumber r ∧
        (prevUpdatedRow cor q z).coverage_name = prevCoverageName r) := by
  rintro z ⟨_, _, g3, g4, g5⟩ ⟨_, _, h3, h4, h5⟩
  have e3 : z.proposal_number = prevProposalNumber r := h3
  have e4 : z.certificate_number = prevCertificateNumber r := h4
  have e5 : prevCoverageName q = prevCoverageName r := h5
  exact hkey (by unfold prevKey; rw [← e3, g3, ← e4, g4, ← e5])

/-- After its own step, a pension-product item is settled. -/
theorem prevSettled_self {b : Nat} {cor : Val} {m : Dict} {d0 db : DB} {item : Option PrevRec}
    (hWF : db.WF) :
    prevSettled b cor m (processPrev b cor m d0 db item).1 item := by
  match item with
  | none => intro r1 hr1 _; cases hr1
  | some r =>
    intro r1 hr1 he
    cases hr1
    cases hst : safe_str (pyGetD r.situacao_produto (.vs "Ativo")) with
    | none => simp [prevEligibleB, hst] at he
    | some st =>
      obtain ⟨hcan, hcpf⟩ := prevEligibleB_some hst he
      cases hcid : get_client_id db (prevCpf m r) TENANT_ID with
      | some cid =>
        cases hrow : findProductRow db cid (prevProposalNumber r) (prevCertificateNumber r)
            (prevCoverageName r) with
        | some row =>
          by_cases hch : hasChangesPrev row r
          · rw [processPrev_found_change b cor m d0 db r st row cid hst hcan hcpf hcid hrow hch]
            refine ⟨cid, prevUpdatedRow cor r row, hcid, ?_, prevUpdatedRow_nochange cor r row⟩
            have hrowFW : firstWhere (fun z : ProdRow => z.tenant_id = TENANT_ID ∧
                z.client_id = cid ∧ z.proposal_number = prevProposalNumber r ∧
                z.certificate_number = prevCertificateNumber r ∧
                z.coverage_name = prevCoverageName r) db.products = some row := hrow
            have hmem := firstWhere_eq_some hrowFW
            exact firstWhere_update_self _ db.products ProdRow.id (prevUpdatedRow cor r)
              hWF.2.2.2.2 hrowFW
              ⟨hmem.1.1, hmem.1.2.1, hmem.1.2.2.1, hmem.1.2.2.2.1, rfl⟩
          · rw [processPrev_found_nochange b cor m d0 db r st row cid hst hcan hcpf hcid hrow hch]
            exact ⟨cid, row, hcid, hrow, hch⟩
        | none =>
          rw [processPrev_notfound b cor m d0 db r st cid hst hcan hcpf hcid hrow]
          refine ⟨cid, prevInsertRow db.nextId cid cor r, hcid, ?_,
                  prevInsertRow_nochange db.nextId cid cor r⟩
          have hfw : firstWhere (fun z : ProdRow => z.tenant_id = TENANT_ID ∧
              z.client_id = cid ∧ z.proposal_number = prevProposalNumber r ∧
              z.certificate_number = prevCertificateNumber r ∧
              z.coverage_name = prevCoverageName r) db.products = none := hrow
          show firstWhere _ (db.products ++ [prevInsertRow db.nextId cid cor r]) = _
          rw [firstWhere_append_none _ hfw]
          simp [firstWhere, prevInsertRow]
      | none =>
        have hfwc : firstWhere (fun z : ClientRow => z.documento = prevCpf m r ∧
            z.tenant_id = TENANT_ID) db.clients = none := by
          cases hfw0 : firstWhere (fun z : ClientRow => z.documento = prevCpf m r ∧
              z.tenant_id = TENANT_ID) db.clients with
          | none => rfl
          | some r0 =>
            unfold get_client_id at hcid
            rw [hfw0] at hcid
            simp at hcid
        have hstub : ∀ (db' : DB), db'.clients = db.clients ++
              [clientStub db (prevCpf m r) (some "Cliente não informado") b TENANT_ID] →
            get_client_id db' (prevCpf m r) TENANT_ID = some db.nextId := by
          intro db' hdc
          unfold get_client_id
          rw [hdc, firstWhere_append_none _ hfwc]
          simp [firstWhere, clientStub]
        cases hrow : findProductRow db db.nextId (prevProposalNumber r) (prevCertificateNumber r)
            (prevCoverageName r) with
        | some row =>
          by_cases hch : hasChangesPrev row r
          · rw [processPrev_create_change b cor m d0 db r st row hst hcan hcpf hcid hrow hch]
            refine ⟨db.nextId, prevUpdatedRow cor r row, hstub _ rfl, ?_,
                    prevUpdatedRow_nochange cor r row⟩
            have hrowFW : firstWhere (fun z : ProdRow => z.tenant_id = TENANT_ID ∧
                z.client_id = db.nextId ∧ z.proposal_number = prevProposalNumber r ∧
                z.certificate_number = prevCertificateNumber r ∧
                z.coverage_name = prevCoverageName r) db.products = some row := hrow
            have hmem := firstWhere_eq_some hrowFW
            exact firstWhere_update_self _ db.products ProdRow.id (prevUpdatedRow cor r)
              hWF.2.2.2.2 hrowFW
              ⟨hmem.1.1, hmem.1.2.1, hmem.1.2.2.1, hmem.1.2.2.2.1, rfl⟩
          · rw [processPrev_create_nochange b cor m d0 db r st row hst hcan hcpf hcid hrow hch]
            exact ⟨db.nextId, row, hstub _ rfl, hrow, hch⟩
        | none =>
          rw [processPrev_create_notfound b cor m d0 db r st hst hcan hcpf hcid hrow]
          refine ⟨db.nextId, prevInsertRow (db.nextId + 1) db.nextId cor r, hstub _ rfl, ?_,
                  prevInsertRow_nochange (db.nextId + 1) db.nextId cor r⟩
          have hfw : firstWhere (fun z : ProdRow => z.tenant_id = TENANT_ID ∧
              z.client_id = db.nextId ∧ z.proposal_number = prevProposalNumber r ∧
              z.certificate_number = prevCertificateNumber r ∧
              z.coverage_name = prevCoverageName r) db.products = none := hrow
          show firstWhere _ (db.products ++ [prevInsertRow (db.nextId + 1) db.nextId cor r]) = _
          rw [firstWhere_append_none _ hfw]
          simp [firstWhere, prevInsertRow]

/-- Processing a different-keyed (or skipped) pension-product item cannot
unsettle a settled one. -/
theorem prevSettled_preserve {b : Nat} {cor : Val} {m : Dict} {d0 db : DB} {item item' : Option PrevRec}
    (hWF : db.WF) (hS : prevSettled b cor m db item)
    (hcompat : ∀ r q, item = some r → item' = some q →
      prevEligibleB m (some r) = true → prevEligibleB m (some q) = true → prevKey r ≠ prevKey q)
    (hnx' : prevNoExc item') :
    prevSettled b cor m (processPrev b cor m d0 db item').1 item := by
  intro r hr he
  obtain ⟨cid, row, hcid, hrow, hnc⟩ := hS r hr he
  match item' with
  | none =>
    rw [processPrev_none]
    exact ⟨cid, row, hcid, hrow, hnc⟩
  | some q =>
    cases hstq : safe_str (pyGetD q.situacao_produto (.vs "Ativo")) with
    | none =>
      have hx := hnx' q rfl
      rw [hstq] at hx
      simp at hx
    | some stq =>
      by_cases hcanq : upperStr stq = "CANCELADO"
      · rw [processPrev_cancel b cor m d0 db q stq hstq hcanq]
        exact ⟨cid, row, hcid, hrow, hnc⟩
      · cases hcpfq : (prevCpf m q).truthy with
        | false =>
          rw [processPrev_skipCpf b cor m d0 db q stq hstq hcanq hcpfq]
          exact ⟨cid, row, hcid, hrow, hnc⟩
        | true =>
          have heq : prevEligibleB m (some q) = true := by
            simp only [prevEligibleB, hstq]
            simp [prevCpf] at hcpfq
            simp [hcpfq, hcanq]
          have hkey : prevKey r ≠ prevKey q := hcompat r q hr rfl he heq
          have hrowFW : firstWhere (fun z : ProdRow => z.tenant_id = TENANT_ID ∧
              z.client_id = cid ∧ z.proposal_number = prevProposalNumber r ∧
              z.certificate_number = prevCertificateNumber r ∧
              z.coverage_name = prevCoverageName r) db.products = some row := hrow
          obtain ⟨crow, hcrow, hcrowid⟩ := Option.map_eq_some'.mp hcid
          have happ : ∀ (more : List ClientRow),
              (firstWhere (fun z : ClientRow => z.documento = prevCpf m r ∧
                z.tenant_id = TENANT_ID) (db.clients ++ more)).map ClientRow.id = some cid := by
            intro more
            rw [firstWhere_append_some more hcrow]
            simp [hcrowid]
          have hupd : ∀ (cidq : Nat) (rowq : ProdRow),
              findProductRow db cidq (prevProposalNumber q) (prevCertificateNumber q)
                (prevCoverageName q) = some rowq →
              firstWhere (fun z : ProdRow => z.tenant_id = TENANT_ID ∧
                z.client_id = cid ∧ z.proposal_number = prevProposalNumber r ∧
                z.certificate_number = prevCertificateNumber r ∧
                z.coverage_name = prevCoverageName r)
                (updateById ProdRow.id rowq.id (prevUpdatedRow cor q) db.products) = some row := by
            intro cidq rowq hrowq
            have hrowqFW : firstWhere (fun z : ProdRow => z.tenant_id = TENANT_ID ∧
                z.client_id = cidq ∧ z.proposal_number = prevProposalNumber q ∧
                z.certificate_number = prevCertificateNumber q ∧
                z.coverage_name = prevCoverageName q) db.products = some rowq := hrowq
            exact firstWhere_update_other _ _ db.products ProdRow.id (prevUpdatedRow cor q)
              hWF.2.2.2.2 hrowFW hrowqFW (prevKeys_disjoint hkey cid cidq)
              (prevUpd_not_match hkey cor cid cidq)
          cases hcidq : get_client_id db (prevCpf m q) TENANT_ID with
          | some cidq =>
            cases hrowq : findProductRow db cidq (prevProposalNumber q) (prevCertificateNumber q)
                (prevCoverageName q) with
            | some rowq =>
              by_cases hchq : hasChangesPrev rowq q
              · rw [processPrev_found_change b cor m d0 db q stq rowq cidq hstq hcanq hcpfq hcidq hrowq hchq]
                exact ⟨cid, row, hcid, hupd cidq rowq hrowq, hnc⟩
              · rw [processPrev_found_nochange b cor m d0 db q stq rowq cidq hstq hcanq hcpfq hcidq hrowq hchq]
                exact ⟨cid, row, hcid, hrow, hnc⟩
            | none =>
              rw [processPrev_notfound b cor m d0 db q stq cidq hstq hcanq hcpfq hcidq hrowq]
              exact ⟨cid, row, hcid, firstWhere_append_some _ hrowFW, hnc⟩
          | none =>
            cases hrowq : findProductRow db db.nextId (prevProposalNumber q) (prevCertificateNumber q)
                (prevCoverageName q) with
            | some rowq =>
              by_cases hchq : hasChangesPrev rowq q
              · rw [processPrev_create_change b cor m d0 db q stq rowq hstq hcanq hcpfq hcidq hrowq hchq]
                exact ⟨cid, row, happ _, hupd db.nextId rowq hrowq, hnc⟩
              · rw [processPrev_create_nochange b cor m d0 db q stq rowq hstq hcanq hcpfq hcidq hrowq hchq]
                exact ⟨cid, row, happ _, hrow, hnc⟩
            | none =>
              rw [processPrev_create_notfound b cor m d0 db q stq hstq hcanq hcpfq hcidq hrowq]
              exact ⟨cid, row, happ _, firstWhere_append_some _ hrowFW, hnc⟩

/-! ### Stability of pending-payment records -/

def inadDelay (now : Now) (r : DefRec) : Int :=
  calculate_delay_days now (pyGet r.vencimento_original) (pyGet r.vencimento_atual)

/-- Eligibility of a pending-payment item (reaches the upsert): a dict
whose document resolves, whose client exists, and whose computed delay
is positive.  Unlike the other operations this depends on the store
(the client lookup), which the pending-payment sync never modifies. -/
def inadEligibleB (m : Dict) (now : Now) (db : DB) (item : Option DefRec) : Bool :=
  match item with
  | none => false
  | some r =>
    (resolveCpfInad m r).truthy &&
    (get_client_id db (resolveCpfInad m r) TENANT_ID).isSome &&
    decide (0 < inadDelay now r)

def inadKey (m : Dict) (r : DefRec) : Val × Option String × Option String × Option String :=
  (resolveCpfInad m r, inadNumeroProposta r, inadNumeroCertificado r, inadCompetencia r)

theorem processInad_none (cor : Val) (m : Dict) (now : Now) (db : DB) :
    processInad cor m now db none = (db, Cnt.pul1) := rfl

theorem processInad_skipCpf (cor : Val) (m : Dict) (now : Now) (db : DB) (r : DefRec)
    (hcpf : (resolveCpfInad m r).truthy = false) :
    processInad cor m now db (some r) = (db, Cnt.pul1) := by
  simp [processInad, hcpf]

theorem processInad_skipClient (cor : Val) (m : Dict) (now : Now) (db : DB) (r : DefRec)
    (hcpf : (resolveCpfInad m r).truthy = true)
    (hcid : get_client_id db (resolveCpfInad m r) TENANT_ID = none) :
    processInad cor m now db (some r) = (db, Cnt.pul1) := by
  simp [processInad, hcpf, hcid]

theorem processInad_semAtraso (cor : Val) (m : Dict) (now : Now) (db : DB) (r : DefRec) (cid : Nat)
    (hcpf : (resolveCpfInad m r).truthy = true)
    (hcid : get_client_id db (resolveCpfInad m r) TENANT_ID = some cid)
    (hdel : inadDelay now r ≤ 0) :
    processInad cor m now db (some r) = (db, Cnt.semAtraso1) := by
  simp only [inadDelay] at hdel
  simp [processInad, hcpf, hcid, hdel]

theorem processInad_found_nochange (cor : Val) (m : Dict) (now : Now) (db : DB) (r : DefRec)
    (row : DefRow) (cid : Nat)
    (hcpf : (resolveCpfInad m r).truthy = true)
    (hcid : get_client_id db (resolveCpfInad m r) TENANT_ID = some cid)
    (hdel : 0 < inadDelay now r)
    (hrow : findDefaulterRow db cid (inadNumeroProposta r) (inadNumeroCertificado r) (inadCompetencia r) = some row)
    (hnc : ¬ hasChangesInad row r (inadDelay now r)) :
    processInad cor m now db (some r) = (db, Cnt.ex1) := by
  have hdel' : ¬ calculate_delay_days now (pyGet r.vencimento_original) (pyGet r.vencimento_atual) ≤ 0 := by
    simp only [inadDelay] at hdel
    omega
  simp only [inadDelay] at hnc
  simp [processInad, hcpf, hcid, hdel', hrow, hnc]

theorem processInad_found_change (cor : Val) (m : Dict) (now : Now) (db : DB) (r : DefRec)
    (row : DefRow) (cid : Nat)
    (hcpf : (resolveCpfInad m r).truthy = true)
    (hcid : get_client_id db (resolveCpfInad m r) TENANT_ID = some cid)
    (hdel : 0 < inadDelay now r)
    (hrow : findDefaulterRow db cid (inadNumeroProposta r) (inadNumeroCertificado r) (inadCompetencia r) = some row)
    (hc : hasChangesInad row r (inadDelay now r)) :
    processInad cor m now db (some r) =
      ({ db with
           defaulters := updateById DefRow.id row.id
             (defUpdatedRow cor (resolveCpfInad m r) r (inadDelay now r)) db.defaulters },
       Cnt.atu1) := by
  have hdel' : ¬ calculate_delay_days now (pyGet r.vencimento_original) (pyGet r.vencimento_atual) ≤ 0 := by
    simp only [inadDelay] at hdel
    omega
  simp only [inadDelay] at hc ⊢
  simp [processInad, hcpf, hcid, hdel', hrow, hc]

theorem processInad_notfound (cor : Val) (m : Dict) (now : Now) (db : DB) (r : DefRec) (cid : Nat)
    (hcpf : (resolveCpfInad m r).truthy = true)
    (hcid : get_client_id db (resolveCpfInad m r) TENANT_ID = some cid)
    (hdel : 0 < inadDelay now r)
    (hrow : findDefaulterRow db cid (inadNumeroProposta r) (inadNumeroCertificado r) (inadCompetencia r) = none) :
    processInad cor m now db (some r) =
      ({ db with
           defaulters := db.defaulters ++
             [defInsertRow db.nextId cid cor (resolveCpfInad m r) r (inadDelay now r)],
           nextId := db.nextId + 1 },
       Cnt.ins1) := by
  have hdel' : ¬ calculate_delay_days now (pyGet r.vencimento_original) (pyGet r.vencimento_atual) ≤ 0 := by
    simp only [inadDelay] at hdel
    omega
  simp only [inadDelay]
  simp [processInad, hcpf, hcid, hdel', hrow]

/-- A pending-payment batch item is settled against a store. -/
def inadSettled (cor : Val) (m : Dict) (now : Now) (db : DB) (item : Option DefRec) : Prop :=
  ∀ r, item = some r → inadEligibleB m now db (some r) = true →
    ∃ cid row,
      get_client_id db (resolveCpfInad m r) TENANT_ID = some cid ∧
      findDefaulterRow db cid (inadNumeroProposta r) (inadNumeroCertificado r) (inadCompetencia r) = some row ∧
      ¬ hasChangesInad row r (inadDelay now r)

theorem inadEligibleB_some {m : Dict} {now : Now} {db : DB} {r : DefRec}
    (he : inadEligibleB m now db (some r) = true) :
    (resolveCpfInad m r).truthy = true ∧
    (∃ cid, get_client_id db (resolveCpfInad m r) TENANT_ID = some cid) ∧
    0 < inadDelay now r := by
  simp only [inadEligibleB, Bool.and_eq_true, decide_eq_true_eq] at he
  exact ⟨he.1.1, Option.isSome_iff_exists.mp he.1.2, he.2⟩

theorem defUpdatedRow_nochange (cor : Val) (cpf : Val) (r : DefRec) (d : Int) (row : DefRow) :
    ¬ hasChangesInad (defUpdatedRow cor cpf r d row) r d := by
  simp [hasChangesInad, defUpdatedRow]

theorem defInsertRow_nochange (i cid : Nat) (cor : Val) (cpf : Val) (r : DefRec) (d : Int) :
    ¬ hasChangesInad (defInsertRow i cid cor cpf r d) r d := by
  simp [hasChangesInad, defInsertRow]

/-- Processing a settled pending-payment item leaves the store
untouched. -/
theorem inadSettled_noop {cor : Val} {m : Dict} {now : Now} {db : DB} {item : Option DefRec}
    (hS : inadSettled cor m now db item) :
    (processInad cor m now db item).1 = db ∧
    (processInad cor m now db item).2.ins = 0 ∧
    (processInad cor m now db item).2.atu = 0 ∧
    (processInad cor m now db item).2.ex = (if inadEligibleB m now db item then 1 else 0) := by
  match item with
  | none =>
    rw [processInad_none]
    simp [Cnt.pul1, inadEligibleB]
  | some r =>
    cases hcpf : (resolveCpfInad m r).truthy with
    | false =>
      rw [processInad_skipCpf cor m now db r hcpf]
      simp [Cnt.pul1, inadEligibleB, hcpf]
    | true =>
      cases hcid : get_client_id db (resolveCpfInad m r) TENANT_ID with
      | none =>
        rw [processInad_skipClient cor m now db r hcpf hcid]
        simp [Cnt.pul1, inadEligibleB, hcpf, hcid]
      | some cid =>
        by_cases hdel : inadDelay now r ≤ 0
        · rw [processInad_semAtraso cor m now db r cid hcpf hcid hdel]
          have : inadEligibleB m now db (some r) = false := by
            simp only [inadEligibleB, hcpf, hcid]
            simp
            omega
          simp [Cnt.semAtraso1, this]
        · have he : inadEligibleB m now db (some r) = true := by
            simp only [inadEligibleB, hcpf, hcid]
            simp
            omega
          obtain ⟨cid', row, hcid', hrow, hnc⟩ := hS r rfl he
          have hcc : cid' = cid := by rw [hcid] at hcid'; exact (Option.some.inj hcid').symm
          subst hcc
          rw [processInad_found_nochange cor m now db r row cid' hcpf hcid (by omega) hrow hnc]
          simp [Cnt.ex1, he]

/-- The pending-payment step preserves store well-formedness. -/
theorem processInad_WF {cor : Val} {m : Dict} {now : Now} {db : DB} {item : Option DefRec}
    (hWF : db.WF) : ((processInad cor m now db item).1).WF := by
  obtain ⟨hc, hp, hd, hpr⟩ := hWF
  match item with
  | none => rw [processInad_none]; exact ⟨hc, hp, hd, hpr⟩
  | some r =>
    cases hcpf : (resolveCpfInad m r).truthy with
    | false => rw [processInad_skipCpf cor m now db r hcpf]; exact ⟨hc, hp, hd, hpr⟩
    | true =>
      cases hcid : get_client_id db (resolveCpfInad m r) TENANT_ID with
      | none => rw [processInad_skipClient cor m now db r hcpf hcid]; exact ⟨hc, hp, hd, hpr⟩
      | some cid =>
        by_cases hdel : inadDelay now r ≤ 0
        · rw [processInad_semAtraso cor m now db r cid hcpf hcid hdel]
          exact ⟨hc, hp, hd, hpr⟩
        · cases hrow : findDefaulterRow db cid (inadNumeroProposta r) (inadNumeroCertificado r)
              (inadCompetencia r) with
          | some row =>
            by_cases hch : hasChangesInad row r (inadDelay now r)
            · rw [processInad_found_change cor m now db r row cid hcpf hcid (by omega) hrow hch]
              refine ⟨hc, hp, ?_, hpr⟩
              show idsOk ((updateById DefRow.id row.id
                (defUpdatedRow cor (resolveCpfInad m r) r (inadDelay now r))
                db.defaulters).map DefRow.id) db.nextId
              rw [updateById_map_id DefRow.id row.id
                (defUpdatedRow cor (resolveCpfInad m r) r (inadDelay now r))
                db.defaulters (fun x => rfl)]
              exact hd
            · rw [processInad_found_nochange cor m now db r row cid hcpf hcid (by omega) hrow hch]
              exact ⟨hc, hp, hd, hpr⟩
          | none =>
            rw [processInad_notfound cor m now db r cid hcpf hcid (by omega) hrow]
            refine ⟨idsOk_mono hc (Nat.le_succ _), idsOk_mono hp (Nat.le_succ _), ?_,
                    idsOk_mono hpr (Nat.le_succ _)⟩
            have := idsOk_append_fresh (db.defaulters.map DefRow.id) hd
            simpa [defInsertRow] using this

/-- The pending-payment sync never touches the client table. -/
theorem processInad_clients (cor : Val) (m : Dict) (now : Now) (db : DB) (item : Option DefRec) :
    (processInad cor m now db item).1.clients = db.clients := by
  match item with
  | none => rw [processInad_none]
  | some r =>
    cases hcpf : (resolveCpfInad m r).truthy with
    | false => rw [processInad_skipCpf cor m now db r hcpf]
    | true =>
      cases hcid : get_client_id db (resolveCpfInad m r) TENANT_ID with
      | none => rw [processInad_skipClient cor m now db r hcpf hcid]
      | some cid =>
        by_cases hdel : inadDelay now r ≤ 0
        · rw [processInad_semAtraso cor m now db r cid hcpf hcid hdel]
        · cases hrow : findDefaulterRow db cid (inadNumeroProposta r) (inadNumeroCertificado r)
              (inadCompetencia r) with
          | some row =>
            by_cases hch : hasChangesInad row r (inadDelay now r)
            · rw [processInad_found_change cor m now db r row cid hcpf hcid (by omega) hrow hch]
            · rw [processInad_found_nochange cor m now db r row cid hcpf hcid (by omega) hrow hch]
          | none =>
            rw [processInad_notfound cor m now db r cid hcpf hcid (by omega) hrow]

theorem inadEligibleB_clients {db db' : DB} (h : db'.clients = db.clients)
    (m : Dict) (now : Now) (item : Option DefRec) :
    inadEligibleB m now db' item = inadEligibleB m now db item := by
  match item with
  | none => rfl
  | some r =>
    simp only [inadEligibleB]
    unfold get_client_id
    rw [h]

/-- After its own step, a pending-payment item is settled. -/
theorem inadSettled_self {cor : Val} {m : Dict} {now : Now} {db : DB} {item : Option DefRec}
    (hWF : db.WF) :
    inadSettled cor m now (processInad cor m now db item).1 item := by
  match item with
  | none => intro r1 hr1 _; cases hr1
  | some r =>
    intro r1 hr1 he
    cases hr1
    rw [inadEligibleB_clients (processInad_clients cor m now db (some r)) m now (some r)] at he
    obtain ⟨hcpf, ⟨cid, hcid⟩, hdel⟩ := inadEligibleB_some he
    cases hrow : findDefaulterRow db cid (inadNumeroProposta r) (inadNumeroCertificado r)
        (inadCompetencia r) with
    | some row =>
      by_cases hch : hasChangesInad row r (inadDelay now r)
      · rw [processInad_found_change cor m now db r row cid hcpf hcid hdel hrow hch]
        refine ⟨cid, defUpdatedRow cor (resolveCpfInad m r) r (inadDelay now r) row, hcid, ?_,
                defUpdatedRow_nochange cor (resolveCpfInad m r) r (inadDelay now r) row⟩
        have hrowFW : firstWhere (fun z : DefRow => z.client_id = cid ∧ z.tenant_id = TENANT_ID ∧
            z.proposal_number = inadNumeroProposta r ∧
            z.certificate_number = inadNumeroCertificado r ∧
            z.competency = inadCompetencia r) db.defaulters = some row := hrow
        have hmem := firstWhere_eq_some hrowFW
        exact firstWhere_update_self _ db.defaulters DefRow.id
          (defUpdatedRow cor (resolveCpfInad m r) r (inadDelay now r)) hWF.2.2.1.2 hrowFW hmem.1
      · rw [processInad_found_nochange cor m now db r row cid hcpf hcid hdel hrow hch]
        exact ⟨cid, row, hcid, hrow, hch⟩
    | none =>
      rw [processInad_notfound cor m now db r cid hcpf hcid hdel hrow]
      refine ⟨cid, defInsertRow db.nextId cid cor (resolveCpfInad m r) r (inadDelay now r), hcid, ?_,
              defInsertRow_nochange db.nextId cid cor (resolveCpfInad m r) r (inadDelay now r)⟩
      have hfw : firstWhere (fun z : DefRow => z.client_id = cid ∧ z.tenant_id = TENANT_ID ∧
          z.proposal_number = inadNumeroProposta r ∧
          z.certificate_number = inadNumeroCertificado r ∧
          z.competency = inadCompetencia r) db.defaulters = none := hrow
      show firstWhere _ (db.defaulters ++
        [defInsertRow db.nextId cid cor (resolveCpfInad m r) r (inadDelay now r)]) = _
      rw [firstWhere_append_none _ hfw]
      simp [firstWhere, defInsertRow]

theorem inadKeys_disjoint {m : Dict} {r q : DefRec} {db : DB}
    (hnd : (db.clients.map ClientRow.id).Nodup)
    (hkey : inadKey m r ≠ inadKey m q)
    {cid cidq : Nat}
    (hcid : get_client_id db (resolveCpfInad m r) TENANT_ID = some cid)
    (hcidq : get_client_id db (resolveCpfInad m q) TENANT_ID = some cidq) :
    ∀ z : DefRow, ¬ ((z.client_id = cid ∧ z.tenant_id = TENANT_ID ∧
        z.proposal_number = inadNumeroProposta r ∧ z.certificate_number = inadNumeroCertificado r ∧
        z.competency = inadCompetencia r) ∧
      (z.client_id = cidq ∧ z.tenant_id = TENANT_ID ∧
        z.proposal_number = inadNumeroProposta q ∧ z.certificate_number = inadNumeroCertificado q ∧
        z.competency = inadCompetencia q)) := by
  rintro z ⟨⟨h1, _, h3, h4, h5⟩, ⟨g1, _, g3, g4, g5⟩⟩
  have hcideq : cid = cidq := h1.symm.trans g1
  have hq' : get_client_id db (resolveCpfInad m q) TENANT_ID = some cid := by
    rw [hcideq]; exact hcidq
  have hcpfeq := get_client_id_injective hnd hcid hq'
  exact hkey (by unfold inadKey; rw [hcpfeq, ← h3, g3, ← h4, g4, ← h5, g5])

/-- Processing a different-keyed (or skipped) pending-payment item
cannot unsettle a settled one. -/
theorem inadSettled_preserve {cor : Val} {m : Dict} {now : Now} {db : DB} {item item' : Option DefRec}
    (hWF : db.WF) (hS : inadSettled cor m now db item)
    (hcompat : ∀ r q, item = some r → item' = some q →
      (resolveCpfInad m r).truthy = true → (resolveCpfInad m q).truthy = true →
      inadKey m r ≠ inadKey m q) :
    inadSettled cor m now (processInad cor m now db item').1 item := by
  intro r hr he
  rw [inadEligibleB_clients (processInad_clients cor m now db item') m now (some r)] at he
  obtain ⟨cid, row, hcid, hrow, hnc⟩ := hS r hr he
  obtain ⟨hcpf, _, _⟩ := inadEligibleB_some he
  match item' with
  | none =>
    rw [processInad_none]
    exact ⟨cid, row, hcid, hrow, hnc⟩
  | some q =>
    cases hcpfq : (resolveCpfInad m q).truthy with
    | false =>
      rw [processInad_skipCpf cor m now db q hcpfq]
      exact ⟨cid, row, hcid, hrow, hnc⟩
    | true =>
      have hkey : inadKey m r ≠ inadKey m q := hcompat r q hr rfl hcpf hcpfq
      have hrowFW : firstWhere (fun z : DefRow => z.client_id = cid ∧ z.tenant_id = TENANT_ID ∧
          z.proposal_number = inadNumeroProposta r ∧
          z.certificate_number = inadNumeroCertificado r ∧
          z.competency = inadCompetencia r) db.defaulters = some row := hrow
      cases hcidq : get_client_id db (resolveCpfInad m q) TENANT_ID with
      | none =>
        rw [processInad_skipClient cor m now db q hcpfq hcidq]
        exact ⟨cid, row, hcid, hrow, hnc⟩
      | some cidq =>
        by_cases hdelq : inadDelay now q ≤ 0
        · rw [processInad_semAtraso cor m now db q cidq hcpfq hcidq hdelq]
          exact ⟨cid, row, hcid, hrow, hnc⟩
        · cases hrowq : findDefaulterRow db cidq (inadNumeroProposta q) (inadNumeroCertificado q)
              (inadCompetencia q) with
          | some rowq =>
            by_cases hchq : hasChangesInad rowq q (inadDelay now q)
            · rw [processInad_found_change cor m now db q rowq cidq hcpfq hcidq (by omega) hrowq hchq]
              refine ⟨cid, row, hcid, ?_, hnc⟩
              have hrowqFW : firstWhere (fun z : DefRow => z.client_id = cidq ∧
                  z.tenant_id = TENANT_ID ∧ z.proposal_number = inadNumeroProposta q ∧
                  z.certificate_number = inadNumeroCertificado q ∧
                  z.competency = inadCompetencia q) db.defaulters = some rowq := hrowq
              have hdisj := inadKeys_disjoint hWF.1.2 hkey hcid hcidq
              exact firstWhere_update_other _ _ db.defaulters DefRow.id
                (defUpdatedRow cor (resolveCpfInad m q) q (inadDelay now q)) hWF.2.2.1.2
                hrowFW hrowqFW hdisj (fun z hq hp => hdisj z ⟨hp, hq⟩)
            · rw [processInad_found_nochange cor m now db q rowq cidq hcpfq hcidq (by omega) hrowq hchq]
              exact ⟨cid, row, hcid, hrow, hnc⟩
          | none =>
            rw [processInad_notfound cor m now db q cidq hcpfq hcidq (by omega) hrowq]
            exact ⟨cid, row, hcid, firstWhere_append_some _ hrowFW, hnc⟩

/-! ### Claim C2 — change detection -/

theorem runFrom_append {ρ : Type _} (P : DB → ρ → DB × Cnt) :
    ∀ (l1 l2 : List ρ) (s : DB × Cnt), runFrom P s (l1 ++ l2) = runFrom P (runFrom P s l1) l2 := by
  intro l1
  induction l1 with
  | nil => intro l2 s; rfl
  | cons x rest ih => intro l2 s; simp only [List.cons_append, runFrom]; exact ih l2 _

theorem runBatch_append {ρ : Type _} (P : DB → ρ → DB × Cnt) (db : DB) (l1 l2 : List ρ) :
    runBatch P db (l1 ++ l2) =
      ((runBatch P (runBatch P db l1).1 l2).1,
       (runBatch P db l1).2.add (runBatch P (runBatch P db l1).1 l2).2) := by
  unfold runBatch
  rw [runFrom_append]
  have h : runFrom P (db, Cnt.zero) l1 = ((runBatch P db l1).1, (runBatch P db l1).2) := rfl
  rw [h, runFrom_shift]
  rfl

/-- Claim C2: when a record's natural key matches a stored row, the sync
compares the mutable fields and updates if and only if at least one
differs (else it counts the record as existing-unchanged and leaves
the store alone) — stated for the proposal and life-product steps —
and a proposal batch in which exactly one record differs from its
stored row (in at least one mutable field) while all others match
theirs produces exactly one update that rewrites only that record's
row. -/
theorem C2_change_detection :
    (∀ (b : Nat) (m : Dict) (db : DB) (p : PropRec) (dv : String) (row : PropRow) (cid : Nat),
      (pyGetD p.proposta (.vs "")).truthy = true →
      (resolveCpfProposta m p).truthy = true →
      format_db_date (pyGet p.vencimento) = some dv →
      get_client_id db (resolveCpfProposta m p) TENANT_ID = some cid →
      findProposalRow db (propKey p) = some row →
      processProposta b m db (some p) =
        (if hasChangesProp row p dv then
          ({ db with proposals := updateById PropRow.id row.id (propUpdatedRow b cid p dv) db.proposals },
           Cnt.atu1)
         else (db, Cnt.ex1))) ∧
    (∀ (b : Nat) (cor : Val) (m : Dict) (db0 db : DB) (r : VidaRec) (st : String) (row : ProdRow) (cid : Nat),
      safe_str (pyGetD r.situacao_produto (.vs "")) = some st →
      ¬ upperStr st = "CANCELADO" →
      (vidaCpf m r).truthy = true →
      get_client_id db (vidaCpf m r) TENANT_ID = some cid →
      findProductRow db cid (vidaProposalNumber r) (vidaCertificateNumber r) (vidaCoverageName r) = some row →
      processVida b cor m db0 db (some r) =
        (if hasChangesVida row r then
          ({ db with products := updateById ProdRow.id row.id (vidaUpdatedRow cor r) db.products },
           Cnt.atu1)
         else (db, Cnt.ex1))) ∧
    (∀ (b : Nat) (m : Dict) (db : DB) (l₁ l₂ : List (Option PropRec)) (p : PropRec)
        (dv : String) (row : PropRow) (cid : Nat),
      db.WF →
      (∀ it ∈ l₁ ++ l₂, propEligible m it ∧ propSettled b m db it) →
      (∀ it ∈ l₁ ++ l₂, ∀ q, it = some q → propKey q ≠ propKey p) →
      (pyGetD p.proposta (.vs "")).truthy = true →
      (resolveCpfProposta m p).truthy = true →
      format_db_date (pyGet p.vencimento) = some dv →
      get_client_id db (resolveCpfProposta m p) TENANT_ID = some cid →
      findProposalRow db (propKey p) = some row →
      hasChangesProp row p dv →
      (salvar_propostas_no_banco (l₁ ++ some p :: l₂) b m db).1 =
        { db with proposals := updateById PropRow.id row.id (propUpdatedRow b cid p dv) db.proposals } ∧
      (salvar_propostas_no_banco (l₁ ++ some p :: l₂) b m db).2.atu = 1 ∧
      (salvar_propostas_no_banco (l₁ ++ some p :: l₂) b m db).2.ins = 0 ∧
      (salvar_propostas_no_banco (l₁ ++ some p :: l₂) b m db).2.ex = l₁.length + l₂.length) := by
  refine ⟨?_, ?_, ?_⟩
  · intro b m db p dv row cid h1 h2 h3 hcid hrow
    by_cases hc : hasChangesProp row p dv
    · rw [processProposta_found_change b m db p dv row cid h1 h2 h3 hcid hrow hc, if_pos hc]
    · rw [processProposta_found_nochange b m db p dv row cid h1 h2 h3 hcid hrow hc, if_neg hc]
  · intro b cor m db0 db r st row cid hst hcan hcpf hcid hrow
    by_cases hc : hasChangesVida row r
    · rw [processVida_found_change b cor m db0 db r st row cid hst hcan hcpf hcid hrow hc, if_pos hc]
    · rw [processVida_found_nochange b cor m db0 db r st row cid hst hcan hcpf hcid hrow hc, if_neg hc]
  · intro b m db l₁ l₂ p dv row cid hWF hall hkeys h1 h2 h3 hcid hrow hch
    have hnoop1 : ∀ it ∈ l₁, (processProposta b m db it).1 = db ∧
        (processProposta b m db it).2.ins = 0 ∧ (processProposta b m db it).2.atu = 0 ∧
        (processProposta b m db it).2.ex =
          (if (fun it => decide (propEligible m it)) it then 1 else 0) := by
      intro it hit
      have h := propSettled_noop (hall it (List.mem_append.mpr (Or.inl hit))).2
      have he := (hall it (List.mem_append.mpr (Or.inl hit))).1
      exact ⟨h.1, h.2.1, h.2.2.1, by rw [h.2.2.2]; simp [he]⟩
    have hA := run_stable (processProposta b m) (fun it => decide (propEligible m it)) l₁ db hnoop1
    have hcntA : l₁.countP (fun it => decide (propEligible m it)) = l₁.length :=
      List.countP_eq_length.mpr (fun it hit => by
        simp [(hall it (List.mem_append.mpr (Or.inl hit))).1])
    -- the single updating step
    have hstep := processProposta_found_change b m db p dv row cid h1 h2 h3 hcid hrow hch
    -- l₂ records remain settled across the update
    have hsettled2 : ∀ it ∈ l₂,
        propSettled b m (processProposta b m db (some p)).1 it := by
      intro it hit
      refine propSettled_preserve hWF (hall it (List.mem_append.mpr (Or.inr hit))).2 ?_
      intro q q' hq hq' _ _
      cases hq'
      exact hkeys it (List.mem_append.mpr (Or.inr hit)) q hq
    have hnoop2 : ∀ it ∈ l₂, (processProposta b m (processProposta b m db (some p)).1 it).1 =
        (processProposta b m db (some p)).1 ∧
        (processProposta b m (processProposta b m db (some p)).1 it).2.ins = 0 ∧
        (processProposta b m (processProposta b m db (some p)).1 it).2.atu = 0 ∧
        (processProposta b m (processProposta b m db (some p)).1 it).2.ex =
          (if (fun it => decide (propEligible m it)) it then 1 else 0) := by
      intro it hit
      have h := propSettled_noop (hsettled2 it hit)
      have he := (hall it (List.mem_append.mpr (Or.inr hit))).1
      exact ⟨h.1, h.2.1, h.2.2.1, by rw [h.2.2.2]; simp [he]⟩
    have hB := run_stable (processProposta b m) (fun it => decide (propEligible m it)) l₂
      (processProposta b m db (some p)).1 hnoop2
    have hcntB : l₂.countP (fun it => decide (propEligible m it)) = l₂.length :=
      List.countP_eq_length.mpr (fun it hit => by
        simp [(hall it (List.mem_append.mpr (Or.inr hit))).1])
    unfold salvar_propostas_no_banco
    rw [runBatch_append, runBatch_cons]
    rw [hA.1, hstep]
    rw [hstep] at hB
    dsimp only at hB ⊢
    rw [hB.1]
    refine ⟨rfl, ?_, ?_, ?_⟩
    · simp [Cnt.add, hA.2.2.1, hB.2.2.1, Cnt.atu1]
    · simp [Cnt.add, hA.2.1, hB.2.1, Cnt.atu1]
    · simp [Cnt.add, hA.2.2.2, hB.2.2.2, Cnt.atu1, hcntA, hcntB]

/-- Witness for C2: a one-row store with a matching proposal record
whose `valor` differs updates exactly that row; with equal fields it
counts existing-unchanged. -/
theorem C2_change_detection_witness :
    processProposta 1 [] ⟨[], [⟨1, 20, none, "CPF", .vs "111", 1⟩],
        [{ id := 2, client_id := 1, broker_id := 1, tenant_id := 20, insurance_company_id := 44,
           produto := none, linha_negocio := none, proposta := "P1", criada_em := none,
           status_proposta := none, forma_pagamento := none, valor := .vi 10,
           vencimento := some "2024-01-02", competencia := none, status_pagamento := none,
           motivo_pendencia := none, data := none }], [], [], 3⟩
      (some { proposta := .vs "P1", cpf := .vs "111", vencimento := .vs "2024-01-02", valor := .vi 20 }) =
      (if hasChangesProp
          { id := 2, client_id := 1, broker_id := 1, tenant_id := 20, insurance_company_id := 44,
            produto := none, linha_negocio := none, proposta := "P1", criada_em := none,
            status_proposta := none, forma_pagamento := none, valor := .vi 10,
            vencimento := some "2024-01-02", competencia := none, status_pagamento := none,
            motivo_pendencia := none, data := none }
          { proposta := .vs "P1", cpf := .vs "111", vencimento := .vs "2024-01-02", valor := .vi 20 }
          "2024-01-02" then
        ({ (⟨[], [⟨1, 20, none, "CPF", .vs "111", 1⟩],
            [{ id := 2, client_id := 1, broker_id := 1, tenant_id := 20, insurance_company_id := 44,
               produto := none, linha_negocio := none, proposta := "P1", criada_em := none,
               status_proposta := none, forma_pagamento := none, valor := .vi 10,
               vencimento := some "2024-01-02", competencia := none, status_pagamento := none,
               motivo_pendencia := none, data := none }], [], [], 3⟩ : DB) with
            proposals := updateById PropRow.id 2
              (propUpdatedRow 1 1
                { proposta := .vs "P1", cpf := .vs "111", vencimento := .vs "2024-01-02", valor := .vi 20 }
                "2024-01-02")
              [{ id := 2, client_id := 1, broker_id := 1, tenant_id := 20, insurance_company_id := 44,
                 produto := none, linha_negocio := none, proposta := "P1", criada_em := none,
                 status_proposta := none, forma_pagamento := none, valor := .vi 10,
                 vencimento := some "2024-01-02", competencia := none, status_pagamento := none,
                 motivo_pendencia := none, data := none }] },
         Cnt.atu1)
       else
        (⟨[], [⟨1, 20, none, "CPF", .vs "111", 1⟩],
          [{ id := 2, client_id := 1, broker_id := 1, tenant_id := 20, insurance_company_id := 44,
             produto := none, linha_negocio := none, proposta := "P1", criada_em := none,
             status_proposta := none, forma_pagamento := none, valor := .vi 10,
             vencimento := some "2024-01-02", competencia := none, status_pagamento := none,
             motivo_pendencia := none, data := none }], [], [], 3⟩, Cnt.ex1)) := by
  exact C2_change_detection.1 1 [] _
    { proposta := .vs "P1", cpf := .vs "111", vencimento := .vs "2024-01-02", valor := .vi 20 }
    "2024-01-02" _ 1 (by decide) (by decide) (by decide) (by decide) (by decide)

/-! ### Claim C1 — idempotence of the four record syncs -/

/-- Two proposal batch items are compatible when, if both are eligible
dicts, their natural keys (`proposta`) differ. -/
def propCompat (m : Dict) (i j : Option PropRec) : Prop :=
  ∀ p q, i = some p → j = some q → propEligible m (some p) → propEligible m (some q) →
    propKey p ≠ propKey q

def vidaCompat (m : Dict) (i j : Option VidaRec) : Prop :=
  ∀ r q, i = some r → j = some q → vidaEligibleB m (some r) = true →
    vidaEligibleB m (some q) = true → vidaKey r ≠ vidaKey q

def prevCompat (m : Dict) (i j : Option PrevRec) : Prop :=
  ∀ r q, i = some r → j = some q → prevEligibleB m (some r) = true →
    prevEligibleB m (some q) = true → prevKey r ≠ prevKey q

def inadCompat (m : Dict) (i j : Option DefRec) : Prop :=
  ∀ r q, i = some r → j = some q → (resolveCpfInad m r).truthy = true →
    (resolveCpfInad m q).truthy = true → inadKey m r ≠ inadKey m q

/-- Claim C1: each of the four record syncs (proposals, life products,
pension products, pending payments) is idempotent on a well-formed
store when the batch's eligible records carry pairwise-distinct
natural keys and (for the product syncs) no record reaches the
per-record exception handler, whose `conn.rollback()` discards the
batch's earlier uncommitted work: a second run over the same batch
returns the store of the first run unchanged, inserts nothing,
updates nothing, and counts every eligible record as already
existing. -/
theorem C1_sync_idempotence :
    (∀ (l : List (Option PropRec)) (b : Nat) (m : Dict) (db : DB),
      db.WF → l.Pairwise (propCompat m) →
      (salvar_propostas_no_banco l b m (salvar_propostas_no_banco l b m db).1).1 =
          (salvar_propostas_no_banco l b m db).1 ∧
      (salvar_propostas_no_banco l b m (salvar_propostas_no_banco l b m db).1).2.ins = 0 ∧
      (salvar_propostas_no_banco l b m (salvar_propostas_no_banco l b m db).1).2.atu = 0 ∧
      (salvar_propostas_no_banco l b m (salvar_propostas_no_banco l b m db).1).2.ex =
          l.countP (fun it => decide (propEligible m it))) ∧
    (∀ (l : List (Option VidaRec)) (b : Nat) (cor : Val) (m : Dict) (db : DB),
      db.WF → l.Pairwise (vidaCompat m) → (∀ it ∈ l, vidaNoExc it) →
      (salvar_produtos_vida_no_banco l b cor m (salvar_produtos_vida_no_banco l b cor m db).1).1 =
          (salvar_produtos_vida_no_banco l b cor m db).1 ∧
      (salvar_produtos_vida_no_banco l b cor m (salvar_produtos_vida_no_banco l b cor m db).1).2.ins = 0 ∧
      (salvar_produtos_vida_no_banco l b cor m (salvar_produtos_vida_no_banco l b cor m db).1).2.atu = 0 ∧
      (salvar_produtos_vida_no_banco l b cor m (salvar_produtos_vida_no_banco l b cor m db).1).2.ex =
          l.countP (fun it => vidaEligibleB m it)) ∧
    (∀ (l : List (Option PrevRec)) (b : Nat) (cor : Val) (m : Dict) (db : DB),
      db.WF → l.Pairwise (prevCompat m) → (∀ it ∈ l, prevNoExc it) →
      (salvar_produtos_previdencia_no_banco l b cor m (salvar_produtos_previdencia_no_banco l b cor m db).1).1 =
          (salvar_produtos_previdencia_no_banco l b cor m db).1 ∧
      (salvar_produtos_previdencia_no_banco l b cor m (salvar_produtos_previdencia_no_banco l b cor m db).1).2.ins = 0 ∧
      (salvar_produtos_previdencia_no_banco l b cor m (salvar_produtos_previdencia_no_banco l b cor m db).1).2.atu = 0 ∧
      (salvar_produtos_previdencia_no_banco l b cor m (salvar_produtos_previdencia_no_banco l b cor m db).1).2.ex =
          l.countP (fun it => prevEligibleB m it)) ∧
    (∀ (l : List (Option DefRec)) (cor : Val) (m : Dict) (now : Now) (db : DB),
      db.WF → l.Pairwise (inadCompat m) →
      (salvar_inadimplentes_no_banco l cor m now (salvar_inadimplentes_no_banco l cor m now db).1).1 =
          (salvar_inadimplentes_no_banco l cor m now db).1 ∧
      (salvar_inadimplentes_no_banco l cor m now (salvar_inadimplentes_no_banco l cor m now db).1).2.ins = 0 ∧
      (salvar_inadimplentes_no_banco l cor m now (salvar_inadimplentes_no_banco l cor m now db).1).2.atu = 0 ∧
      (salvar_inadimplentes_no_banco l cor m now (salvar_inadimplentes_no_banco l cor m now db).1).2.ex =
          l.countP (fun it => inadEligibleB m now (salvar_inadimplentes_no_banco l cor m now db).1 it)) := by
  refine ⟨?_, ?_, ?_, ?_⟩
  · intro l b m db hWF hpair
    have hset := run_settles (processProposta b m) (propSettled b m) (propCompat m)
      (fun db r h => processProposta_WF h)
      (fun db r h => propSettled_self h)
      (fun db r r' h hs hc => propSettled_preserve h hs hc)
      l db hWF hpair
    exact run_stable (processProposta b m) (fun it => decide (propEligible m it)) l
      (salvar_propostas_no_banco l b m db).1
      (fun r hr => by
        have h := propSettled_noop (hset r hr)
        exact ⟨h.1, h.2.1, h.2.2.1, by
          show (processProposta b m (runBatch (processProposta b m) db l).1 r).2.ex =
            if decide (propEligible m r) = true then 1 else 0
          rw [h.2.2.2]; by_cases he : propEligible m r <;> simp [he]⟩)
  · intro l b cor m db hWF hpair hnx
    have hset := run_settles_mem (processVida b cor m db) (vidaSettled b cor m) (vidaCompat m)
      vidaNoExc
      (fun d r h => processVida_WF hWF h)
      (fun d r h => vidaSettled_self h)
      (fun d r r' hE h hs hc => vidaSettled_preserve h hs hc hE)
      l db hnx hWF hpair
    exact run_stable (processVida b cor m (salvar_produtos_vida_no_banco l b cor m db).1)
      (fun it => vidaEligibleB m it) l
      (salvar_produtos_vida_no_banco l b cor m db).1
      (fun r hr => vidaSettled_noop (hnx r hr) (hset r hr))
  · intro l b cor m db hWF hpair hnx
    have hset := run_settles_mem (processPrev b cor m db) (prevSettled b cor m) (prevCompat m)
      prevNoExc
      (fun d r h => processPrev_WF hWF h)
      (fun d r h => prevSettled_self h)
      (fun d r r' hE h hs hc => prevSettled_preserve h hs hc hE)
      l db hnx hWF hpair
    exact run_stable (processPrev b cor m (salvar_produtos_previdencia_no_banco l b cor m db).1)
      (fun it => prevEligibleB m it) l
      (salvar_produtos_previdencia_no_banco l b cor m db).1
      (fun r hr => prevSettled_noop (hnx r hr) (hset r hr))
  · intro l cor m now db hWF hpair
    have hset := run_settles (processInad cor m now) (inadSettled cor m now) (inadCompat m)
      (fun db r h => processInad_WF h)
      (fun db r h => inadSettled_self h)
      (fun db r r' h hs hc => inadSettled_preserve h hs hc)
      l db hWF hpair
    exact run_stable (processInad cor m now)
      (fun it => inadEligibleB m now (salvar_inadimplentes_no_banco l cor m now db).1 it) l
      (salvar_inadimplentes_no_banco l cor m now db).1
      (fun r hr => inadSettled_noop (hset r hr))

/-- Concrete data falsifying unrestricted idempotence: two proposal
dicts sharing the natural key `P1` but with different `valor`. -/
def ceProp1 : PropRec :=
  { proposta := .vs "P1", cpf := .vs "11122233344", vencimento := .vs "2024-01-02", valor := .vi 10 }

def ceProp2 : PropRec :=
  { proposta := .vs "P1", cpf := .vs "11122233344", vencimento := .vs "2024-01-02", valor := .vi 20 }

def ceEmptyDB : DB := ⟨[], [], [], [], [], 1⟩

/-- An active life product followed by one whose `situacao_produto` is
present but `None`: the latter raises in `.upper()` and its handler's
`conn.rollback()` discards the former's uncommitted insert. -/
def ceVidaActive : VidaRec := { situacao_produto := .vs "Ativo", id_cliente := .vi 5 }

def ceVidaNull : VidaRec := { situacao_produto := .vn, id_cliente := .vi 5 }

def ceVidaMap : Dict := [(.vi 5, .vs "11122233344")]

/-- Counterexample to C1 as frozen, in two independent ways.  First,
with two batch records sharing the natural key `P1` but different
`valor`, the second identical run of the proposal sync performs two
updates (each record keeps overwriting the single stored row with its
own value).  Second, a life-product batch of an active record followed
by a `None`-status record commits nothing on the first run (the raise
rolls the insert back) yet reports one insert, and the second
identical run again reports one insert, not zero.  So predicted rerun
counters (`0` updated / `0` inserted) are both wrong without the
amended restrictions. -/
theorem C1_sync_idempotence_counterexample :
    ((salvar_propostas_no_banco [some ceProp1, some ceProp2] 1 []
        (salvar_propostas_no_banco [some ceProp1, some ceProp2] 1 [] ceEmptyDB).1).2.atu = 2 ∧
      (2 : Nat) ≠ 0) ∧
    ((salvar_produtos_vida_no_banco [some ceVidaActive, some ceVidaNull] 1 (.vs "Cor") ceVidaMap
        ceEmptyDB).1 = ceEmptyDB ∧
      (salvar_produtos_vida_no_banco [some ceVidaActive, some ceVidaNull] 1 (.vs "Cor") ceVidaMap
        ceEmptyDB).2.ins = 1 ∧
      (salvar_produtos_vida_no_banco [some ceVidaActive, some ceVidaNull] 1 (.vs "Cor") ceVidaMap
        (salvar_produtos_vida_no_banco [some ceVidaActive, some ceVidaNull] 1 (.vs "Cor") ceVidaMap
          ceEmptyDB).1).2.ins = 1 ∧
      (1 : Nat) ≠ 0) := by
  refine ⟨⟨?_, ?_⟩, ?_, ?_, ?_, ?_⟩
  · decide
  · decide
  · decide
  · decide
  · decide
  · decide

def wVida : VidaRec := { situacao_produto := .vs "Ativo", id_cliente := .vi 5 }

def wPrev : PrevRec := { id_cliente := .vi 5 }

def wMap : Dict := [(.vi 5, .vs "123")]

def wDef : DefRec := { cpf_cliente := .vs "11122233344", vencimento_original := .vs "01/01/2024" }

def wInadDB : DB := ⟨[], [⟨1, 20, none, "CPF", .vs "11122233344", 1⟩], [], [], [], 2⟩

def wNow : Now := ⟨19724, 0⟩

/-- Witness for C1: each of the four syncs instantiated on a concrete
well-formed store and a singleton batch — the second run leaves the
first run's store unchanged, inserts and updates nothing, and counts
the one eligible record as existing. -/
theorem C1_sync_idempotence_witness :
    ((salvar_propostas_no_banco [some ceProp1] 1 []
        (salvar_propostas_no_banco [some ceProp1] 1 [] ceEmptyDB).1).1 =
          (salvar_propostas_no_banco [some ceProp1] 1 [] ceEmptyDB).1 ∧
      (salvar_propostas_no_banco [some ceProp1] 1 []
        (salvar_propostas_no_banco [some ceProp1] 1 [] ceEmptyDB).1).2.ins = 0 ∧
      (salvar_propostas_no_banco [some ceProp1] 1 []
        (salvar_propostas_no_banco [some ceProp1] 1 [] ceEmptyDB).1).2.atu = 0 ∧
      (salvar_propostas_no_banco [some ceProp1] 1 []
        (salvar_propostas_no_banco [some ceProp1] 1 [] ceEmptyDB).1).2.ex =
          List.countP (fun it => decide (propEligible [] it)) [some ceProp1]) ∧
    ((salvar_produtos_vida_no_banco [some wVida] 1 (.vs "Cor") wMap
        (salvar_produtos_vida_no_banco [some wVida] 1 (.vs "Cor") wMap ceEmptyDB).1).1 =
          (salvar_produtos_vida_no_banco [some wVida] 1 (.vs "Cor") wMap ceEmptyDB).1 ∧
      (salvar_produtos_vida_no_banco [some wVida] 1 (.vs "Cor") wMap
        (salvar_produtos_vida_no_banco [some wVida] 1 (.vs "Cor") wMap ceEmptyDB).1).2.ins = 0 ∧
      (salvar_produtos_vida_no_banco [some wVida] 1 (.vs "Cor") wMap
        (salvar_produtos_vida_no_banco [some wVida] 1 (.vs "Cor") wMap ceEmptyDB).1).2.atu = 0 ∧
      (salvar_produtos_vida_no_banco [some wVida] 1 (.vs "Cor") wMap
        (salvar_produtos_vida_no_banco [some wVida] 1 (.vs "Cor") wMap ceEmptyDB).1).2.ex =
          List.countP (fun it => vidaEligibleB wMap it) [some wVida]) ∧
    ((salvar_produtos_previdencia_no_banco [some wPrev] 1 (.vs "Cor") wMap
        (salvar_produtos_previdencia_no_banco [some wPrev] 1 (.vs "Cor") wMap ceEmptyDB).1).1 =
          (salvar_produtos_previdencia_no_banco [some wPrev] 1 (.vs "Cor") wMap ceEmptyDB).1 ∧
      (salvar_produtos_previdencia_no_banco [some wPrev] 1 (.vs "Cor") wMap
        (salvar_produtos_previdencia_no_banco [some wPrev] 1 (.vs "Cor") wMap ceEmptyDB).1).2.ins = 0 ∧
      (salvar_produtos_previdencia_no_banco [some wPrev] 1 (.vs "Cor") wMap
        (salvar_produtos_previdencia_no_banco [some wPrev] 1 (.vs "Cor") wMap ceEmptyDB).1).2.atu = 0 ∧
      (salvar_produtos_previdencia_no_banco [some wPrev] 1 (.vs "Cor") wMap
        (salvar_produtos_previdencia_no_banco [some wPrev] 1 (.vs "Cor") wMap ceEmptyDB).1).2.ex =
          List.countP (fun it => prevEligibleB wMap it) [some wPrev]) ∧
    ((salvar_inadimplentes_no_banco [some wDef] (.vs "Cor") [] wNow
        (salvar_inadimplentes_no_banco [some wDef] (.vs "Cor") [] wNow wInadDB).1).1 =
          (salvar_inadimplentes_no_banco [some wDef] (.vs "Cor") [] wNow wInadDB).1 ∧
      (salvar_inadimplentes_no_banco [some wDef] (.vs "Cor") [] wNow
        (salvar_inadimplentes_no_banco [some wDef] (.vs "Cor") [] wNow wInadDB).1).2.ins = 0 ∧
      (salvar_inadimplentes_no_banco [some wDef] (.vs "Cor") [] wNow
        (salvar_inadimplentes_no_banco [some wDef] (.vs "Cor") [] wNow wInadDB).1).2.atu = 0 ∧
      (salvar_inadimplentes_no_banco [some wDef] (.vs "Cor") [] wNow
        (salvar_inadimplentes_no_banco [some wDef] (.vs "Cor") [] wNow wInadDB).1).2.ex =
          List.countP
            (fun it => inadEligibleB [] wNow (salvar_inadimplentes_no_banco [some wDef] (.vs "Cor") [] wNow wInadDB).1 it)
            [some wDef]) :=
  ⟨C1_sync_idempotence.1 [some ceProp1] 1 [] ceEmptyDB (by decide)
      (List.Pairwise.cons (fun y hy => by cases hy) List.Pairwise.nil),
   C1_sync_idempotence.2.1 [some wVida] 1 (.vs "Cor") wMap ceEmptyDB (by decide)
      (List.Pairwise.cons (fun y hy => by cases hy) List.Pairwise.nil)
      (by intro it hit r hr; rcases List.mem_singleton.mp hit with rfl; cases hr; decide),
   C1_sync_idempotence.2.2.1 [some wPrev] 1 (.vs "Cor") wMap ceEmptyDB (by decide)
      (List.Pairwise.cons (fun y hy => by cases hy) List.Pairwise.nil)
      (by intro it hit r hr; rcases List.mem_singleton.mp hit with rfl; cases hr; decide),
   C1_sync_idempotence.2.2.2 [some wDef] (.vs "Cor") [] wNow wInadDB (by decide)
      (List.Pairwise.cons (fun y hy => by cases hy) List.Pairwise.nil)⟩
